import Mathlib

/-!
WMB level loader: a shallow embedding of `WMB::load` (src/wmb.cpp)

The input file is a finite list of bytes.  `WMB::load` is embedded as a total
function from the file contents, the `LoadOptions` and an `Env` (the values
the C++ source leaves indeterminate) to an `Outcome`.

Conventions fixed by the embedding:
* LP64 data model: `unsigned int`/`uint32_t` arithmetic is taken modulo `2^32`,
  `size_t` arithmetic modulo `2^64`, `long` holds every `uint32_t` value.
* A `float` is its IEEE-754 binary32 bit pattern (a `Nat` below `2^32`), read
  little-endian from the file.
* `File::read` loops `while(offset < n) offset += fread(..)`; at end of file
  `fread` returns `0` for ever, so a read that needs more bytes than the file
  holds never returns.  The embedding reports this as `Halt.hang`.
* Memory allocation is assumed never to fail; output to `std::cerr` is not
  part of the embedding.
-/

namespace WMB

/-! ## Bytes and little-endian words -/

abbrev Byte := Fin 256

/-- Little-endian value of a byte string (`reinterpret_cast` of the buffer on a
little-endian machine). -/
def leWord : List Byte → Nat
  | [] => 0
  | b :: bs => b.val + 256 * leWord bs

/-- The `n` bytes of `bs` starting at offset `off` (a field of a packed record). -/
def field (bs : List Byte) (off n : Nat) : List Byte := (bs.drop off).take n

/-- An unsigned little-endian integer field of `n` bytes at offset `off`. -/
def uintAt (bs : List Byte) (off n : Nat) : Nat := leWord (field bs off n)

/-! ## IEEE-754 binary32 values as bit patterns -/

/-- A `float`, as its 32-bit pattern. -/
abbrev F32 := Nat

namespace F32

/-- Sign bit. -/
def sign (x : F32) : Bool := x / 2 ^ 31 % 2 = 1

/-- Biased exponent field. -/
def expo (x : F32) : Nat := x / 2 ^ 23 % 2 ^ 8

/-- Fraction field. -/
def frac (x : F32) : Nat := x % 2 ^ 23

/-- The pattern without its sign bit. -/
def mag (x : F32) : Nat := x % 2 ^ 31

def isNaN (x : F32) : Bool := expo x = 255 && frac x ≠ 0

def isInf (x : F32) : Bool := expo x = 255 && frac x = 0

def isZero (x : F32) : Bool := mag x = 0

def isFinite (x : F32) : Bool := expo x ≠ 255

/-- The magnitude in units of `2^-149`: every finite binary32 magnitude is a
natural multiple of the smallest subnormal.  The same formula sends an
infinity above every finite value. -/
def scaled (x : F32) : Nat :=
  if expo x = 0 then frac x else (2 ^ 23 + frac x) * 2 ^ (expo x - 1)

/-- Signed magnitude in units of `2^-149`. -/
def key (x : F32) : Int := if sign x then -(scaled x : Int) else (scaled x : Int)

/-- Number of binary digits of a natural number. -/
def bitLenAux : Nat → Nat → Nat
  | 0, _ => 0
  | fuel + 1, n => if n = 0 then 0 else bitLenAux fuel (n / 2) + 1

def bitLen (n : Nat) : Nat := bitLenAux n n

/-- The quotient `n / d` rounded to the nearest integer, ties to even. -/
def rne (n d : Nat) : Nat :=
  let q := n / d
  let r := n % d
  if 2 * r < d then q
  else if d < 2 * r then q + 1
  else if q % 2 = 0 then q else q + 1

/-- Round-to-nearest-even of the positive quantity `(n / d) * 2^-149` to a
binary32 magnitude pattern.  `s` is the number of low bits that do not fit in
the 24-bit significand; `s * 2^23 + significand` is the pattern for subnormal
and normal results alike (a significand of `2^24` carries into the exponent),
and anything at or beyond the exponent field `255` is an overflow to infinity. -/
def roundMag (n d : Nat) : Nat :=
  let s := bitLen (n / d) - 24
  min (s * 2 ^ 23 + rne n (d * 2 ^ s)) 0x7F800000

def withSign (neg : Bool) (m : Nat) : F32 := (if neg then 2 ^ 31 else 0) + m

/-- The quiet NaN produced by an invalid operation or by an operation on a
NaN.  Sign and payload of NaN results are not modelled. -/
def qNaN : F32 := 0x7FC00000

def infBits : Nat := 0x7F800000

/-- IEEE multiplication, round to nearest even. -/
def mul (a b : F32) : F32 :=
  if isNaN a || isNaN b then qNaN
  else if (isInf a && isZero b) || (isZero a && isInf b) then qNaN
  else if isInf a || isInf b then withSign (xor (sign a) (sign b)) infBits
  else withSign (xor (sign a) (sign b)) (roundMag (scaled a * scaled b) (2 ^ 149))

/-- IEEE addition, round to nearest even. -/
def add (a b : F32) : F32 :=
  if isNaN a || isNaN b then qNaN
  else if isInf a && isInf b then (if sign a = sign b then withSign (sign a) infBits else qNaN)
  else if isInf a then withSign (sign a) infBits
  else if isInf b then withSign (sign b) infBits
  else
    let s : Int := key a + key b
    if s = 0 then withSign (sign a && sign b) 0
    else withSign (decide (s < 0)) (roundMag s.natAbs 1)

/-- IEEE division, round to nearest even. -/
def div (a b : F32) : F32 :=
  if isNaN a || isNaN b then qNaN
  else if (isInf a && isInf b) || (isZero a && isZero b) then qNaN
  else if isInf a || isZero b then withSign (xor (sign a) (sign b)) infBits
  else if isInf b then withSign (xor (sign a) (sign b)) 0
  else withSign (xor (sign a) (sign b)) (roundMag (scaled a * 2 ^ 149) (scaled b))

/-- Conversion of an unsigned integer to `float` (round to nearest even). -/
def ofNat (n : Nat) : F32 := roundMag (n * 2 ^ 149) 1

/-- The comparison `a < b` of two floats (false when either is a NaN). -/
def lt (a b : F32) : Bool := !isNaN a && !isNaN b && decide (key a < key b)

/-- The value truncated toward zero, as a magnitude. -/
def truncMag (x : F32) : Nat := scaled x / 2 ^ 149

/-- `1.0f`, `0.0f`, `-1.0f`. -/
def one : F32 := 0x3F800000

def zero : F32 := 0

def negOne : F32 := 0xBF800000

end F32

/-! ## IEEE-754 binary64, as far as `toColor` needs it -/

namespace F64

/-- Magnitude of a binary64 pattern in units of `2^-1074`. -/
def scaled (x : Nat) : Nat :=
  if x / 2 ^ 52 % 2 ^ 11 = 0 then x % 2 ^ 52
  else (2 ^ 52 + x % 2 ^ 52) * 2 ^ (x / 2 ^ 52 % 2 ^ 11 - 1)

/-- Round-to-nearest-even of `(n / d) * 2^-1074` to a binary64 magnitude. -/
def roundMag (n d : Nat) : Nat :=
  let s := F32.bitLen (n / d) - 53
  min (s * 2 ^ 52 + F32.rne n (d * 2 ^ s)) 0x7FF0000000000000

end F64

/-! ## The decoded scene (src/wmb.hpp) -/

structure Vec2 where
  x : F32
  y : F32
deriving DecidableEq, Repr

structure Vec3 where
  x : F32
  y : F32
  z : F32
deriving DecidableEq, Repr

structure Vec4 where
  x : F32
  y : F32
  z : F32
  w : F32
deriving DecidableEq, Repr

structure Euler where
  pan : F32
  tilt : F32
  roll : F32
deriving DecidableEq, Repr

/-- `Texture`; `format` holds `tex.type & 7` (RGB565 = 2, RGB888 = 4,
RGBA8888 = 5, DDS = 6). -/
structure Texture where
  name : List Byte
  width : Nat
  height : Nat
  format : Nat
  hasMipMaps : Bool
  levels : List (List Byte)
deriving DecidableEq, Repr

structure Lightmap where
  width : Nat
  height : Nat
  object : Option Nat
  data : List Byte
deriving DecidableEq, Repr

structure Material where
  name : List Byte
  isDefault : Bool
deriving DecidableEq, Repr

structure Vertex where
  position : Vec3
  uv : Vec2
  lightmap : Vec2
deriving DecidableEq, Repr

structure Triangle where
  v1 : Nat
  v2 : Nat
  v3 : Nat
  skin : Nat
deriving DecidableEq, Repr

structure Skin where
  texture : Nat
  lightmap : Nat
  material : Nat
  ambient : F32
  albedo : F32
  flags : Nat
deriving DecidableEq, Repr

structure Block where
  bbMin : Vec3
  bbMax : Vec3
  vertices : List Vertex
  triangles : List Triangle
  skins : List Skin
deriving DecidableEq, Repr

structure Info where
  azimuth : F32
  elevation : F32
  gamma : F32
  lightMapSize : Nat
  sunColor : Vec4
  ambientColor : Vec4
  fogColor : List Vec4
deriving DecidableEq, Repr

structure Position where
  name : List Byte
  origin : Vec3
  angle : Euler
deriving DecidableEq, Repr

structure Light where
  origin : Vec3
  color : Vec3
  range : F32
  flags : Nat
deriving DecidableEq, Repr

structure Sound where
  origin : Vec3
  volume : F32
  range : Nat
  flags : Nat
  fileName : List Byte
deriving DecidableEq, Repr

structure PathNode where
  position : Vec3
  skills : List F32
deriving DecidableEq, Repr

structure PathEdge where
  node1 : Nat
  node2 : Nat
  length : F32
  bezier : F32
  weight : F32
  skill : F32
deriving DecidableEq, Repr

structure Path where
  name : List Byte
  nodes : List PathNode
  edges : List PathEdge
deriving DecidableEq, Repr

structure Entity where
  isOldEntity : Bool
  origin : Vec3
  angle : Euler
  scale : Vec3
  name : List Byte
  fileName : List Byte
  action : List Byte
  skill : List F32
  flags : Nat
  ambient : F32
  albedo : F32
  path : Option Nat
  attachedEntity : Option Nat
  material : List Byte
  string1 : List Byte
  string2 : List Byte
deriving DecidableEq, Repr

structure Region where
  name : List Byte
  minimum : Vec3
  maximum : Vec3
deriving DecidableEq, Repr

/-- The `std::variant` held by `Level::objects`. -/
inductive Object where
  | position (p : Position)
  | light (l : Light)
  | sound (s : Sound)
  | path (p : Path)
  | entity (e : Entity)
  | region (r : Region)
deriving DecidableEq, Repr

structure Level where
  info : Info
  textures : List Texture
  materials : List Material
  lightmaps : List Lightmap
  terrain_lightmaps : List Lightmap
  blocks : List Block
  objects : List Object
deriving DecidableEq, Repr

/-- `LoadOptions::CoordinateSystem`; the three enumerators. -/
inductive CoordinateSystem where
  | Gamestudio
  | OpenGL
  | DirectX
deriving DecidableEq, Repr

/-- `LoadOptions`; `flags` is the `std::bitset<3>` (bit 0 = LOG_WARNINGS), which
only controls output to `std::cerr`. -/
structure LoadOptions where
  targetCoordinateSystem : CoordinateSystem
  flags : Nat
deriving DecidableEq, Repr

/-- The values the C++ source leaves indeterminate.  `Level level;` and
`Entity ent;`/`Lightmap lm;` default-initialise their scalar members, i.e. do
not initialise them; a `float` to integer cast of a value outside the target
range and a `std::string` built from an unterminated buffer have no defined
result.  The embedding takes whatever the platform produces there as a
parameter, so that a statement proved for every `Env` holds whatever these
values are. -/
structure Env where
  /-- Contents of `level.info` before any Info record is stored. -/
  uninitInfo : Info
  /-- Value of `lm.height` of the `i`-th terrain lightmap (never assigned). -/
  uninitHeight : Nat → Nat
  /-- Value of `ent.albedo` of an OldEntity (never assigned). -/
  uninitAlbedo : F32
  /-- Values of `ent.skill[8..19]` of an OldEntity (never assigned). -/
  uninitSkill : Nat → F32
  /-- Result of `static_cast<size_t>(f)` when `f` is out of range or NaN. -/
  castSize : F32 → Nat
  /-- Result of `static_cast<unsigned int>(f)` when `f` is out of range or NaN. -/
  castUInt : F32 → Nat
  /-- Bytes a `std::string` picks up behind an unterminated buffer. -/
  strTail : List Byte → List Byte

/-! ## The byte source (`struct File`) -/

/-- The ways in which `WMB::load` ends without a scene. -/
inductive Halt where
  /-- `return std::nullopt`. -/
  | nullopt
  /-- `std::terminate()` is called. -/
  | terminate
  /-- `std::array::at` throws `std::out_of_range`, which leaves `load`. -/
  | outOfRange
  /-- `File::read` loops for ever at end of file. -/
  | hang
  /-- An integer division by zero. -/
  | divZero
deriving DecidableEq, Repr

inductive Res (α : Type) where
  | ok (a : α) (pos : Nat)
  | halt (h : Halt)
deriving DecidableEq, Repr

/-- A computation on the open file: the contents are fixed, the cursor is the
state. -/
def Rd (α : Type) : Type := List Byte → Nat → Res α

namespace Rd

def pure {α : Type} (a : α) : Rd α := fun _ pos => Res.ok a pos

def bind {α β : Type} (x : Rd α) (f : α → Rd β) : Rd β := fun data pos =>
  match x data pos with
  | Res.ok a pos1 => f a data pos1
  | Res.halt h => Res.halt h

instance : Monad Rd where
  pure := Rd.pure
  bind := Rd.bind

/-- Leave `load` without a scene. -/
def stop {α : Type} (h : Halt) : Rd α := fun _ _ => Res.halt h

/-- `File::seek` (`fseek(f, offset, SEEK_SET)`); seeking behind the end of the
file succeeds. -/
def seek (offset : Nat) : Rd Unit := fun _ _ => Res.ok () offset

/-- `File::read<T>()` with `n = sizeof(T)` and `File::read(n)`: the loop
`while(offset < n) offset += fread(..)` ends at once for `n = 0`, returns the
next `n` bytes when the file holds them, and otherwise never ends. -/
def read (n : Nat) : Rd (List Byte) := fun data pos =>
  if n = 0 then Res.ok [] pos
  else if pos + n ≤ data.length then Res.ok (field data pos n) (pos + n)
  else Res.halt Halt.hang

/-- `f.read<uint32_t>()`. -/
def readU32 : Rd Nat := do
  let bs ← read 4
  return leWord bs

/-- The loop `for(i = 0; i < n; i++) out.push_back(x)`. -/
def times {α : Type} : Nat → Rd α → Rd (List α)
  | 0, _ => return []
  | n + 1, x => do
    let a ← x
    let rest ← times n x
    return a :: rest

end Rd

open Rd

/-! ## Packed records of the file format (src/wmb.cpp) -/

def f32At (bs : List Byte) (off : Nat) : F32 := uintAt bs off 4

def vec3At (bs : List Byte) (off : Nat) : Vec3 :=
  ⟨f32At bs off, f32At bs (off + 4), f32At bs (off + 8)⟩

def floatsAt (bs : List Byte) (off n : Nat) : List F32 :=
  (List.range n).map (fun i => f32At bs (off + 4 * i))

structure LIST where
  offset : Nat
  length : Nat
deriving DecidableEq, Repr

def listAt (bs : List Byte) (off : Nat) : LIST := ⟨uintAt bs off 4, uintAt bs (off + 4) 4⟩

/-- `WMB_HEADER` (164 bytes): the version tag and the six directory entries
that `load` uses, at their byte offsets `4 + 8 * k` for the entry number `k`
(textures 2, materials 6, objects 15, lightmaps 16, blocks 17,
lightmaps_terrain 19). -/
structure WMB_HEADER where
  version : List Byte
  textures : LIST
  materials : LIST
  objects : LIST
  lightmaps : LIST
  blocks : LIST
  lightmaps_terrain : LIST
deriving DecidableEq, Repr

def parseHeader (bs : List Byte) : WMB_HEADER where
  version := field bs 0 4
  textures := listAt bs 20
  materials := listAt bs 52
  objects := listAt bs 124
  lightmaps := listAt bs 132
  blocks := listAt bs 140
  lightmaps_terrain := listAt bs 156

/-- The characters of `"WMB7"`. -/
def magic : List Byte := [87, 77, 66, 55]

/-- `TEXTURE` (40 bytes): name 0..15, width 16, height 20, type 24, legacy 28..39. -/
structure TEXTURE where
  name : List Byte
  width : Nat
  height : Nat
  type : Nat
deriving DecidableEq, Repr

def parseTEXTURE (bs : List Byte) : TEXTURE where
  name := field bs 0 16
  width := uintAt bs 16 4
  height := uintAt bs 20 4
  type := uintAt bs 24 4

/-- `WMB_INFO` (62 bytes, packed): origin 0, azimuth 12, elevation 16, flags 20,
version 24, gamma 28, LMapSize 29, unused 30..37, dwSunColor 38,
dwAmbientColor 42, dwFogColor 46..61. -/
structure WMB_INFO where
  azimuth : F32
  elevation : F32
  gamma : Nat
  LMapSize : Nat
  dwSunColor : Nat
  dwAmbientColor : Nat
  dwFogColor : List Nat
deriving DecidableEq, Repr

def parseINFO (bs : List Byte) : WMB_INFO where
  azimuth := f32At bs 12
  elevation := f32At bs 16
  gamma := uintAt bs 28 1
  LMapSize := uintAt bs 29 1
  dwSunColor := uintAt bs 38 4
  dwAmbientColor := uintAt bs 42 4
  dwFogColor := (List.range 4).map (fun i => uintAt bs (46 + 4 * i) 4)

/-- `PATH_EDGE` (24 bytes). -/
structure PATH_EDGE where
  fNode1 : F32
  fNode2 : F32
  fLength : F32
  fBezier : F32
  fWeight : F32
  fSkill : F32
deriving DecidableEq, Repr

def parseEDGE (bs : List Byte) : PATH_EDGE where
  fNode1 := f32At bs 0
  fNode2 := f32At bs 4
  fLength := f32At bs 8
  fBezier := f32At bs 12
  fWeight := f32At bs 16
  fSkill := f32At bs 20

/-! ## Helpers of src/wmb.cpp -/

/-- One component of `toColor`: `select(val, byte) / 255.0` is a `double`
division and the `glm::vec4` constructor converts the quotient to `float`. -/
def colorComponent (b : Nat) : F32 :=
  F32.roundMag (F64.scaled (F64.roundMag (b * 2 ^ 1074) 255)) (2 ^ 925)

/-- The `select` lambda of `toColor`: `(val >> (4 * byte)) & 0xFF`. -/
def select (val byte : Nat) : Nat := (val >>> (4 * byte)) &&& 0xFF

def toColor (val : Nat) : Vec4 :=
  ⟨colorComponent (select val 3), colorComponent (select val 2),
   colorComponent (select val 1), colorComponent (select val 0)⟩

/-- `toString`: `strncpy` into a buffer of `N + 1` chars whose last char is
never written, then `std::string(buffer)`.  The string ends at the first NUL of
the field; a field without a NUL is followed by whatever lies behind it. -/
def toString (env : Env) (chars : List Byte) : List Byte :=
  if chars.all (fun c => c ≠ 0) then chars ++ env.strTail chars
  else chars.takeWhile (fun c => c ≠ 0)

def toEuler (bs : List Byte) (off : Nat) : Euler :=
  ⟨f32At bs off, f32At bs (off + 4), f32At bs (off + 8)⟩

/-- A `glm::mat3`, by columns. -/
structure Mat3 where
  c0 : Vec3
  c1 : Vec3
  c2 : Vec3
deriving DecidableEq, Repr

/-- The glm product `v * m` of a row vector and a matrix:
`(m[0][0]*v.x + m[0][1]*v.y + m[0][2]*v.z, ..)`, evaluated left to right in
`float` arithmetic. -/
def vecMulMat (v : Vec3) (m : Mat3) : Vec3 where
  x := F32.add (F32.add (F32.mul m.c0.x v.x) (F32.mul m.c0.y v.y)) (F32.mul m.c0.z v.z)
  y := F32.add (F32.add (F32.mul m.c1.x v.x) (F32.mul m.c1.y v.y)) (F32.mul m.c1.z v.z)
  z := F32.add (F32.add (F32.mul m.c2.x v.x) (F32.mul m.c2.y v.y)) (F32.mul m.c2.z v.z)

/-- The matrix chosen by the `mapVec` lambda. -/
def mapMatrix : CoordinateSystem → Mat3
  | CoordinateSystem.Gamestudio =>
    ⟨⟨F32.one, F32.zero, F32.zero⟩, ⟨F32.zero, F32.one, F32.zero⟩, ⟨F32.zero, F32.zero, F32.one⟩⟩
  | CoordinateSystem.OpenGL =>
    ⟨⟨F32.zero, F32.negOne, F32.zero⟩, ⟨F32.zero, F32.zero, F32.one⟩, ⟨F32.negOne, F32.zero, F32.zero⟩⟩
  | CoordinateSystem.DirectX =>
    ⟨⟨F32.zero, F32.negOne, F32.zero⟩, ⟨F32.zero, F32.zero, F32.one⟩, ⟨F32.one, F32.zero, F32.zero⟩⟩

def mapVec (options : LoadOptions) (v : Vec3) : Vec3 :=
  vecMulMat v (mapMatrix options.targetCoordinateSystem)

def mapScale (options : LoadOptions) (v : Vec3) : Vec3 :=
  match options.targetCoordinateSystem with
  | CoordinateSystem.Gamestudio => v
  | CoordinateSystem.OpenGL => ⟨v.x, v.z, v.y⟩
  | CoordinateSystem.DirectX => ⟨v.x, v.z, v.y⟩

/-- `static_cast<size_t>(f)`: truncation toward zero when the truncated value
is representable, otherwise whatever the platform yields. -/
def toSize (env : Env) (f : F32) : Nat :=
  if !F32.isNaN f && (!F32.sign f || F32.truncMag f = 0) && F32.truncMag f < 2 ^ 64
  then F32.truncMag f else env.castSize f % 2 ^ 64

/-- `static_cast<unsigned int>(f)`. -/
def toUInt (env : Env) (f : F32) : Nat :=
  if !F32.isNaN f && (!F32.sign f || F32.truncMag f = 0) && F32.truncMag f < 2 ^ 32
  then F32.truncMag f else env.castUInt f % 2 ^ 32

/-! ## Texture, material and block decoders -/

/-- The loop `for(miplevel = 0; miplevel < 3; miplevel++)` of the raw formats:
read `datalen` bytes, quarter `datalen`, leave the loop when it reaches zero.
The first argument counts the iterations left. -/
def readLevels : Nat → Nat → Rd (List (List Byte))
  | 0, _ => return []
  | n + 1, datalen => do
    let lv ← read datalen
    if datalen / 4 = 0 then return [lv]
    else do
      let rest ← readLevels n (datalen / 4)
      return lv :: rest

/-- The `switch(texture.format)` giving the bytes per pixel of a raw format. -/
def bytesPerPixel (format : Nat) : Rd Nat :=
  if format = 2 then return 2
  else if format = 4 then return 3
  else if format = 5 then return 4
  else stop Halt.terminate

/-- One iteration of the texture loop, for the table entry `off`. -/
def loadTexture (env : Env) (base off : Nat) : Rd Texture := do
  seek ((base + off) % 2 ^ 32)
  let tex := parseTEXTURE (← read 40)
  let format := tex.type &&& 0x07
  let hasMipMaps := decide (tex.type &&& 8 ≠ 0)
  if format = 6 then do
    let lv ← read tex.width
    return ⟨toString env tex.name, tex.width, tex.height, format, hasMipMaps, [lv]⟩
  else do
    let bpp ← bytesPerPixel format
    let datalen := bpp * tex.width * tex.height % 2 ^ 64
    let levels ← readLevels 3 datalen
    return ⟨toString env tex.name, tex.width, tex.height, format, hasMipMaps, levels⟩

def loadTextureList (env : Env) (base : Nat) : List Nat → Rd (List Texture)
  | [] => return []
  | off :: offsets => do
    let t ← loadTexture env base off
    let rest ← loadTextureList env base offsets
    return t :: rest

def loadTextures (env : Env) (header : WMB_HEADER) : Rd (List Texture) :=
  if header.textures.offset ≠ 0 then do
    seek header.textures.offset
    let texcount ← readU32
    let offsets ← times texcount readU32
    loadTextureList env header.textures.offset offsets
  else return []

/-- One `MATERIAL_INFO` (64 bytes: legacy 0..43, material 44..63). -/
def loadMaterial (env : Env) : Rd Material := do
  let info ← read 64
  return ⟨toString env (field info 44 20), decide (field info 44 4 = [0, 100, 101, 102])⟩

def loadMaterials (env : Env) (header : WMB_HEADER) : Rd (List Material) :=
  if header.materials.offset ≠ 0 then do
    seek header.materials.offset
    times (header.materials.length / 64) (loadMaterial env)
  else return []

/-- One `VERTEX` (28 bytes). -/
def loadVertex (options : LoadOptions) : Rd Vertex := do
  let v ← read 28
  return ⟨mapVec options (vec3At v 0), ⟨f32At v 12, f32At v 16⟩, ⟨f32At v 20, f32At v 24⟩⟩

/-- One `TRIANGLE` (12 bytes: v1 0, v2 2, v3 4, skin 6, unused 8). -/
def loadTriangle (options : LoadOptions) : Rd Triangle := do
  let t ← read 12
  if options.targetCoordinateSystem = CoordinateSystem.OpenGL then
    return ⟨uintAt t 0 2, uintAt t 4 2, uintAt t 2 2, uintAt t 6 2⟩
  else
    return ⟨uintAt t 0 2, uintAt t 2 2, uintAt t 4 2, uintAt t 6 2⟩

/-- One `SKIN` (20 bytes: texture 0, lightmap 2, material 4, ambient 8,
albedo 12, flags 16). -/
def loadSkin : Rd Skin := do
  let s ← read 20
  return ⟨uintAt s 0 2, uintAt s 2 2, uintAt s 4 4, f32At s 8, f32At s 12, uintAt s 16 4⟩

/-- One `BLOCK` (40 bytes: fMins 0, fMaxs 12, lContent 24, lNumVerts 28,
lNumTris 32, lNumSkins 36) with its vertices, triangles and skins. -/
def loadBlock (options : LoadOptions) : Rd Block := do
  let bl ← read 40
  let vertices ← times (uintAt bl 28 4) (loadVertex options)
  let triangles ← times (uintAt bl 32 4) (loadTriangle options)
  let skins ← times (uintAt bl 36 4) loadSkin
  return ⟨vec3At bl 0, vec3At bl 12, vertices, triangles, skins⟩

def loadBlocks (options : LoadOptions) (header : WMB_HEADER) : Rd (List Block) :=
  if header.blocks.offset ≠ 0 then do
    seek header.blocks.offset
    let blockcount ← readU32
    times blockcount (loadBlock options)
  else return []

/-! ## Object decoder -/

/-- The part of the state of `load` that the object loop updates: the flag
`hasInfo`, `level.info` and `level.objects`. -/
structure ObjState where
  hasInfo : Bool
  info : Info
  objects : List Object
deriving DecidableEq, Repr

def lightMapSizes : List Nat := [256, 512, 1024]

/-- The `Info` that `case OBJECT_TYPE::Info` fills in from the record; `size` is
`lightMapSizes.at(inf.LMapSize)`. -/
def makeInfo (inf : WMB_INFO) (size : Nat) : Info where
  azimuth := inf.azimuth
  elevation := inf.elevation
  gamma := F32.div (F32.ofNat inf.gamma) (F32.ofNat 255)
  lightMapSize := size
  sunColor := toColor inf.dwSunColor
  ambientColor := toColor inf.dwAmbientColor
  fogColor := inf.dwFogColor.map toColor

/-- `case OBJECT_TYPE::Info`: the record is read; it is dropped if an Info was
seen before, otherwise `lightMapSizes.at` throws for a selector above 2 and the
Info is stored. -/
def loadInfo (st : ObjState) : Rd ObjState := do
  let inf := parseINFO (← read 62)
  if st.hasInfo then return st
  else
    match lightMapSizes.get? inf.LMapSize with
    | none => stop Halt.outOfRange
    | some size => return ⟨true, makeInfo inf size, st.objects⟩

/-- `case OBJECT_TYPE::Light`; `WMB_LIGHT` (32 bytes: origin 0, red 12,
green 16, blue 20, range 24, flags 28). -/
def loadLight (options : LoadOptions) : Rd Object := do
  let l ← read 32
  return Object.light ⟨mapVec options (vec3At l 0), vec3At l 12, f32At l 24, uintAt l 28 4⟩

/-- The body of the edge loop after the read: `none` for an edge that is
skipped by one of the three `continue`s. -/
def decodeEdge (env : Env) (nodes : Nat) (ed : PATH_EDGE) : Option PathEdge :=
  if F32.lt ed.fNode1 F32.one || F32.lt ed.fNode2 F32.one then none
  else if F32.lt (F32.ofNat nodes) ed.fNode1 || F32.lt (F32.ofNat nodes) ed.fNode2 then none
  else
    let node1 := (toUInt env ed.fNode1 + 2 ^ 32 - 1) % 2 ^ 32
    let node2 := (toUInt env ed.fNode2 + 2 ^ 32 - 1) % 2 ^ 32
    if node1 = node2 then none
    else some ⟨node1, node2, ed.fLength, ed.fBezier, ed.fWeight, ed.fSkill⟩

/-- `case OBJECT_TYPE::Path`; `WMB_PATH` (40 bytes: name 0, fNumPoints 20,
unused 24, num_edges 36).  The edge loop reads every `PATH_EDGE` and keeps the
ones that pass `decodeEdge`. -/
def loadPath (options : LoadOptions) (env : Env) : Rd Object := do
  let e ← read 40
  let count := toSize env (f32At e 20)
  let positions ← times count (read 12)
  let skills ← times count (read 24)
  let nodes := List.zipWith (fun p s => PathNode.mk (mapVec options (vec3At p 0)) (floatsAt s 0 6))
    positions skills
  let edges ← times (uintAt e 36 4) (read 24)
  return Object.path ⟨toString env (field e 0 20), nodes,
    edges.filterMap (fun ed => decodeEdge env nodes.length (parseEDGE ed))⟩

/-- `case OBJECT_TYPE::Position`; `WMB_POSITION` (52 bytes: origin 0, angle 12,
unused 24, name 32). -/
def loadPosition (options : LoadOptions) (env : Env) : Rd Object := do
  let p ← read 52
  return Object.position ⟨toString env (field p 32 20), mapVec options (vec3At p 0), toEuler p 12⟩

/-- `case OBJECT_TYPE::Sound`; `WMB_SOUND` (65 bytes: origin 0, volume 12,
unused 16, range 24, flags 28, filename 32). -/
def loadSound (options : LoadOptions) (env : Env) : Rd Object := do
  let s ← read 65
  return Object.sound ⟨mapVec options (vec3At s 0), f32At s 12, uintAt s 24 4, uintAt s 28 4,
    toString env (field s 32 33)⟩

/-- The conversion `(x == 0) ? nullopt : uio(x - 1)` of a 1-based `uint32_t`
reference. -/
def optIndex (x : Nat) : Option Nat :=
  if x = 0 then none else some ((x + 2 ^ 32 - 1) % 2 ^ 32)

/-- The value of an `int32_t` whose four bytes form the word `x`. -/
def toInt32 (x : Nat) : Int := if x < 2 ^ 31 then (x : Int) else (x : Int) - 2 ^ 32

/-- The conversion `(e.path == 0) ? nullopt : uio(e.path - 1)` of the `int32_t`
field `path`: the difference is formed in `int` and converted to
`unsigned int`, i.e. reduced modulo 2^32 (at `INT_MIN` the difference wraps,
as the two's complement machine instruction does). -/
def optIndexInt (x : Nat) : Option Nat :=
  if toInt32 x = 0 then none else some ((toInt32 x - 1) % 2 ^ 32).toNat

/-- `case OBJECT_TYPE::Entity`; `WMB_ENTITY` (368 bytes: origin 0, angle 12,
scale 24, name 36, filename 69, action 102, unused1 135, skill 136, flags 216,
ambient 220, albedo 224, path 228 (an `int32_t`), entity2 232 (a `uint32_t`),
material 236, string1 269, string2 302, unused2 335). -/
def loadEntity (options : LoadOptions) (env : Env) : Rd Object := do
  let e ← read 368
  return Object.entity
    { isOldEntity := false
      origin := mapVec options (vec3At e 0)
      angle := toEuler e 12
      scale := mapScale options (vec3At e 24)
      name := toString env (field e 36 33)
      fileName := toString env (field e 69 33)
      action := toString env (field e 102 33)
      skill := floatsAt e 136 20
      flags := uintAt e 216 4
      ambient := f32At e 220
      albedo := f32At e 224
      path := optIndexInt (uintAt e 228 4)
      attachedEntity := optIndex (uintAt e 232 4)
      material := toString env (field e 236 33)
      string1 := toString env (field e 269 33)
      string2 := toString env (field e 302 33) }

/-- `case OBJECT_TYPE::OldEntity`; `WMB_OLD_ENTITY` (129 bytes: origin 0,
angle 12, scale 24, name 36, filename 56, action 69, skill 89, flags 121,
ambient 125).  `albedo` and `skill[8..19]` are never assigned. -/
def loadOldEntity (options : LoadOptions) (env : Env) : Rd Object := do
  let e ← read 129
  return Object.entity
    { isOldEntity := true
      origin := mapVec options (vec3At e 0)
      angle := toEuler e 12
      scale := mapScale options (vec3At e 24)
      name := toString env (field e 36 20)
      fileName := toString env (field e 56 13)
      action := toString env (field e 69 20)
      skill := floatsAt e 89 8 ++ (List.range 12).map (fun i => env.uninitSkill (8 + i))
      flags := uintAt e 121 4
      ambient := f32At e 125
      albedo := env.uninitAlbedo
      path := none
      attachedEntity := none
      material := []
      string1 := []
      string2 := [] }

/-- `case OBJECT_TYPE::Region`; `REGION` (64 bytes: min 0, max 12, val_a 24,
val_b 28, name 32). -/
def loadRegion (env : Env) : Rd Object := do
  let reg ← read 64
  return Object.region ⟨toString env (field reg 32 32), vec3At reg 0, vec3At reg 12⟩

def push (st : ObjState) (o : Object) : ObjState := ⟨st.hasInfo, st.info, st.objects ++ [o]⟩

/-- One iteration of the object loop, for the table entry `off`: seek, read the
type tag, `switch(type)`. -/
def loadObject (options : LoadOptions) (env : Env) (base : Nat) (st : ObjState) (off : Nat) :
    Rd ObjState := do
  seek ((base + off) % 2 ^ 32)
  let type ← readU32
  if type = 5 then loadInfo st
  else if type = 2 then return push st (← loadLight options)
  else if type = 6 then return push st (← loadPath options env)
  else if type = 1 then return push st (← loadPosition options env)
  else if type = 4 then return push st (← loadSound options env)
  else if type = 7 then return push st (← loadEntity options env)
  else if type = 3 then return push st (← loadOldEntity options env)
  else if type = 8 then return push st (← loadRegion env)
  else stop Halt.terminate

def loadObjectList (options : LoadOptions) (env : Env) (base : Nat) :
    List Nat → ObjState → Rd ObjState
  | [], st => return st
  | off :: offsets, st => do
    let st1 ← loadObject options env base st off
    loadObjectList options env base offsets st1

/-! ## Lightmap decoders and `load` -/

/-- One regular lightmap of the resolution `size`; the byte count is the
`unsigned int` product `3 * lm.width * lm.height`. -/
def loadLightmap (size : Nat) : Rd Lightmap := do
  let data ← read (3 * size * size % 2 ^ 32)
  return ⟨size, size, none, data⟩

def loadLightmaps (header : WMB_HEADER) (size : Nat) : Rd (List Lightmap) :=
  if header.lightmaps.offset ≠ 0 then do
    seek header.lightmaps.offset
    if 3 * size * size % 2 ^ 32 = 0 then stop Halt.divZero
    else times (header.lightmaps.length / (3 * size * size % 2 ^ 32)) (loadLightmap size)
  else return []

/-- The terrain lightmap loop from its `i`-th iteration on, `n` iterations
left.  `LIGHTMAP_TERRAIN` is 12 bytes (object 0, width 4, height 8); the source
assigns `lm.width` twice (`obj.width`, then `obj.height`) and `lm.height`
never. -/
def loadTerrainList (env : Env) : Nat → Nat → Rd (List Lightmap)
  | _, 0 => return []
  | i, n + 1 => do
    let obj ← read 12
    let width := uintAt obj 8 4
    let height := env.uninitHeight i % 2 ^ 32
    let data ← read (3 * width * height % 2 ^ 32)
    let rest ← loadTerrainList env (i + 1) n
    return ⟨width, height, some (uintAt obj 0 4), data⟩ :: rest

def loadTerrain (env : Env) (header : WMB_HEADER) : Rd (List Lightmap) :=
  if header.lightmaps_terrain.offset ≠ 0 then do
    seek header.lightmaps_terrain.offset
    let lmcount ← readU32
    loadTerrainList env 0 lmcount
  else return []

/-- The rest of `load` once the object offset table `offsets` is read: the
object loop, the check of the lightmap resolution, the two lightmap decoders. -/
def loadFrom (options : LoadOptions) (env : Env) (header : WMB_HEADER)
    (textures : List Texture) (materials : List Material) (blocks : List Block)
    (offsets : List Nat) : Rd Level := do
  let st ← loadObjectList options env header.objects.offset offsets ⟨false, env.uninitInfo, []⟩
  if st.info.lightMapSize = 0 then stop Halt.terminate
  else do
    let lightmaps ← loadLightmaps header st.info.lightMapSize
    let terrain ← loadTerrain env header
    return ⟨st.info, textures, materials, lightmaps, terrain, blocks, st.objects⟩

/-- The body of `WMB::load` on an opened file. -/
def loadM (options : LoadOptions) (env : Env) : Rd Level := do
  let header := parseHeader (← read 164)
  if header.version ≠ magic then stop Halt.nullopt
  else do
    let textures ← loadTextures env header
    let materials ← loadMaterials env header
    let blocks ← loadBlocks options header
    seek header.objects.offset
    let objcount ← readU32
    let objoffets ← times objcount readU32
    loadFrom options env header textures materials blocks objoffets

/-- What a call of `WMB::load` amounts to. -/
inductive Outcome where
  /-- `load` returns the level. -/
  | scene (level : Level)
  /-- `load` does not return a level. -/
  | stop (h : Halt)
deriving DecidableEq, Repr

/-- `WMB::load` on a file with the contents `data` (a file that `fopen` opens). -/
def load (data : List Byte) (options : LoadOptions) (env : Env) : Outcome :=
  match loadM options env data 0 with
  | Res.ok level _ => Outcome.scene level
  | Res.halt h => Outcome.stop h

end WMB

namespace WMB
open Rd

/-! ## The file as the decoder addresses it -/

/-- The header that `load` reads from the first 164 bytes. -/
def headerOf (data : List Byte) : WMB_HEADER := parseHeader (field data 0 164)

/-- The file position of the record that an object table entry `off` points at. -/
def recPos (data : List Byte) (off : Nat) : Nat := ((headerOf data).objects.offset + off) % 2 ^ 32

/-- The type tag of the record that an object table entry `off` points at. -/
def recTag (data : List Byte) (off : Nat) : Nat := uintAt data (recPos data off) 4

/-- The object count, read at the offset of the objects section. -/
def objCount (data : List Byte) : Nat := uintAt data (headerOf data).objects.offset 4

/-- Entry `i` of the object offset table. -/
def objEntry (data : List Byte) (i : Nat) : Nat :=
  uintAt data ((headerOf data).objects.offset + 4 + 4 * i) 4

/-- The file position of the record of the `i`-th object. -/
def objPos (data : List Byte) (i : Nat) : Nat := recPos data (objEntry data i)

/-- The type tag of the `i`-th object. -/
def objTag (data : List Byte) (i : Nat) : Nat := recTag data (objEntry data i)

/-- The object offset table. -/
def objTable (data : List Byte) : List Nat := (List.range (objCount data)).map (objEntry data)

/-- The texture count. -/
def texCount (data : List Byte) : Nat := uintAt data (headerOf data).textures.offset 4

/-- Entry `i` of the texture offset table. -/
def texEntry (data : List Byte) (i : Nat) : Nat :=
  uintAt data ((headerOf data).textures.offset + 4 + 4 * i) 4

/-- The file position of the `i`-th texture record. -/
def texPos (data : List Byte) (i : Nat) : Nat :=
  ((headerOf data).textures.offset + texEntry data i) % 2 ^ 32

/-- The type word of the `i`-th texture record. -/
def texType (data : List Byte) (i : Nat) : Nat := uintAt data (texPos data i + 24) 4

/-- The result of a computation without the final cursor. -/
def Res.forget {α : Type} : Res α → Res α
  | Res.ok a _ => Res.ok a 0
  | Res.halt h => Res.halt h

/-- The outcome of `load` that a run of its body amounts to. -/
def Res.outcome : Res Level → Outcome
  | Res.ok level _ => Outcome.scene level
  | Res.halt h => Outcome.stop h

/-- The body of `load` with the object offset table `offsets` in place of the
table stored in the file: header, magic check, textures, materials and blocks
as in `loadM`, then `loadFrom` on `offsets`. -/
def loadWithTable (options : LoadOptions) (env : Env) (offsets : List Nat) : Rd Level := do
  let header := parseHeader (← read 164)
  if header.version ≠ magic then stop Halt.nullopt
  else do
    let textures ← loadTextures env header
    let materials ← loadMaterials env header
    let blocks ← loadBlocks options header
    loadFrom options env header textures materials blocks offsets

/-- A computation that ends without a value only by reading past the end of
the file. -/
def OnlyHang {α : Type} (m : Rd α) : Prop := ∀ d p e, m d p = Res.halt e → e = Halt.hang

/-- The comparison `a == b` of two floats: neither is a NaN and the values
agree (the two zeros are equal). -/
def F32.numEq (a b : F32) : Bool := !F32.isNaN a && !F32.isNaN b && decide (F32.key a = F32.key b)

/-- A sum of a finite `a` and signed zeros: `a` itself, or a zero when `a` is
a zero. -/
def F32.Near (a r : Nat) : Prop := r = a ∨ (F32.scaled a = 0 ∧ ∃ s, r = F32.withSign s 0)

/-! ## The edge filter in the words of the specification -/

/-- The comparison `k <= x` of a natural number and a float, by value (false
for a NaN). -/
def F32.natLe (k : Nat) (x : F32) : Bool :=
  !F32.isNaN x && decide ((k : Int) * 2 ^ 149 ≤ F32.key x)

/-- The comparison `x <= k` of a float and a natural number, by value (false
for a NaN). -/
def F32.leNat (x : F32) (k : Nat) : Bool :=
  !F32.isNaN x && decide (F32.key x ≤ (k : Int) * 2 ^ 149)

/-- The `n` records of a `PATH_EDGE` array that starts at the file position `pos`. -/
def edgeArray (data : List Byte) (pos n : Nat) : List PATH_EDGE :=
  (List.range n).map (fun i => parseEDGE (field data (pos + 24 * i) 24))

/-- The edges that the specification retains for a path of `n` nodes: both
references `r` satisfy `1 <= r <= n` and the two differ after truncation. -/
def specKeeps (n : Nat) (ed : PATH_EDGE) : Bool :=
  F32.natLe 1 ed.fNode1 && F32.leNat ed.fNode1 n &&
  F32.natLe 1 ed.fNode2 && F32.leNat ed.fNode2 n &&
  decide (F32.truncMag ed.fNode1 ≠ F32.truncMag ed.fNode2)

/-- The 0-based edge that the specification makes of a retained file edge. -/
def specEdge (ed : PATH_EDGE) : PathEdge :=
  ⟨F32.truncMag ed.fNode1 - 1, F32.truncMag ed.fNode2 - 1,
    ed.fLength, ed.fBezier, ed.fWeight, ed.fSkill⟩

/-- The edge list that the specification describes: the retained edges in file
order, with 0-based node indices and the four scalars copied. -/
def specEdges (n : Nat) (eds : List PATH_EDGE) : List PathEdge :=
  (eds.filter (specKeeps n)).map specEdge

end WMB

namespace WMB

/-! ## Reference values for the mappers, the texture levels and the triangles -/

/-- The negation `-x` of a float: the sign bit flipped. -/
def F32.neg (x : F32) : F32 := F32.withSign (!F32.sign x) (F32.mag x)

/-- The three components are patterns of 32 bits. -/
def Vec3.IsFloat (v : Vec3) : Prop := v.x < 2 ^ 32 ∧ v.y < 2 ^ 32 ∧ v.z < 2 ^ 32

/-- No component is an infinity or a NaN. -/
def Vec3.finite (v : Vec3) : Bool := F32.isFinite v.x && F32.isFinite v.y && F32.isFinite v.z

/-- The comparison `a == b` of two vectors, component by component. -/
def Vec3.numEq (a b : Vec3) : Bool := F32.numEq a.x b.x && F32.numEq a.y b.y && F32.numEq a.z b.z

/-- The width word of the `i`-th texture record. -/
def texWidth (data : List Byte) (i : Nat) : Nat := uintAt data (texPos data i + 16) 4

/-- The height word of the `i`-th texture record. -/
def texHeight (data : List Byte) (i : Nat) : Nat := uintAt data (texPos data i + 20) 4

/-- The sizes of the levels that the loop of the raw formats reads, for the
number of iterations left and the current `datalen` (see `readLevels`). -/
def loopSizes : Nat → Nat → List Nat
  | 0, _ => []
  | n + 1, datalen => if datalen / 4 = 0 then [datalen] else datalen :: loopSizes n (datalen / 4)

/-- Consecutive byte ranges of the lengths `sizes`, from the position `p` on. -/
def consecutive (d : List Byte) : Nat → List Nat → List (List Byte)
  | _, [] => []
  | p, s :: sizes => field d p s :: consecutive d (p + s) sizes

/-- The level sizes that the specification gives a raw texture with mipmaps:
`L`, `L / 4`, `L / 16`, `L / 64`, cut before the first zero. -/
def specMipSizes (L : Nat) : List Nat :=
  ((List.range 4).map (fun k => L / 4 ^ k)).takeWhile (fun s => s ≠ 0)

/-- The bytes per pixel of the raw format codes 2, 4, 5. -/
def bppOf (format : Nat) : Nat := if format = 2 then 2 else if format = 4 then 3 else 4

/-- The triangle that the triangle loop makes of the `TRIANGLE` record at the
file position `r`. -/
def triangleAt (options : LoadOptions) (d : List Byte) (r : Nat) : Triangle :=
  if options.targetCoordinateSystem = CoordinateSystem.OpenGL then
    ⟨uintAt d r 2, uintAt d (r + 4) 2, uintAt d (r + 2) 2, uintAt d (r + 6) 2⟩
  else
    ⟨uintAt d r 2, uintAt d (r + 2) 2, uintAt d (r + 4) 2, uintAt d (r + 6) 2⟩

/-- The winding swap: second and third vertex index exchanged. -/
def Triangle.swap (t : Triangle) : Triangle := ⟨t.v1, t.v3, t.v2, t.skin⟩

end WMB

namespace WMB

/-! ## Reference values for the colors, the object sequence and the bounds -/

/-- The color that the specification describes for the word `val`: the
components are the bytes 3, 2, 1, 0 of `val`, byte `k` being
`(val >> (8 * k)) & 0xFF`, each divided by 255. -/
def specToColor (val : Nat) : Vec4 :=
  ⟨colorComponent ((val >>> (8 * 3)) &&& 0xFF), colorComponent ((val >>> (8 * 2)) &&& 0xFF),
   colorComponent ((val >>> (8 * 1)) &&& 0xFF), colorComponent ((val >>> (8 * 0)) &&& 0xFF)⟩

/-- The decoder that `switch(type)` of the object loop selects for a type tag
other than Info (5), in the order of the `case` labels. -/
def decoderOf (options : LoadOptions) (env : Env) (tag : Nat) : Rd Object :=
  if tag = 2 then loadLight options
  else if tag = 6 then loadPath options env
  else if tag = 1 then loadPosition options env
  else if tag = 4 then loadSound options env
  else if tag = 7 then loadEntity options env
  else if tag = 3 then loadOldEntity options env
  else if tag = 8 then loadRegion env
  else Rd.stop Halt.terminate

/-- The type tag that a decoded object comes from: 1 Position, 2 Light,
4 Sound, 6 Path, 8 Region; an Entity comes from the tag 3 (OldEntity) or 7. -/
def variantTag : Object → Nat
  | Object.position _ => 1
  | Object.light _ => 2
  | Object.sound _ => 4
  | Object.path _ => 6
  | Object.entity e => if e.isOldEntity then 3 else 7
  | Object.region _ => 8

/-- The bounding box of a block. -/
def Block.bounds (b : Block) : Vec3 × Vec3 := (b.bbMin, b.bbMax)

end WMB

namespace WMB

/-! ## Concrete inputs -/

/-- A 164-byte header with the tag "WMB6" and a texture directory entry that points
behind the end of the file. -/
def fileBadMagic : List Byte :=
  [87, 77, 66, 54, 0, 0, 0, 0, 0, 0, 0, 0, 0, 0, 0, 0, 0, 0, 0, 0, 164, 0, 0, 0, 0, 0, 0, 0,
   0, 0, 0, 0, 0, 0, 0, 0, 0, 0, 0, 0, 0, 0, 0, 0, 0, 0, 0, 0, 0, 0, 0, 0, 0, 0, 0, 0, 0, 0,
   0, 0, 0, 0, 0, 0, 0, 0, 0, 0, 0, 0, 0, 0, 0, 0, 0, 0, 0, 0, 0, 0, 0, 0, 0, 0, 0, 0, 0, 0,
   0, 0, 0, 0, 0, 0, 0, 0, 0, 0, 0, 0, 0, 0, 0, 0, 0, 0, 0, 0, 0, 0, 0, 0, 0, 0, 0, 0, 0, 0,
   0, 0, 0, 0, 0, 0, 0, 0, 0, 0, 0, 0, 0, 0, 0, 0, 0, 0, 0, 0, 0, 0, 0, 0, 0, 0, 0, 0, 0, 0,
   0, 0, 0, 0, 0, 0, 0, 0, 0, 0, 0, 0, 0, 0, 0, 0]

/-- A file whose texture section holds one texture record with the type word 3. -/
def fileBadTexture : List Byte :=
  [87, 77, 66, 55, 0, 0, 0, 0, 0, 0, 0, 0, 0, 0, 0, 0, 0, 0, 0, 0, 164, 0, 0, 0, 48, 0, 0, 0,
   0, 0, 0, 0, 0, 0, 0, 0, 0, 0, 0, 0, 0, 0, 0, 0, 0, 0, 0, 0, 0, 0, 0, 0, 0, 0, 0, 0, 0, 0,
   0, 0, 0, 0, 0, 0, 0, 0, 0, 0, 0, 0, 0, 0, 0, 0, 0, 0, 0, 0, 0, 0, 0, 0, 0, 0, 0, 0, 0, 0,
   0, 0, 0, 0, 0, 0, 0, 0, 0, 0, 0, 0, 0, 0, 0, 0, 0, 0, 0, 0, 0, 0, 0, 0, 0, 0, 0, 0, 0, 0,
   0, 0, 0, 0, 0, 0, 212, 0, 0, 0, 0, 0, 0, 0, 0, 0, 0, 0, 0, 0, 0, 0, 0, 0, 0, 0, 0, 0, 0, 0,
   0, 0, 0, 0, 0, 0, 0, 0, 0, 0, 0, 0, 0, 0, 0, 0, 1, 0, 0, 0, 8, 0, 0, 0, 116, 0, 0, 0, 0, 0,
   0, 0, 0, 0, 0, 0, 0, 0, 0, 0, 2, 0, 0, 0, 2, 0, 0, 0, 3, 0, 0, 0, 0, 0, 0, 0, 0, 0, 0, 0,
   0, 0, 0, 0, 1, 0, 0, 0, 8, 0, 0, 0, 5, 0, 0, 0, 0, 0, 0, 0, 0, 0, 0, 0, 0, 0, 0, 0, 0, 0,
   192, 63, 0, 0, 32, 64, 127, 0, 0, 0, 0, 0, 224, 64, 128, 0, 0, 0, 0, 0, 0, 0, 0, 0, 0, 0,
   0, 255, 0, 0, 255, 0, 1, 0, 0, 0, 2, 0, 0, 0, 3, 0, 0, 0, 4, 0, 0, 0]

/-- A file with one 2x2 RGB565 texture (type word 2, followed by 8 + 2 payload bytes)
and an objects section with one Info record. -/
def fileTextured : List Byte :=
  [87, 77, 66, 55, 0, 0, 0, 0, 0, 0, 0, 0, 0, 0, 0, 0, 0, 0, 0, 0, 164, 0, 0, 0, 58, 0, 0, 0,
   0, 0, 0, 0, 0, 0, 0, 0, 0, 0, 0, 0, 0, 0, 0, 0, 0, 0, 0, 0, 0, 0, 0, 0, 0, 0, 0, 0, 0, 0,
   0, 0, 0, 0, 0, 0, 0, 0, 0, 0, 0, 0, 0, 0, 0, 0, 0, 0, 0, 0, 0, 0, 0, 0, 0, 0, 0, 0, 0, 0,
   0, 0, 0, 0, 0, 0, 0, 0, 0, 0, 0, 0, 0, 0, 0, 0, 0, 0, 0, 0, 0, 0, 0, 0, 0, 0, 0, 0, 0, 0,
   0, 0, 0, 0, 0, 0, 222, 0, 0, 0, 0, 0, 0, 0, 0, 0, 0, 0, 0, 0, 0, 0, 0, 0, 0, 0, 0, 0, 0, 0,
   0, 0, 0, 0, 0, 0, 0, 0, 0, 0, 0, 0, 0, 0, 0, 0, 1, 0, 0, 0, 8, 0, 0, 0, 116, 0, 0, 0, 0, 0,
   0, 0, 0, 0, 0, 0, 0, 0, 0, 0, 2, 0, 0, 0, 2, 0, 0, 0, 2, 0, 0, 0, 0, 0, 0, 0, 0, 0, 0, 0,
   0, 0, 0, 0, 1, 2, 3, 4, 5, 6, 7, 8, 9, 10, 1, 0, 0, 0, 8, 0, 0, 0, 5, 0, 0, 0, 0, 0, 0, 0,
   0, 0, 0, 0, 0, 0, 0, 0, 0, 0, 192, 63, 0, 0, 32, 64, 127, 0, 0, 0, 0, 0, 224, 64, 128, 0,
   0, 0, 0, 0, 0, 0, 0, 0, 0, 0, 0, 255, 0, 0, 255, 0, 1, 0, 0, 0, 2, 0, 0, 0, 3, 0, 0, 0, 4,
   0, 0, 0]

/-- A file whose objects section holds an Info record and a record with the type tag 9. -/
def fileBadTag : List Byte :=
  [87, 77, 66, 55, 0, 0, 0, 0, 0, 0, 0, 0, 0, 0, 0, 0, 0, 0, 0, 0, 0, 0, 0, 0, 0, 0, 0, 0, 0,
   0, 0, 0, 0, 0, 0, 0, 0, 0, 0, 0, 0, 0, 0, 0, 0, 0, 0, 0, 0, 0, 0, 0, 0, 0, 0, 0, 0, 0, 0,
   0, 0, 0, 0, 0, 0, 0, 0, 0, 0, 0, 0, 0, 0, 0, 0, 0, 0, 0, 0, 0, 0, 0, 0, 0, 0, 0, 0, 0, 0,
   0, 0, 0, 0, 0, 0, 0, 0, 0, 0, 0, 0, 0, 0, 0, 0, 0, 0, 0, 0, 0, 0, 0, 0, 0, 0, 0, 0, 0, 0,
   0, 0, 0, 0, 0, 164, 0, 0, 0, 0, 0, 0, 0, 0, 0, 0, 0, 0, 0, 0, 0, 0, 0, 0, 0, 0, 0, 0, 0, 0,
   0, 0, 0, 0, 0, 0, 0, 0, 0, 0, 0, 0, 0, 0, 0, 2, 0, 0, 0, 12, 0, 0, 0, 78, 0, 0, 0, 5, 0, 0,
   0, 0, 0, 0, 0, 0, 0, 0, 0, 0, 0, 0, 0, 0, 0, 192, 63, 0, 0, 32, 64, 127, 0, 0, 0, 0, 0,
   224, 64, 128, 0, 0, 0, 0, 0, 0, 0, 0, 0, 0, 0, 0, 255, 0, 0, 255, 0, 1, 0, 0, 0, 2, 0, 0,
   0, 3, 0, 0, 0, 4, 0, 0, 0, 9, 0, 0, 0, 0, 0, 0, 0, 0, 0, 0, 0, 0, 0, 0, 0, 0, 0, 0, 0, 0,
   0, 0, 0, 0, 0, 0, 0, 0, 0, 0, 0, 0, 0, 0, 0]

/-- The minimal scene: valid magic, only an objects section, with an Info record (size
selector 0) and a Light record with the origin (1, 2, 3). -/
def fileMinimal : List Byte :=
  [87, 77, 66, 55, 0, 0, 0, 0, 0, 0, 0, 0, 0, 0, 0, 0, 0, 0, 0, 0, 0, 0, 0, 0, 0, 0, 0, 0, 0,
   0, 0, 0, 0, 0, 0, 0, 0, 0, 0, 0, 0, 0, 0, 0, 0, 0, 0, 0, 0, 0, 0, 0, 0, 0, 0, 0, 0, 0, 0,
   0, 0, 0, 0, 0, 0, 0, 0, 0, 0, 0, 0, 0, 0, 0, 0, 0, 0, 0, 0, 0, 0, 0, 0, 0, 0, 0, 0, 0, 0,
   0, 0, 0, 0, 0, 0, 0, 0, 0, 0, 0, 0, 0, 0, 0, 0, 0, 0, 0, 0, 0, 0, 0, 0, 0, 0, 0, 0, 0, 0,
   0, 0, 0, 0, 0, 164, 0, 0, 0, 0, 0, 0, 0, 0, 0, 0, 0, 0, 0, 0, 0, 0, 0, 0, 0, 0, 0, 0, 0, 0,
   0, 0, 0, 0, 0, 0, 0, 0, 0, 0, 0, 0, 0, 0, 0, 2, 0, 0, 0, 12, 0, 0, 0, 78, 0, 0, 0, 5, 0, 0,
   0, 0, 0, 0, 0, 0, 0, 0, 0, 0, 0, 0, 0, 0, 0, 192, 63, 0, 0, 32, 64, 127, 0, 0, 0, 0, 0,
   224, 64, 128, 0, 0, 0, 0, 0, 0, 0, 0, 0, 0, 0, 0, 255, 0, 0, 255, 0, 1, 0, 0, 0, 2, 0, 0,
   0, 3, 0, 0, 0, 4, 0, 0, 0, 2, 0, 0, 0, 0, 0, 128, 63, 0, 0, 0, 64, 0, 0, 64, 64, 0, 0, 32,
   65, 0, 0, 160, 65, 0, 0, 240, 65, 0, 0, 200, 66, 2, 0, 0, 0]

/-- The minimal scene with the Light origin (+infinity, 0, 0). -/
def fileInfLight : List Byte :=
  [87, 77, 66, 55, 0, 0, 0, 0, 0, 0, 0, 0, 0, 0, 0, 0, 0, 0, 0, 0, 0, 0, 0, 0, 0, 0, 0, 0, 0,
   0, 0, 0, 0, 0, 0, 0, 0, 0, 0, 0, 0, 0, 0, 0, 0, 0, 0, 0, 0, 0, 0, 0, 0, 0, 0, 0, 0, 0, 0,
   0, 0, 0, 0, 0, 0, 0, 0, 0, 0, 0, 0, 0, 0, 0, 0, 0, 0, 0, 0, 0, 0, 0, 0, 0, 0, 0, 0, 0, 0,
   0, 0, 0, 0, 0, 0, 0, 0, 0, 0, 0, 0, 0, 0, 0, 0, 0, 0, 0, 0, 0, 0, 0, 0, 0, 0, 0, 0, 0, 0,
   0, 0, 0, 0, 0, 164, 0, 0, 0, 0, 0, 0, 0, 0, 0, 0, 0, 0, 0, 0, 0, 0, 0, 0, 0, 0, 0, 0, 0, 0,
   0, 0, 0, 0, 0, 0, 0, 0, 0, 0, 0, 0, 0, 0, 0, 2, 0, 0, 0, 12, 0, 0, 0, 78, 0, 0, 0, 5, 0, 0,
   0, 0, 0, 0, 0, 0, 0, 0, 0, 0, 0, 0, 0, 0, 0, 192, 63, 0, 0, 32, 64, 127, 0, 0, 0, 0, 0,
   224, 64, 128, 0, 0, 0, 0, 0, 0, 0, 0, 0, 0, 0, 0, 255, 0, 0, 255, 0, 1, 0, 0, 0, 2, 0, 0,
   0, 3, 0, 0, 0, 4, 0, 0, 0, 2, 0, 0, 0, 0, 0, 128, 127, 0, 0, 0, 0, 0, 0, 0, 0, 0, 0, 32,
   65, 0, 0, 160, 65, 0, 0, 240, 65, 0, 0, 200, 66, 2, 0, 0, 0]

/-- The minimal scene followed by a second Info record, with the size selector 7. -/
def fileTwoInfos : List Byte :=
  [87, 77, 66, 55, 0, 0, 0, 0, 0, 0, 0, 0, 0, 0, 0, 0, 0, 0, 0, 0, 0, 0, 0, 0, 0, 0, 0, 0, 0,
   0, 0, 0, 0, 0, 0, 0, 0, 0, 0, 0, 0, 0, 0, 0, 0, 0, 0, 0, 0, 0, 0, 0, 0, 0, 0, 0, 0, 0, 0,
   0, 0, 0, 0, 0, 0, 0, 0, 0, 0, 0, 0, 0, 0, 0, 0, 0, 0, 0, 0, 0, 0, 0, 0, 0, 0, 0, 0, 0, 0,
   0, 0, 0, 0, 0, 0, 0, 0, 0, 0, 0, 0, 0, 0, 0, 0, 0, 0, 0, 0, 0, 0, 0, 0, 0, 0, 0, 0, 0, 0,
   0, 0, 0, 0, 0, 164, 0, 0, 0, 0, 0, 0, 0, 0, 0, 0, 0, 0, 0, 0, 0, 0, 0, 0, 0, 0, 0, 0, 0, 0,
   0, 0, 0, 0, 0, 0, 0, 0, 0, 0, 0, 0, 0, 0, 0, 3, 0, 0, 0, 16, 0, 0, 0, 82, 0, 0, 0, 118, 0,
   0, 0, 5, 0, 0, 0, 0, 0, 0, 0, 0, 0, 0, 0, 0, 0, 0, 0, 0, 0, 192, 63, 0, 0, 32, 64, 127, 0,
   0, 0, 0, 0, 224, 64, 128, 0, 0, 0, 0, 0, 0, 0, 0, 0, 0, 0, 0, 255, 0, 0, 255, 0, 1, 0, 0,
   0, 2, 0, 0, 0, 3, 0, 0, 0, 4, 0, 0, 0, 2, 0, 0, 0, 0, 0, 128, 63, 0, 0, 0, 64, 0, 0, 64,
   64, 0, 0, 32, 65, 0, 0, 160, 65, 0, 0, 240, 65, 0, 0, 200, 66, 2, 0, 0, 0, 5, 0, 0, 0, 0,
   0, 0, 0, 0, 0, 0, 0, 0, 0, 0, 0, 0, 0, 16, 65, 0, 0, 32, 64, 127, 0, 0, 0, 0, 0, 224, 64,
   1, 7, 0, 0, 0, 0, 0, 0, 0, 0, 0, 0, 0, 255, 0, 0, 255, 0, 1, 0, 0, 0, 2, 0, 0, 0, 3, 0, 0,
   0, 4, 0, 0, 0]

/-- An Info record and a Path with one node and one edge whose first node reference is a
NaN and whose second is 1. -/
def filePathNaN : List Byte :=
  [87, 77, 66, 55, 0, 0, 0, 0, 0, 0, 0, 0, 0, 0, 0, 0, 0, 0, 0, 0, 0, 0, 0, 0, 0, 0, 0, 0, 0,
   0, 0, 0, 0, 0, 0, 0, 0, 0, 0, 0, 0, 0, 0, 0, 0, 0, 0, 0, 0, 0, 0, 0, 0, 0, 0, 0, 0, 0, 0,
   0, 0, 0, 0, 0, 0, 0, 0, 0, 0, 0, 0, 0, 0, 0, 0, 0, 0, 0, 0, 0, 0, 0, 0, 0, 0, 0, 0, 0, 0,
   0, 0, 0, 0, 0, 0, 0, 0, 0, 0, 0, 0, 0, 0, 0, 0, 0, 0, 0, 0, 0, 0, 0, 0, 0, 0, 0, 0, 0, 0,
   0, 0, 0, 0, 0, 164, 0, 0, 0, 0, 0, 0, 0, 0, 0, 0, 0, 0, 0, 0, 0, 0, 0, 0, 0, 0, 0, 0, 0, 0,
   0, 0, 0, 0, 0, 0, 0, 0, 0, 0, 0, 0, 0, 0, 0, 2, 0, 0, 0, 12, 0, 0, 0, 78, 0, 0, 0, 5, 0, 0,
   0, 0, 0, 0, 0, 0, 0, 0, 0, 0, 0, 0, 0, 0, 0, 192, 63, 0, 0, 32, 64, 127, 0, 0, 0, 0, 0,
   224, 64, 128, 0, 0, 0, 0, 0, 0, 0, 0, 0, 0, 0, 0, 255, 0, 0, 255, 0, 1, 0, 0, 0, 2, 0, 0,
   0, 3, 0, 0, 0, 4, 0, 0, 0, 6, 0, 0, 0, 112, 0, 0, 0, 0, 0, 0, 0, 0, 0, 0, 0, 0, 0, 0, 0, 0,
   0, 0, 0, 0, 0, 128, 63, 0, 0, 0, 0, 0, 0, 0, 0, 0, 0, 0, 0, 1, 0, 0, 0, 0, 0, 0, 0, 0, 0,
   0, 0, 0, 0, 0, 0, 0, 0, 0, 0, 0, 0, 0, 0, 0, 0, 0, 0, 0, 0, 0, 0, 0, 0, 0, 0, 0, 0, 0, 0,
   0, 0, 192, 127, 0, 0, 128, 63, 0, 0, 128, 63, 0, 0, 0, 64, 0, 0, 64, 64, 0, 0, 128, 64]

/-- An Info record and a Path with two nodes and two edges: (1, 2) and (NaN, 2). -/
def filePathMixed : List Byte :=
  [87, 77, 66, 55, 0, 0, 0, 0, 0, 0, 0, 0, 0, 0, 0, 0, 0, 0, 0, 0, 0, 0, 0, 0, 0, 0, 0, 0, 0,
   0, 0, 0, 0, 0, 0, 0, 0, 0, 0, 0, 0, 0, 0, 0, 0, 0, 0, 0, 0, 0, 0, 0, 0, 0, 0, 0, 0, 0, 0,
   0, 0, 0, 0, 0, 0, 0, 0, 0, 0, 0, 0, 0, 0, 0, 0, 0, 0, 0, 0, 0, 0, 0, 0, 0, 0, 0, 0, 0, 0,
   0, 0, 0, 0, 0, 0, 0, 0, 0, 0, 0, 0, 0, 0, 0, 0, 0, 0, 0, 0, 0, 0, 0, 0, 0, 0, 0, 0, 0, 0,
   0, 0, 0, 0, 0, 164, 0, 0, 0, 0, 0, 0, 0, 0, 0, 0, 0, 0, 0, 0, 0, 0, 0, 0, 0, 0, 0, 0, 0, 0,
   0, 0, 0, 0, 0, 0, 0, 0, 0, 0, 0, 0, 0, 0, 0, 2, 0, 0, 0, 12, 0, 0, 0, 78, 0, 0, 0, 5, 0, 0,
   0, 0, 0, 0, 0, 0, 0, 0, 0, 0, 0, 0, 0, 0, 0, 192, 63, 0, 0, 32, 64, 127, 0, 0, 0, 0, 0,
   224, 64, 128, 0, 0, 0, 0, 0, 0, 0, 0, 0, 0, 0, 0, 255, 0, 0, 255, 0, 1, 0, 0, 0, 2, 0, 0,
   0, 3, 0, 0, 0, 4, 0, 0, 0, 6, 0, 0, 0, 112, 0, 0, 0, 0, 0, 0, 0, 0, 0, 0, 0, 0, 0, 0, 0, 0,
   0, 0, 0, 0, 0, 0, 64, 0, 0, 0, 0, 0, 0, 0, 0, 0, 0, 0, 0, 2, 0, 0, 0, 0, 0, 0, 0, 0, 0, 0,
   0, 0, 0, 0, 0, 0, 0, 128, 63, 0, 0, 0, 0, 0, 0, 0, 0, 0, 0, 0, 0, 0, 0, 0, 0, 0, 0, 0, 0,
   0, 0, 0, 0, 0, 0, 0, 0, 0, 0, 0, 0, 0, 0, 0, 0, 0, 0, 0, 0, 0, 0, 0, 0, 0, 0, 0, 0, 0, 0,
   0, 0, 0, 0, 0, 0, 0, 0, 128, 63, 0, 0, 0, 64, 0, 0, 128, 63, 0, 0, 0, 64, 0, 0, 64, 64, 0,
   0, 128, 64, 0, 0, 192, 127, 0, 0, 0, 64, 0, 0, 160, 64, 0, 0, 192, 64, 0, 0, 224, 64, 0, 0,
   0, 65]

/-- An objects section with a Light record and an Info record with the size selector 1. -/
def fileSelector1 : List Byte :=
  [87, 77, 66, 55, 0, 0, 0, 0, 0, 0, 0, 0, 0, 0, 0, 0, 0, 0, 0, 0, 0, 0, 0, 0, 0, 0, 0, 0, 0,
   0, 0, 0, 0, 0, 0, 0, 0, 0, 0, 0, 0, 0, 0, 0, 0, 0, 0, 0, 0, 0, 0, 0, 0, 0, 0, 0, 0, 0, 0,
   0, 0, 0, 0, 0, 0, 0, 0, 0, 0, 0, 0, 0, 0, 0, 0, 0, 0, 0, 0, 0, 0, 0, 0, 0, 0, 0, 0, 0, 0,
   0, 0, 0, 0, 0, 0, 0, 0, 0, 0, 0, 0, 0, 0, 0, 0, 0, 0, 0, 0, 0, 0, 0, 0, 0, 0, 0, 0, 0, 0,
   0, 0, 0, 0, 0, 164, 0, 0, 0, 0, 0, 0, 0, 0, 0, 0, 0, 0, 0, 0, 0, 0, 0, 0, 0, 0, 0, 0, 0, 0,
   0, 0, 0, 0, 0, 0, 0, 0, 0, 0, 0, 0, 0, 0, 0, 2, 0, 0, 0, 12, 0, 0, 0, 48, 0, 0, 0, 2, 0, 0,
   0, 0, 0, 128, 63, 0, 0, 0, 64, 0, 0, 64, 64, 0, 0, 32, 65, 0, 0, 160, 65, 0, 0, 240, 65, 0,
   0, 200, 66, 2, 0, 0, 0, 5, 0, 0, 0, 0, 0, 0, 0, 0, 0, 0, 0, 0, 0, 0, 0, 0, 0, 192, 63, 0,
   0, 32, 64, 127, 0, 0, 0, 0, 0, 224, 64, 128, 1, 0, 0, 0, 0, 0, 0, 0, 0, 0, 0, 0, 255, 0, 0,
   255, 0, 1, 0, 0, 0, 2, 0, 0, 0, 3, 0, 0, 0, 4, 0, 0, 0]

/-- An objects section with a Light record and an Info record with the size selector 3. -/
def fileSelector3 : List Byte :=
  [87, 77, 66, 55, 0, 0, 0, 0, 0, 0, 0, 0, 0, 0, 0, 0, 0, 0, 0, 0, 0, 0, 0, 0, 0, 0, 0, 0, 0,
   0, 0, 0, 0, 0, 0, 0, 0, 0, 0, 0, 0, 0, 0, 0, 0, 0, 0, 0, 0, 0, 0, 0, 0, 0, 0, 0, 0, 0, 0,
   0, 0, 0, 0, 0, 0, 0, 0, 0, 0, 0, 0, 0, 0, 0, 0, 0, 0, 0, 0, 0, 0, 0, 0, 0, 0, 0, 0, 0, 0,
   0, 0, 0, 0, 0, 0, 0, 0, 0, 0, 0, 0, 0, 0, 0, 0, 0, 0, 0, 0, 0, 0, 0, 0, 0, 0, 0, 0, 0, 0,
   0, 0, 0, 0, 0, 164, 0, 0, 0, 0, 0, 0, 0, 0, 0, 0, 0, 0, 0, 0, 0, 0, 0, 0, 0, 0, 0, 0, 0, 0,
   0, 0, 0, 0, 0, 0, 0, 0, 0, 0, 0, 0, 0, 0, 0, 2, 0, 0, 0, 12, 0, 0, 0, 48, 0, 0, 0, 2, 0, 0,
   0, 0, 0, 128, 63, 0, 0, 0, 64, 0, 0, 64, 64, 0, 0, 32, 65, 0, 0, 160, 65, 0, 0, 240, 65, 0,
   0, 200, 66, 2, 0, 0, 0, 5, 0, 0, 0, 0, 0, 0, 0, 0, 0, 0, 0, 0, 0, 0, 0, 0, 0, 192, 63, 0,
   0, 32, 64, 127, 0, 0, 0, 0, 0, 224, 64, 128, 3, 0, 0, 0, 0, 0, 0, 0, 0, 0, 0, 0, 255, 0, 0,
   255, 0, 1, 0, 0, 0, 2, 0, 0, 0, 3, 0, 0, 0, 4, 0, 0, 0]

/-- Valid magic and an objects section with the object count 0, all other sections
absent. -/
def fileNoInfo : List Byte :=
  [87, 77, 66, 55, 0, 0, 0, 0, 0, 0, 0, 0, 0, 0, 0, 0, 0, 0, 0, 0, 0, 0, 0, 0, 0, 0, 0, 0, 0,
   0, 0, 0, 0, 0, 0, 0, 0, 0, 0, 0, 0, 0, 0, 0, 0, 0, 0, 0, 0, 0, 0, 0, 0, 0, 0, 0, 0, 0, 0,
   0, 0, 0, 0, 0, 0, 0, 0, 0, 0, 0, 0, 0, 0, 0, 0, 0, 0, 0, 0, 0, 0, 0, 0, 0, 0, 0, 0, 0, 0,
   0, 0, 0, 0, 0, 0, 0, 0, 0, 0, 0, 0, 0, 0, 0, 0, 0, 0, 0, 0, 0, 0, 0, 0, 0, 0, 0, 0, 0, 0,
   0, 0, 0, 0, 0, 164, 0, 0, 0, 0, 0, 0, 0, 0, 0, 0, 0, 0, 0, 0, 0, 0, 0, 0, 0, 0, 0, 0, 0, 0,
   0, 0, 0, 0, 0, 0, 0, 0, 0, 0, 0, 0, 0, 0, 0, 0, 0, 0, 0]

/-- The head of `fileOneLightmap`: valid magic, an objects section with one Info record
(size selector 0) and a lightmap directory entry of offset 238, the end of the head,
and length 196608. -/
def fileLightmapHead : List Byte :=
  [87, 77, 66, 55, 0, 0, 0, 0, 0, 0, 0, 0, 0, 0, 0, 0, 0, 0, 0, 0, 0, 0, 0, 0, 0, 0, 0, 0, 0,
   0, 0, 0, 0, 0, 0, 0, 0, 0, 0, 0, 0, 0, 0, 0, 0, 0, 0, 0, 0, 0, 0, 0, 0, 0, 0, 0, 0, 0, 0,
   0, 0, 0, 0, 0, 0, 0, 0, 0, 0, 0, 0, 0, 0, 0, 0, 0, 0, 0, 0, 0, 0, 0, 0, 0, 0, 0, 0, 0, 0,
   0, 0, 0, 0, 0, 0, 0, 0, 0, 0, 0, 0, 0, 0, 0, 0, 0, 0, 0, 0, 0, 0, 0, 0, 0, 0, 0, 0, 0, 0,
   0, 0, 0, 0, 0, 164, 0, 0, 0, 0, 0, 0, 0, 238, 0, 0, 0, 0, 0, 3, 0, 0, 0, 0, 0, 0, 0, 0, 0,
   0, 0, 0, 0, 0, 0, 0, 0, 0, 0, 0, 0, 0, 0, 0, 0, 1, 0, 0, 0, 8, 0, 0, 0, 5, 0, 0, 0, 0, 0,
   0, 0, 0, 0, 0, 0, 0, 0, 0, 0, 0, 0, 192, 63, 0, 0, 32, 64, 127, 0, 0, 0, 0, 0, 224, 64,
   128, 0, 0, 0, 0, 0, 0, 0, 0, 0, 0, 0, 0, 255, 0, 0, 255, 0, 1, 0, 0, 0, 2, 0, 0, 0, 3, 0,
   0, 0, 4, 0, 0, 0]

/-- A file with one lightmap: `fileLightmapHead` followed by 196608 = 3 * 256 * 256
zero bytes. -/
def fileOneLightmap : List Byte := fileLightmapHead ++ List.replicate 196608 0

/-- Indeterminate values of a run on zeroed memory; out-of-range casts yield 0
(what x86-64 and AArch64 produce for a NaN). -/
def env0 : Env where
  uninitInfo := ⟨0, 0, 0, 0, ⟨0, 0, 0, 0⟩, ⟨0, 0, 0, 0⟩, []⟩
  uninitHeight := fun _ => 0
  uninitAlbedo := 0
  uninitSkill := fun _ => 0
  castSize := fun _ => 0
  castUInt := fun _ => 0
  strTail := fun _ => []

/-- As `env0`, but the memory of `level.info.lightMapSize` holds 1. -/
def env1 : Env where
  uninitInfo := ⟨0, 0, 0, 1, ⟨0, 0, 0, 0⟩, ⟨0, 0, 0, 0⟩, []⟩
  uninitHeight := fun _ => 0
  uninitAlbedo := 0
  uninitSkill := fun _ => 0
  castSize := fun _ => 0
  castUInt := fun _ => 0
  strTail := fun _ => []

/-- The default `LoadOptions`: native coordinates, warnings and errors logged. -/
def defaultOptions : LoadOptions := ⟨CoordinateSystem.Gamestudio, 3⟩

end WMB

namespace WMB

/-! ## Concrete inputs for the mappers and the section decoders -/

/-- A file with one block of three vertices, the two triangle records (0, 1, 2, skin 0)
and (2, 1, 0, skin 5) and one skin, and an objects section with one Info record.
The block section starts at 164, the block at 168, the triangle records at 292. -/
def fileBlock : List Byte :=
  [87, 77, 66, 55, 0, 0, 0, 0, 0, 0, 0, 0, 0, 0, 0, 0, 0, 0, 0, 0, 0, 0, 0, 0, 0, 0, 0, 0, 0,
   0, 0, 0, 0, 0, 0, 0, 0, 0, 0, 0, 0, 0, 0, 0, 0, 0, 0, 0, 0, 0, 0, 0, 0, 0, 0, 0, 0, 0, 0,
   0, 0, 0, 0, 0, 0, 0, 0, 0, 0, 0, 0, 0, 0, 0, 0, 0, 0, 0, 0, 0, 0, 0, 0, 0, 0, 0, 0, 0, 0,
   0, 0, 0, 0, 0, 0, 0, 0, 0, 0, 0, 0, 0, 0, 0, 0, 0, 0, 0, 0, 0, 0, 0, 0, 0, 0, 0, 0, 0, 0,
   0, 0, 0, 0, 0, 80, 1, 0, 0, 0, 0, 0, 0, 0, 0, 0, 0, 0, 0, 0, 0, 164, 0, 0, 0, 172, 0, 0, 0,
   0, 0, 0, 0, 0, 0, 0, 0, 0, 0, 0, 0, 0, 0, 0, 0, 1, 0, 0, 0, 0, 0, 0, 0, 0, 0, 0, 0, 0, 0,
   0, 0, 0, 0, 128, 63, 0, 0, 128, 63, 0, 0, 128, 63, 0, 0, 0, 0, 3, 0, 0, 0, 2, 0, 0, 0, 1,
   0, 0, 0, 0, 0, 128, 63, 0, 0, 0, 64, 0, 0, 64, 64, 0, 0, 0, 0, 0, 0, 0, 0, 0, 0, 0, 0, 0,
   0, 0, 0, 0, 0, 0, 0, 0, 0, 128, 63, 0, 0, 0, 0, 0, 0, 0, 0, 0, 0, 0, 0, 0, 0, 0, 0, 0, 0,
   0, 0, 0, 0, 0, 0, 0, 0, 0, 0, 0, 0, 128, 63, 0, 0, 0, 0, 0, 0, 0, 0, 0, 0, 0, 0, 0, 0, 0,
   0, 0, 0, 1, 0, 2, 0, 0, 0, 0, 0, 0, 0, 2, 0, 1, 0, 0, 0, 5, 0, 0, 0, 0, 0, 0, 0, 0, 0, 0,
   0, 0, 0, 0, 0, 0, 63, 0, 0, 128, 62, 2, 0, 0, 0, 1, 0, 0, 0, 8, 0, 0, 0, 5, 0, 0, 0, 0, 0,
   0, 0, 0, 0, 0, 0, 0, 0, 0, 0, 0, 0, 192, 63, 0, 0, 32, 64, 127, 0, 0, 0, 0, 0, 224, 64,
   128, 0, 0, 0, 0, 0, 0, 0, 0, 0, 0, 0, 0, 255, 0, 0, 255, 0, 1, 0, 0, 0, 2, 0, 0, 0, 3, 0,
   0, 0, 4, 0, 0, 0]

/-- A file with one 2x2 RGBA8888 texture without the mipmap flag (type word 5), its 16
payload bytes, and right behind them an objects section with one Info record. -/
def fileTexNoMip : List Byte :=
  [87, 77, 66, 55, 0, 0, 0, 0, 0, 0, 0, 0, 0, 0, 0, 0, 0, 0, 0, 0, 164, 0, 0, 0, 64, 0, 0, 0,
   0, 0, 0, 0, 0, 0, 0, 0, 0, 0, 0, 0, 0, 0, 0, 0, 0, 0, 0, 0, 0, 0, 0, 0, 0, 0, 0, 0, 0, 0,
   0, 0, 0, 0, 0, 0, 0, 0, 0, 0, 0, 0, 0, 0, 0, 0, 0, 0, 0, 0, 0, 0, 0, 0, 0, 0, 0, 0, 0, 0,
   0, 0, 0, 0, 0, 0, 0, 0, 0, 0, 0, 0, 0, 0, 0, 0, 0, 0, 0, 0, 0, 0, 0, 0, 0, 0, 0, 0, 0, 0,
   0, 0, 0, 0, 0, 0, 228, 0, 0, 0, 0, 0, 0, 0, 0, 0, 0, 0, 0, 0, 0, 0, 0, 0, 0, 0, 0, 0, 0, 0,
   0, 0, 0, 0, 0, 0, 0, 0, 0, 0, 0, 0, 0, 0, 0, 0, 1, 0, 0, 0, 8, 0, 0, 0, 116, 0, 0, 0, 0, 0,
   0, 0, 0, 0, 0, 0, 0, 0, 0, 0, 2, 0, 0, 0, 2, 0, 0, 0, 5, 0, 0, 0, 0, 0, 0, 0, 0, 0, 0, 0,
   0, 0, 0, 0, 1, 2, 3, 4, 5, 6, 7, 8, 9, 10, 11, 12, 13, 14, 15, 16, 1, 0, 0, 0, 8, 0, 0, 0,
   5, 0, 0, 0, 0, 0, 0, 0, 0, 0, 0, 0, 0, 0, 0, 0, 0, 0, 192, 63, 0, 0, 32, 64, 127, 0, 0, 0,
   0, 0, 224, 64, 128, 0, 0, 0, 0, 0, 0, 0, 0, 0, 0, 0, 0, 255, 0, 0, 255, 0, 1, 0, 0, 0, 2,
   0, 0, 0, 3, 0, 0, 0, 4, 0, 0, 0]

/-- A file with one 4x4 RGBA8888 texture with the mipmap flag (type word 13), the 64 +
16 + 4 + 1 payload bytes of four levels, and an objects section with one Info
record. -/
def fileTexMip : List Byte :=
  [87, 77, 66, 55, 0, 0, 0, 0, 0, 0, 0, 0, 0, 0, 0, 0, 0, 0, 0, 0, 164, 0, 0, 0, 133, 0, 0, 0,
   0, 0, 0, 0, 0, 0, 0, 0, 0, 0, 0, 0, 0, 0, 0, 0, 0, 0, 0, 0, 0, 0, 0, 0, 0, 0, 0, 0, 0, 0,
   0, 0, 0, 0, 0, 0, 0, 0, 0, 0, 0, 0, 0, 0, 0, 0, 0, 0, 0, 0, 0, 0, 0, 0, 0, 0, 0, 0, 0, 0,
   0, 0, 0, 0, 0, 0, 0, 0, 0, 0, 0, 0, 0, 0, 0, 0, 0, 0, 0, 0, 0, 0, 0, 0, 0, 0, 0, 0, 0, 0,
   0, 0, 0, 0, 0, 0, 41, 1, 0, 0, 0, 0, 0, 0, 0, 0, 0, 0, 0, 0, 0, 0, 0, 0, 0, 0, 0, 0, 0, 0,
   0, 0, 0, 0, 0, 0, 0, 0, 0, 0, 0, 0, 0, 0, 0, 0, 1, 0, 0, 0, 8, 0, 0, 0, 116, 0, 0, 0, 0, 0,
   0, 0, 0, 0, 0, 0, 0, 0, 0, 0, 4, 0, 0, 0, 4, 0, 0, 0, 13, 0, 0, 0, 0, 0, 0, 0, 0, 0, 0, 0,
   0, 0, 0, 0, 1, 2, 3, 4, 5, 6, 7, 8, 9, 10, 11, 12, 13, 14, 15, 16, 17, 18, 19, 20, 21, 22,
   23, 24, 25, 26, 27, 28, 29, 30, 31, 32, 33, 34, 35, 36, 37, 38, 39, 40, 41, 42, 43, 44, 45,
   46, 47, 48, 49, 50, 51, 52, 53, 54, 55, 56, 57, 58, 59, 60, 61, 62, 63, 64, 65, 66, 67, 68,
   69, 70, 71, 72, 73, 74, 75, 76, 77, 78, 79, 80, 81, 82, 83, 84, 85, 1, 0, 0, 0, 8, 0, 0, 0,
   5, 0, 0, 0, 0, 0, 0, 0, 0, 0, 0, 0, 0, 0, 0, 0, 0, 0, 192, 63, 0, 0, 32, 64, 127, 0, 0, 0,
   0, 0, 224, 64, 128, 0, 0, 0, 0, 0, 0, 0, 0, 0, 0, 0, 0, 255, 0, 0, 255, 0, 1, 0, 0, 0, 2,
   0, 0, 0, 3, 0, 0, 0, 4, 0, 0, 0]

/-- A file with one compressed texture with the mipmap flag (type word 14, width word 5,
height word 7), its 5 payload bytes, and an objects section with one Info record. -/
def fileDDS : List Byte :=
  [87, 77, 66, 55, 0, 0, 0, 0, 0, 0, 0, 0, 0, 0, 0, 0, 0, 0, 0, 0, 164, 0, 0, 0, 53, 0, 0, 0,
   0, 0, 0, 0, 0, 0, 0, 0, 0, 0, 0, 0, 0, 0, 0, 0, 0, 0, 0, 0, 0, 0, 0, 0, 0, 0, 0, 0, 0, 0,
   0, 0, 0, 0, 0, 0, 0, 0, 0, 0, 0, 0, 0, 0, 0, 0, 0, 0, 0, 0, 0, 0, 0, 0, 0, 0, 0, 0, 0, 0,
   0, 0, 0, 0, 0, 0, 0, 0, 0, 0, 0, 0, 0, 0, 0, 0, 0, 0, 0, 0, 0, 0, 0, 0, 0, 0, 0, 0, 0, 0,
   0, 0, 0, 0, 0, 0, 217, 0, 0, 0, 0, 0, 0, 0, 0, 0, 0, 0, 0, 0, 0, 0, 0, 0, 0, 0, 0, 0, 0, 0,
   0, 0, 0, 0, 0, 0, 0, 0, 0, 0, 0, 0, 0, 0, 0, 0, 1, 0, 0, 0, 8, 0, 0, 0, 116, 0, 0, 0, 0, 0,
   0, 0, 0, 0, 0, 0, 0, 0, 0, 0, 5, 0, 0, 0, 7, 0, 0, 0, 14, 0, 0, 0, 0, 0, 0, 0, 0, 0, 0, 0,
   0, 0, 0, 0, 68, 68, 83, 32, 9, 1, 0, 0, 0, 8, 0, 0, 0, 5, 0, 0, 0, 0, 0, 0, 0, 0, 0, 0, 0,
   0, 0, 0, 0, 0, 0, 192, 63, 0, 0, 32, 64, 127, 0, 0, 0, 0, 0, 224, 64, 128, 0, 0, 0, 0, 0,
   0, 0, 0, 0, 0, 0, 0, 255, 0, 0, 255, 0, 1, 0, 0, 0, 2, 0, 0, 0, 3, 0, 0, 0, 4, 0, 0, 0]

/-- A file with a material section of 130 bytes at 164, two records named NUL "def" and
"stone" and two spare bytes, and an objects section with one Info record. -/
def fileMaterials : List Byte :=
  [87, 77, 66, 55, 0, 0, 0, 0, 0, 0, 0, 0, 0, 0, 0, 0, 0, 0, 0, 0, 0, 0, 0, 0, 0, 0, 0, 0, 0,
   0, 0, 0, 0, 0, 0, 0, 0, 0, 0, 0, 0, 0, 0, 0, 0, 0, 0, 0, 0, 0, 0, 0, 164, 0, 0, 0, 130, 0,
   0, 0, 0, 0, 0, 0, 0, 0, 0, 0, 0, 0, 0, 0, 0, 0, 0, 0, 0, 0, 0, 0, 0, 0, 0, 0, 0, 0, 0, 0,
   0, 0, 0, 0, 0, 0, 0, 0, 0, 0, 0, 0, 0, 0, 0, 0, 0, 0, 0, 0, 0, 0, 0, 0, 0, 0, 0, 0, 0, 0,
   0, 0, 0, 0, 0, 0, 38, 1, 0, 0, 0, 0, 0, 0, 0, 0, 0, 0, 0, 0, 0, 0, 0, 0, 0, 0, 0, 0, 0, 0,
   0, 0, 0, 0, 0, 0, 0, 0, 0, 0, 0, 0, 0, 0, 0, 0, 0, 0, 0, 0, 0, 0, 0, 0, 0, 0, 0, 0, 0, 0,
   0, 0, 0, 0, 0, 0, 0, 0, 0, 0, 0, 0, 0, 0, 0, 0, 0, 0, 0, 0, 0, 0, 0, 0, 0, 0, 0, 0, 0, 0,
   0, 100, 101, 102, 0, 0, 0, 0, 0, 0, 0, 0, 0, 0, 0, 0, 0, 0, 0, 0, 0, 0, 0, 0, 0, 0, 0, 0,
   0, 0, 0, 0, 0, 0, 0, 0, 0, 0, 0, 0, 0, 0, 0, 0, 0, 0, 0, 0, 0, 0, 0, 0, 0, 0, 0, 0, 0, 0,
   0, 0, 0, 0, 0, 0, 115, 116, 111, 110, 101, 0, 0, 0, 0, 0, 0, 0, 0, 0, 0, 0, 0, 0, 0, 0, 1,
   2, 1, 0, 0, 0, 8, 0, 0, 0, 5, 0, 0, 0, 0, 0, 0, 0, 0, 0, 0, 0, 0, 0, 0, 0, 0, 0, 192, 63,
   0, 0, 32, 64, 127, 0, 0, 0, 0, 0, 224, 64, 128, 0, 0, 0, 0, 0, 0, 0, 0, 0, 0, 0, 0, 255, 0,
   0, 255, 0, 1, 0, 0, 0, 2, 0, 0, 0, 3, 0, 0, 0, 4, 0, 0, 0]

/-- A file whose objects section holds an Info record, an Entity record with the path
reference 3 and the attached-entity reference 0, and an OldEntity record. -/
def fileEntities : List Byte :=
  [87, 77, 66, 55, 0, 0, 0, 0, 0, 0, 0, 0, 0, 0, 0, 0, 0, 0, 0, 0, 0, 0, 0, 0, 0, 0, 0, 0, 0,
   0, 0, 0, 0, 0, 0, 0, 0, 0, 0, 0, 0, 0, 0, 0, 0, 0, 0, 0, 0, 0, 0, 0, 0, 0, 0, 0, 0, 0, 0,
   0, 0, 0, 0, 0, 0, 0, 0, 0, 0, 0, 0, 0, 0, 0, 0, 0, 0, 0, 0, 0, 0, 0, 0, 0, 0, 0, 0, 0, 0,
   0, 0, 0, 0, 0, 0, 0, 0, 0, 0, 0, 0, 0, 0, 0, 0, 0, 0, 0, 0, 0, 0, 0, 0, 0, 0, 0, 0, 0, 0,
   0, 0, 0, 0, 0, 164, 0, 0, 0, 0, 0, 0, 0, 0, 0, 0, 0, 0, 0, 0, 0, 0, 0, 0, 0, 0, 0, 0, 0, 0,
   0, 0, 0, 0, 0, 0, 0, 0, 0, 0, 0, 0, 0, 0, 0, 3, 0, 0, 0, 16, 0, 0, 0, 82, 0, 0, 0, 198, 1,
   0, 0, 5, 0, 0, 0, 0, 0, 0, 0, 0, 0, 0, 0, 0, 0, 0, 0, 0, 0, 192, 63, 0, 0, 32, 64, 127, 0,
   0, 0, 0, 0, 224, 64, 128, 0, 0, 0, 0, 0, 0, 0, 0, 0, 0, 0, 0, 255, 0, 0, 255, 0, 1, 0, 0,
   0, 2, 0, 0, 0, 3, 0, 0, 0, 4, 0, 0, 0, 7, 0, 0, 0, 0, 0, 128, 63, 0, 0, 0, 64, 0, 0, 64,
   64, 0, 0, 0, 0, 0, 0, 0, 0, 0, 0, 0, 0, 0, 0, 128, 63, 0, 0, 0, 64, 0, 0, 128, 64, 101,
   110, 116, 0, 0, 0, 0, 0, 0, 0, 0, 0, 0, 0, 0, 0, 0, 0, 0, 0, 0, 0, 0, 0, 0, 0, 0, 0, 0, 0,
   0, 0, 0, 97, 46, 109, 100, 108, 0, 0, 0, 0, 0, 0, 0, 0, 0, 0, 0, 0, 0, 0, 0, 0, 0, 0, 0, 0,
   0, 0, 0, 0, 0, 0, 0, 0, 97, 99, 116, 0, 0, 0, 0, 0, 0, 0, 0, 0, 0, 0, 0, 0, 0, 0, 0, 0, 0,
   0, 0, 0, 0, 0, 0, 0, 0, 0, 0, 0, 0, 0, 0, 0, 0, 0, 0, 0, 0, 0, 0, 0, 0, 0, 0, 0, 0, 0, 0,
   0, 0, 0, 0, 0, 0, 0, 0, 0, 0, 0, 0, 0, 0, 0, 0, 0, 0, 0, 0, 0, 0, 0, 0, 0, 0, 0, 0, 0, 0,
   0, 0, 0, 0, 0, 0, 0, 0, 0, 0, 0, 0, 0, 0, 0, 0, 0, 0, 0, 0, 0, 0, 0, 0, 0, 0, 0, 0, 0, 0,
   0, 0, 0, 1, 0, 0, 0, 0, 0, 0, 0, 0, 0, 0, 0, 3, 0, 0, 0, 0, 0, 0, 0, 109, 97, 116, 0, 0, 0,
   0, 0, 0, 0, 0, 0, 0, 0, 0, 0, 0, 0, 0, 0, 0, 0, 0, 0, 0, 0, 0, 0, 0, 0, 0, 0, 0, 115, 49,
   0, 0, 0, 0, 0, 0, 0, 0, 0, 0, 0, 0, 0, 0, 0, 0, 0, 0, 0, 0, 0, 0, 0, 0, 0, 0, 0, 0, 0, 0,
   0, 115, 50, 0, 0, 0, 0, 0, 0, 0, 0, 0, 0, 0, 0, 0, 0, 0, 0, 0, 0, 0, 0, 0, 0, 0, 0, 0, 0,
   0, 0, 0, 0, 0, 0, 0, 0, 0, 0, 0, 0, 0, 0, 0, 0, 0, 0, 0, 0, 0, 0, 0, 0, 0, 0, 0, 0, 0, 0,
   0, 0, 0, 0, 0, 0, 0, 0, 3, 0, 0, 0, 0, 0, 128, 63, 0, 0, 0, 64, 0, 0, 64, 64, 0, 0, 0, 0,
   0, 0, 0, 0, 0, 0, 0, 0, 0, 0, 128, 63, 0, 0, 128, 63, 0, 0, 128, 63, 111, 108, 100, 0, 0,
   0, 0, 0, 0, 0, 0, 0, 0, 0, 0, 0, 0, 0, 0, 0, 111, 46, 109, 100, 108, 0, 0, 0, 0, 0, 0, 0,
   0, 0, 0, 0, 0, 0, 0, 0, 0, 0, 0, 0, 0, 0, 0, 0, 0, 0, 0, 0, 0, 0, 0, 0, 0, 0, 0, 0, 0, 0,
   0, 0, 0, 0, 0, 0, 0, 0, 0, 0, 0, 0, 0, 0, 0, 0, 0, 0, 0, 0, 0, 0, 0, 0, 0, 0, 0, 0, 0, 0,
   0]

/-- A file with an objects section with one Info record and, at 238, a terrain lightmap
section with the count 1: one entry with the object index 7, the width 2 and the
height 3, and its 18 payload bytes. -/
def fileTerrain : List Byte :=
  [87, 77, 66, 55, 0, 0, 0, 0, 0, 0, 0, 0, 0, 0, 0, 0, 0, 0, 0, 0, 0, 0, 0, 0, 0, 0, 0, 0, 0,
   0, 0, 0, 0, 0, 0, 0, 0, 0, 0, 0, 0, 0, 0, 0, 0, 0, 0, 0, 0, 0, 0, 0, 0, 0, 0, 0, 0, 0, 0,
   0, 0, 0, 0, 0, 0, 0, 0, 0, 0, 0, 0, 0, 0, 0, 0, 0, 0, 0, 0, 0, 0, 0, 0, 0, 0, 0, 0, 0, 0,
   0, 0, 0, 0, 0, 0, 0, 0, 0, 0, 0, 0, 0, 0, 0, 0, 0, 0, 0, 0, 0, 0, 0, 0, 0, 0, 0, 0, 0, 0,
   0, 0, 0, 0, 0, 164, 0, 0, 0, 0, 0, 0, 0, 0, 0, 0, 0, 0, 0, 0, 0, 0, 0, 0, 0, 0, 0, 0, 0, 0,
   0, 0, 0, 0, 0, 0, 0, 238, 0, 0, 0, 34, 0, 0, 0, 1, 0, 0, 0, 8, 0, 0, 0, 5, 0, 0, 0, 0, 0,
   0, 0, 0, 0, 0, 0, 0, 0, 0, 0, 0, 0, 192, 63, 0, 0, 32, 64, 127, 0, 0, 0, 0, 0, 224, 64,
   128, 0, 0, 0, 0, 0, 0, 0, 0, 0, 0, 0, 0, 255, 0, 0, 255, 0, 1, 0, 0, 0, 2, 0, 0, 0, 3, 0,
   0, 0, 4, 0, 0, 0, 1, 0, 0, 0, 7, 0, 0, 0, 2, 0, 0, 0, 3, 0, 0, 0, 1, 2, 3, 4, 5, 6, 7, 8,
   9, 10, 11, 12, 13, 14, 15, 16, 17, 18]

/-- A file of 100 bytes: the magic "WMB7" and 96 zero bytes, less than the 164 bytes of
the header. -/
def fileShort : List Byte :=
  [87, 77, 66, 55, 0, 0, 0, 0, 0, 0, 0, 0, 0, 0, 0, 0, 0, 0, 0, 0, 0, 0, 0, 0, 0, 0, 0, 0, 0,
   0, 0, 0, 0, 0, 0, 0, 0, 0, 0, 0, 0, 0, 0, 0, 0, 0, 0, 0, 0, 0, 0, 0, 0, 0, 0, 0, 0, 0, 0,
   0, 0, 0, 0, 0, 0, 0, 0, 0, 0, 0, 0, 0, 0, 0, 0, 0, 0, 0, 0, 0, 0, 0, 0, 0, 0, 0, 0, 0, 0,
   0, 0, 0, 0, 0, 0, 0, 0, 0, 0, 0]

/-- A file that ends inside the payload of its texture: one 2x2 RGBA8888 texture record
(16 payload bytes declared) followed by 8 bytes. -/
def fileTexTruncated : List Byte :=
  [87, 77, 66, 55, 0, 0, 0, 0, 0, 0, 0, 0, 0, 0, 0, 0, 0, 0, 0, 0, 164, 0, 0, 0, 64, 0, 0, 0,
   0, 0, 0, 0, 0, 0, 0, 0, 0, 0, 0, 0, 0, 0, 0, 0, 0, 0, 0, 0, 0, 0, 0, 0, 0, 0, 0, 0, 0, 0,
   0, 0, 0, 0, 0, 0, 0, 0, 0, 0, 0, 0, 0, 0, 0, 0, 0, 0, 0, 0, 0, 0, 0, 0, 0, 0, 0, 0, 0, 0,
   0, 0, 0, 0, 0, 0, 0, 0, 0, 0, 0, 0, 0, 0, 0, 0, 0, 0, 0, 0, 0, 0, 0, 0, 0, 0, 0, 0, 0, 0,
   0, 0, 0, 0, 0, 0, 228, 0, 0, 0, 0, 0, 0, 0, 0, 0, 0, 0, 0, 0, 0, 0, 0, 0, 0, 0, 0, 0, 0, 0,
   0, 0, 0, 0, 0, 0, 0, 0, 0, 0, 0, 0, 0, 0, 0, 0, 1, 0, 0, 0, 8, 0, 0, 0, 116, 0, 0, 0, 0, 0,
   0, 0, 0, 0, 0, 0, 0, 0, 0, 0, 2, 0, 0, 0, 2, 0, 0, 0, 5, 0, 0, 0, 0, 0, 0, 0, 0, 0, 0, 0,
   0, 0, 0, 0, 1, 2, 3, 4, 5, 6, 7, 8]

/-- `LoadOptions` with the OpenGL convention. -/
def openGLOptions : LoadOptions := ⟨CoordinateSystem.OpenGL, 3⟩

/-- `LoadOptions` with the DirectX convention. -/
def directXOptions : LoadOptions := ⟨CoordinateSystem.DirectX, 3⟩

/-- The vector (1, -0, 3). -/
def vecNegZero : Vec3 := ⟨0x3F800000, 0x80000000, 0x40400000⟩

/-- The vector (1, 2, 3). -/
def vecOneTwoThree : Vec3 := ⟨0x3F800000, 0x40000000, 0x40400000⟩

/-- The vector (+infinity, 0, 0). -/
def vecInfinite : Vec3 := ⟨0x7F800000, 0, 0⟩

/-- As `env0`, but the memory of `lm.height` of a terrain lightmap holds 2. -/
def envHeight2 : Env where
  uninitInfo := ⟨0, 0, 0, 0, ⟨0, 0, 0, 0⟩, ⟨0, 0, 0, 0⟩, []⟩
  uninitHeight := fun _ => 2
  uninitAlbedo := 0
  uninitSkill := fun _ => 0
  castSize := fun _ => 0
  castUInt := fun _ => 0
  strTail := fun _ => []

end WMB

namespace WMB

/-! ## Concrete inputs for the object sequence and the bounds -/

/-- A file whose objects section holds seven records: a Light, an Info (size selector
0), a Position, a second Info, a Region with the bounds (1, 2, 3) and (4, 5, 6), a
Sound and a Path with one node. -/
def fileObjects : List Byte :=
  [87, 77, 66, 55, 0, 0, 0, 0, 0, 0, 0, 0, 0, 0, 0, 0, 0, 0, 0, 0, 0, 0, 0, 0, 0, 0, 0, 0, 0,
   0, 0, 0, 0, 0, 0, 0, 0, 0, 0, 0, 0, 0, 0, 0, 0, 0, 0, 0, 0, 0, 0, 0, 0, 0, 0, 0, 0, 0, 0,
   0, 0, 0, 0, 0, 0, 0, 0, 0, 0, 0, 0, 0, 0, 0, 0, 0, 0, 0, 0, 0, 0, 0, 0, 0, 0, 0, 0, 0, 0,
   0, 0, 0, 0, 0, 0, 0, 0, 0, 0, 0, 0, 0, 0, 0, 0, 0, 0, 0, 0, 0, 0, 0, 0, 0, 0, 0, 0, 0, 0,
   0, 0, 0, 0, 0, 164, 0, 0, 0, 0, 0, 0, 0, 0, 0, 0, 0, 0, 0, 0, 0, 0, 0, 0, 0, 0, 0, 0, 0, 0,
   0, 0, 0, 0, 0, 0, 0, 0, 0, 0, 0, 0, 0, 0, 0, 7, 0, 0, 0, 32, 0, 0, 0, 68, 0, 0, 0, 134, 0,
   0, 0, 190, 0, 0, 0, 0, 1, 0, 0, 68, 1, 0, 0, 137, 1, 0, 0, 2, 0, 0, 0, 0, 0, 128, 63, 0, 0,
   0, 64, 0, 0, 64, 64, 0, 0, 32, 65, 0, 0, 160, 65, 0, 0, 240, 65, 0, 0, 200, 66, 2, 0, 0, 0,
   5, 0, 0, 0, 0, 0, 0, 0, 0, 0, 0, 0, 0, 0, 0, 0, 0, 0, 192, 63, 0, 0, 32, 64, 127, 0, 0, 0,
   0, 0, 224, 64, 128, 0, 0, 0, 0, 0, 0, 0, 0, 0, 0, 0, 0, 255, 0, 0, 255, 0, 1, 0, 0, 0, 2,
   0, 0, 0, 3, 0, 0, 0, 4, 0, 0, 0, 1, 0, 0, 0, 0, 0, 128, 64, 0, 0, 160, 64, 0, 0, 192, 64,
   0, 0, 0, 0, 0, 0, 0, 0, 0, 0, 0, 0, 0, 0, 0, 0, 0, 0, 0, 0, 112, 111, 115, 0, 0, 0, 0, 0,
   0, 0, 0, 0, 0, 0, 0, 0, 0, 0, 0, 0, 5, 0, 0, 0, 0, 0, 0, 0, 0, 0, 0, 0, 0, 0, 0, 0, 0, 0,
   192, 63, 0, 0, 32, 64, 127, 0, 0, 0, 0, 0, 224, 64, 128, 1, 0, 0, 0, 0, 0, 0, 0, 0, 0, 0,
   0, 255, 0, 0, 255, 0, 1, 0, 0, 0, 2, 0, 0, 0, 3, 0, 0, 0, 4, 0, 0, 0, 8, 0, 0, 0, 0, 0,
   128, 63, 0, 0, 0, 64, 0, 0, 64, 64, 0, 0, 128, 64, 0, 0, 160, 64, 0, 0, 192, 64, 0, 0, 0,
   0, 0, 0, 0, 0, 114, 101, 103, 0, 0, 0, 0, 0, 0, 0, 0, 0, 0, 0, 0, 0, 0, 0, 0, 0, 0, 0, 0,
   0, 0, 0, 0, 0, 0, 0, 0, 0, 4, 0, 0, 0, 0, 0, 224, 64, 0, 0, 0, 65, 0, 0, 16, 65, 0, 0, 72,
   66, 0, 0, 0, 0, 0, 0, 0, 0, 44, 1, 0, 0, 0, 0, 0, 0, 97, 46, 119, 97, 118, 0, 0, 0, 0, 0,
   0, 0, 0, 0, 0, 0, 0, 0, 0, 0, 0, 0, 0, 0, 0, 0, 0, 0, 0, 0, 0, 0, 0, 6, 0, 0, 0, 112, 0, 0,
   0, 0, 0, 0, 0, 0, 0, 0, 0, 0, 0, 0, 0, 0, 0, 0, 0, 0, 0, 128, 63, 0, 0, 0, 0, 0, 0, 0, 0,
   0, 0, 0, 0, 0, 0, 0, 0, 0, 0, 0, 0, 0, 0, 0, 0, 0, 0, 0, 0, 0, 0, 0, 0, 0, 0, 0, 0, 0, 0,
   0, 0, 0, 0, 0, 0, 0, 0, 0, 0, 0, 0, 0, 0]

/-- A file of the 164 header bytes alone: valid magic and every directory entry zero,
the objects entry included. -/
def fileHeaderOnly : List Byte :=
  [87, 77, 66, 55, 0, 0, 0, 0, 0, 0, 0, 0, 0, 0, 0, 0, 0, 0, 0, 0, 0, 0, 0, 0, 0, 0, 0, 0, 0,
   0, 0, 0, 0, 0, 0, 0, 0, 0, 0, 0, 0, 0, 0, 0, 0, 0, 0, 0, 0, 0, 0, 0, 0, 0, 0, 0, 0, 0, 0,
   0, 0, 0, 0, 0, 0, 0, 0, 0, 0, 0, 0, 0, 0, 0, 0, 0, 0, 0, 0, 0, 0, 0, 0, 0, 0, 0, 0, 0, 0,
   0, 0, 0, 0, 0, 0, 0, 0, 0, 0, 0, 0, 0, 0, 0, 0, 0, 0, 0, 0, 0, 0, 0, 0, 0, 0, 0, 0, 0, 0,
   0, 0, 0, 0, 0, 0, 0, 0, 0, 0, 0, 0, 0, 0, 0, 0, 0, 0, 0, 0, 0, 0, 0, 0, 0, 0, 0, 0, 0, 0,
   0, 0, 0, 0, 0, 0, 0, 0, 0, 0, 0, 0, 0, 0, 0]

end WMB

namespace WMB
open Rd

/-- A computation that ends without a value only in one of the ways `S`. -/
def HaltsIn {α : Type} (S : Halt → Prop) (m : Rd α) : Prop :=
  ∀ d p e, m d p = Res.halt e → S e

/-- The bytes that an iteration of the texture loop reads for the record at
the file position `pos` lie inside the file `d`: the 40-byte record and, for a
record of a known format, the levels that are read behind it (`width` bytes for
the compressed format 6, the levels of `readLevels` for the raw formats 2, 4
and 5). -/
def texInFile (d : List Byte) (pos : Nat) : Prop :=
  pos + 40 ≤ d.length ∧
  (uintAt d (pos + 24) 4 &&& 7 = 6 → pos + 40 + uintAt d (pos + 16) 4 ≤ d.length) ∧
  ((uintAt d (pos + 24) 4 &&& 7 = 2 ∨ uintAt d (pos + 24) 4 &&& 7 = 4 ∨
      uintAt d (pos + 24) 4 &&& 7 = 5) →
    pos + 40 + (loopSizes 3 (bppOf (uintAt d (pos + 24) 4 &&& 7) * uintAt d (pos + 16) 4 *
      uintAt d (pos + 20) 4 % 2 ^ 64)).sum ≤ d.length)

instance (d : List Byte) (pos : Nat) : Decidable (texInFile d pos) := by
  unfold texInFile
  infer_instance

/-- A file whose texture section holds a 2x2 RGB565 texture (type word 2, followed by 8
+ 2 payload bytes) and, behind it, a texture record with the type word 3. -/
def fileBadSecondTexture : List Byte :=
  [87, 77, 66, 55, 0, 0, 0, 0, 0, 0, 0, 0, 0, 0, 0, 0, 0, 0, 0, 0, 164, 0, 0, 0, 102, 0, 0, 0,
   0, 0, 0, 0, 0, 0, 0, 0, 0, 0, 0, 0, 0, 0, 0, 0, 0, 0, 0, 0, 0, 0, 0, 0, 0, 0, 0, 0, 0, 0,
   0, 0, 0, 0, 0, 0, 0, 0, 0, 0, 0, 0, 0, 0, 0, 0, 0, 0, 0, 0, 0, 0, 0, 0, 0, 0, 0, 0, 0, 0,
   0, 0, 0, 0, 0, 0, 0, 0, 0, 0, 0, 0, 0, 0, 0, 0, 0, 0, 0, 0, 0, 0, 0, 0, 0, 0, 0, 0, 0, 0,
   0, 0, 0, 0, 0, 0, 10, 1, 0, 0, 0, 0, 0, 0, 0, 0, 0, 0, 0, 0, 0, 0, 0, 0, 0, 0, 0, 0, 0, 0,
   0, 0, 0, 0, 0, 0, 0, 0, 0, 0, 0, 0, 0, 0, 0, 0, 2, 0, 0, 0, 12, 0, 0, 0, 62, 0, 0, 0, 116,
   0, 0, 0, 0, 0, 0, 0, 0, 0, 0, 0, 0, 0, 0, 0, 2, 0, 0, 0, 2, 0, 0, 0, 2, 0, 0, 0, 0, 0, 0,
   0, 0, 0, 0, 0, 0, 0, 0, 0, 1, 2, 3, 4, 5, 6, 7, 8, 9, 10, 116, 0, 0, 0, 0, 0, 0, 0, 0, 0,
   0, 0, 0, 0, 0, 0, 2, 0, 0, 0, 2, 0, 0, 0, 3, 0, 0, 0, 0, 0, 0, 0, 0, 0, 0, 0, 0, 0, 0, 0,
   1, 0, 0, 0, 8, 0, 0, 0, 5, 0, 0, 0, 0, 0, 0, 0, 0, 0, 0, 0, 0, 0, 0, 0, 0, 0, 192, 63, 0,
   0, 32, 64, 127, 0, 0, 0, 0, 0, 224, 64, 128, 0, 0, 0, 0, 0, 0, 0, 0, 0, 0, 0, 0, 255, 0, 0,
   255, 0, 1, 0, 0, 0, 2, 0, 0, 0, 3, 0, 0, 0, 4, 0, 0, 0]

end WMB

namespace WMB
open Rd

/-! ## Running computations -/

theorem run_pure {α : Type} (a : α) (d : List Byte) (p : Nat) :
    (Pure.pure a : Rd α) d p = Res.ok a p := rfl

theorem run_bind {α β : Type} (x : Rd α) (f : α → Rd β) (d : List Byte) (p : Nat) :
    (x >>= f) d p = match x d p with
      | Res.ok a q => f a d q
      | Res.halt h => Res.halt h := rfl

theorem run_stop {α : Type} (h : Halt) (d : List Byte) (p : Nat) :
    (stop h : Rd α) d p = Res.halt h := rfl

theorem run_seek (o : Nat) (d : List Byte) (p : Nat) : seek o d p = Res.ok () o := rfl

theorem run_ite {α : Type} (c : Prop) [Decidable c] (x y : Rd α) (d : List Byte) (p : Nat) :
    (if c then x else y) d p = if c then x d p else y d p := by
  split <;> rfl

theorem run_bind_ok {α β : Type} {x : Rd α} {f : α → Rd β} {d : List Byte} {p q : Nat} {a : α}
    (h : x d p = Res.ok a q) : (x >>= f) d p = f a d q := by
  rw [run_bind, h]

theorem run_bind_halt {α β : Type} {x : Rd α} {f : α → Rd β} {d : List Byte} {p : Nat} {e : Halt}
    (h : x d p = Res.halt e) : (x >>= f) d p = Res.halt e := by
  rw [run_bind, h]

theorem bind_ok_inv {α β : Type} {x : Rd α} {f : α → Rd β} {d : List Byte} {p q : Nat} {b : β}
    (h : (x >>= f) d p = Res.ok b q) :
    ∃ a r, x d p = Res.ok a r ∧ f a d r = Res.ok b q := by
  rw [run_bind] at h
  cases hx : x d p with
  | ok a r => rw [hx] at h; exact ⟨a, r, rfl, h⟩
  | halt e => rw [hx] at h; cases h

theorem bind_halt_inv {α β : Type} {x : Rd α} {f : α → Rd β} {d : List Byte} {p : Nat} {e : Halt}
    (h : (x >>= f) d p = Res.halt e) :
    x d p = Res.halt e ∨ ∃ a r, x d p = Res.ok a r ∧ f a d r = Res.halt e := by
  rw [run_bind] at h
  cases hx : x d p with
  | ok a r => rw [hx] at h; exact Or.inr ⟨a, r, rfl, h⟩
  | halt e1 => rw [hx] at h; cases h; exact Or.inl rfl

theorem run_read_ok {n : Nat} {d : List Byte} {p : Nat} (h : p + n ≤ d.length) :
    Rd.read n d p = Res.ok (field d p n) (p + n) := by
  unfold Rd.read
  by_cases hn : n = 0
  · subst hn; simp [field]
  · simp [hn, h]

theorem run_read_hang {n : Nat} {d : List Byte} {p : Nat} (hn : n ≠ 0) (h : d.length < p + n) :
    Rd.read n d p = Res.halt Halt.hang := by
  unfold Rd.read
  simp [hn, Nat.not_le.mpr h]

/-- A read that returns has delivered the bytes at the cursor. -/
theorem read_ok_inv {n : Nat} {d : List Byte} {p q : Nat} {bs : List Byte}
    (h : Rd.read n d p = Res.ok bs q) :
    bs = field d p n ∧ (n = 0 ∨ p + n ≤ d.length) ∧ q = p + n := by
  unfold Rd.read at h
  by_cases hn : n = 0
  · subst hn
    simp at h
    simp [field, h.1.symm, h.2.symm]
  · by_cases hl : p + n ≤ d.length
    · simp [hn, hl] at h
      simp [h.1.symm, h.2.symm, hl]
    · simp [hn, hl] at h

/-- The only way a read ends without bytes is the endless loop. -/
theorem read_halt_inv {n : Nat} {d : List Byte} {p : Nat} {e : Halt}
    (h : Rd.read n d p = Res.halt e) : e = Halt.hang ∧ d.length < p + n := by
  unfold Rd.read at h
  by_cases hn : n = 0
  · simp [hn] at h
  · by_cases hl : p + n ≤ d.length
    · simp [hn, hl] at h
    · simp [hn, hl] at h
      exact ⟨h.symm, by omega⟩

theorem readU32_ok_inv {d : List Byte} {p q x : Nat} (h : readU32 d p = Res.ok x q) :
    x = uintAt d p 4 ∧ p + 4 ≤ d.length ∧ q = p + 4 := by
  unfold readU32 at h
  obtain ⟨bs, r, h1, h2⟩ := bind_ok_inv h
  obtain ⟨rfl, h3, rfl⟩ := read_ok_inv h1
  simp [run_pure] at h2
  refine ⟨?_, ?_, h2.2.symm⟩
  · rw [← h2.1]; rfl
  · omega

theorem run_readU32_ok {d : List Byte} {p : Nat} (h : p + 4 ≤ d.length) :
    readU32 d p = Res.ok (uintAt d p 4) (p + 4) := by
  unfold readU32
  rw [run_bind_ok (run_read_ok h)]
  rfl

/-- Bytes of a record that was read are bytes of the file. -/
theorem field_field (d : List Byte) (p n off k : Nat) (h : off + k ≤ n) :
    field (field d p n) off k = field d (p + off) k := by
  unfold field
  rw [List.drop_take, List.take_take, List.drop_drop]
  congr 1
  omega

theorem uintAt_field (d : List Byte) (p n off k : Nat) (h : off + k ≤ n) :
    uintAt (field d p n) off k = uintAt d (p + off) k := by
  unfold uintAt
  rw [field_field d p n off k h]

theorem f32At_field (d : List Byte) (p n off : Nat) (h : off + 4 ≤ n) :
    f32At (field d p n) off = f32At d (p + off) := uintAt_field d p n off 4 h

theorem vec3At_field (d : List Byte) (p n off : Nat) (h : off + 12 ≤ n) :
    vec3At (field d p n) off = vec3At d (p + off) := by
  unfold vec3At
  rw [f32At_field d p n off (by omega), f32At_field d p n (off + 4) (by omega),
    f32At_field d p n (off + 8) (by omega)]
  simp [Nat.add_assoc]

/-- The offset table that the loop `for(i < n) offsets[i] = f.read<uint32_t>()`
delivers. -/
theorem times_readU32_ok_inv {d : List Byte} (n : Nat) {p q : Nat} {xs : List Nat}
    (h : times n readU32 d p = Res.ok xs q) :
    xs = (List.range n).map (fun i => uintAt d (p + 4 * i) 4) := by
  induction n generalizing p q xs with
  | zero =>
    simp only [times, run_pure, Res.ok.injEq] at h
    obtain ⟨h1, _⟩ := h
    subst h1
    rfl
  | succ n ih =>
    unfold times at h
    obtain ⟨a, r, h1, h2⟩ := bind_ok_inv h
    obtain ⟨ys, r2, h3, h4⟩ := bind_ok_inv h2
    obtain ⟨rfl, _, rfl⟩ := readU32_ok_inv h1
    have := ih h3
    simp only [run_pure, Res.ok.injEq] at h4
    rw [← h4.1, this, List.range_succ_eq_map]
    simp only [List.map_cons, List.map_map, Nat.mul_zero, Nat.add_zero, List.cons.injEq, true_and]
    apply List.map_congr_left
    intro i _
    simp only [Function.comp]
    congr 1
    omega

theorem times_readU32_ok_pos {d : List Byte} (n : Nat) {p q : Nat} {xs : List Nat}
    (h : times n readU32 d p = Res.ok xs q) : q = p + 4 * n := by
  induction n generalizing p q xs with
  | zero =>
    simp only [times, run_pure, Res.ok.injEq] at h
    omega
  | succ n ih =>
    unfold times at h
    obtain ⟨a, r, h1, h2⟩ := bind_ok_inv h
    obtain ⟨ys, r2, h3, h4⟩ := bind_ok_inv h2
    obtain ⟨_, _, rfl⟩ := readU32_ok_inv h1
    have := ih h3
    simp only [run_pure, Res.ok.injEq] at h4
    omega

theorem run_times_readU32_ok {d : List Byte} (n : Nat) {p : Nat} (h : p + 4 * n ≤ d.length) :
    times n readU32 d p = Res.ok ((List.range n).map (fun i => uintAt d (p + 4 * i) 4)) (p + 4 * n) := by
  induction n generalizing p with
  | zero => simp [times, run_pure]
  | succ n ih =>
    unfold times
    rw [run_bind_ok (run_readU32_ok (by omega))]
    rw [run_bind_ok (ih (p := p + 4) (by omega))]
    rw [run_pure, List.range_succ_eq_map]
    simp only [List.map_cons, List.map_map, Nat.mul_zero, Nat.add_zero, Res.ok.injEq,
      List.cons.injEq, true_and]
    refine ⟨?_, by omega⟩
    apply List.map_congr_left
    intro i _
    simp only [Function.comp]
    congr 1
    omega

end WMB

namespace WMB
open Rd

/-! ## The object loop -/

theorem push_ok_inv {m : Rd Object} {st st1 : ObjState} {d : List Byte} {p q : Nat}
    (h : (m >>= fun o => (Pure.pure (push st o) : Rd ObjState)) d p = Res.ok st1 q) :
    ∃ o, m d p = Res.ok o q ∧ st1 = push st o := by
  obtain ⟨o, r, h1, h2⟩ := bind_ok_inv h
  simp only [run_pure, Res.ok.injEq] at h2
  obtain ⟨h3, h4⟩ := h2
  subst h3 h4
  exact ⟨o, h1, rfl⟩

/-- The `Info` case on a state that has no Info yet. -/
theorem loadInfo_first_inv {st st1 : ObjState} {d : List Byte} {p q : Nat}
    (hst : st.hasInfo = false) (h : loadInfo st d p = Res.ok st1 q) :
    p + 62 ≤ d.length ∧ q = p + 62 ∧ st1.hasInfo = true ∧ st1.objects = st.objects ∧
    lightMapSizes.get? (uintAt d (p + 29) 1) = some st1.info.lightMapSize := by
  unfold loadInfo at h
  obtain ⟨bs, r, h1, h2⟩ := bind_ok_inv h
  obtain ⟨rfl, h3, rfl⟩ := read_ok_inv h1
  have h62 : p + 62 ≤ d.length := by omega
  simp only [hst] at h2
  have hk : (parseINFO (field d p 62)).LMapSize = uintAt d (p + 29) 1 := by
    simp only [parseINFO]
    exact uintAt_field d p 62 29 1 (by omega)
  rw [hk] at h2
  cases hs : lightMapSizes.get? (uintAt d (p + 29) 1) with
  | none =>
    rw [hs] at h2
    simp [run_stop] at h2
  | some size =>
    rw [hs] at h2
    simp only [Bool.false_eq_true, ↓reduceIte, run_pure, Res.ok.injEq] at h2
    obtain ⟨h4, h5⟩ := h2
    subst h4
    exact ⟨h62, h5.symm, rfl, rfl, rfl⟩

/-- The `Info` case on a state that already has an Info: the record is read
and dropped. -/
theorem loadInfo_later {st : ObjState} {d : List Byte} {p : Nat}
    (hst : st.hasInfo = true) (hr : p + 62 ≤ d.length) :
    loadInfo st d p = Res.ok st (p + 62) := by
  unfold loadInfo
  rw [run_bind_ok (run_read_ok hr)]
  simp [hst, run_pure]

theorem loadInfo_later_inv {st st1 : ObjState} {d : List Byte} {p q : Nat}
    (hst : st.hasInfo = true) (h : loadInfo st d p = Res.ok st1 q) : st1 = st := by
  unfold loadInfo at h
  obtain ⟨bs, r, h1, h2⟩ := bind_ok_inv h
  simp only [hst, ↓reduceIte, run_pure, Res.ok.injEq] at h2
  exact h2.1.symm

/-- What one iteration of the object loop that completes has done. -/
theorem loadObject_ok_inv {options : LoadOptions} {env : Env} {base off : Nat}
    {st st1 : ObjState} {d : List Byte} {p q : Nat}
    (h : loadObject options env base st off d p = Res.ok st1 q) :
    (base + off) % 2 ^ 32 + 4 ≤ d.length ∧
    ((uintAt d ((base + off) % 2 ^ 32) 4 = 5 ∧
        loadInfo st d ((base + off) % 2 ^ 32 + 4) = Res.ok st1 q) ∨
     (uintAt d ((base + off) % 2 ^ 32) 4 ≠ 5 ∧
        1 ≤ uintAt d ((base + off) % 2 ^ 32) 4 ∧ uintAt d ((base + off) % 2 ^ 32) 4 ≤ 8 ∧
        ∃ o, st1 = push st o)) := by
  unfold loadObject at h
  obtain ⟨u, r, h1, h2⟩ := bind_ok_inv h
  rw [run_seek] at h1
  simp only [Res.ok.injEq, true_and] at h1
  subst h1
  obtain ⟨t, r, h3, h4⟩ := bind_ok_inv h2
  obtain ⟨rfl, h5, rfl⟩ := readU32_ok_inv h3
  refine ⟨h5, ?_⟩
  generalize uintAt d ((base + off) % 2 ^ 32) 4 = t at h4 ⊢
  simp only [run_ite] at h4
  split_ifs at h4 with c5 c2 c6 c1 c4 c7 c3 c8
  · exact Or.inl ⟨c5, h4⟩
  all_goals first
    | (obtain ⟨o, _, ho⟩ := push_ok_inv h4
       exact Or.inr ⟨c5, by omega, by omega, o, ho⟩)
    | (simp [run_stop] at h4)

/-- An iteration of the object loop never clears `hasInfo`, and changes
`level.info` only when it sets `hasInfo`. -/
theorem loadObject_hasInfo {options : LoadOptions} {env : Env} {base off : Nat}
    {st st1 : ObjState} {d : List Byte} {p q : Nat}
    (h : loadObject options env base st off d p = Res.ok st1 q) :
    (st.hasInfo = true → st1.hasInfo = true ∧ st1.info = st.info) ∧
    (uintAt d ((base + off) % 2 ^ 32) 4 = 5 → st1.hasInfo = true) ∧
    (uintAt d ((base + off) % 2 ^ 32) 4 ≠ 5 → st1.hasInfo = st.hasInfo ∧ st1.info = st.info) := by
  obtain ⟨_, h1 | h1⟩ := loadObject_ok_inv h
  · obtain ⟨ht, hi⟩ := h1
    refine ⟨?_, ?_, ?_⟩
    · intro hs
      have := loadInfo_later_inv hs hi
      subst this
      exact ⟨hs, rfl⟩
    · intro _
      cases hs : st.hasInfo with
      | true =>
        have := loadInfo_later_inv hs hi
        subst this
        exact hs
      | false => exact (loadInfo_first_inv hs hi).2.2.1
    · intro hne; exact absurd ht hne
  · obtain ⟨hne, _, _, o, rfl⟩ := h1
    exact ⟨fun hs => ⟨hs, rfl⟩, fun ht => absurd ht hne, fun _ => ⟨rfl, rfl⟩⟩

end WMB

namespace WMB
open Rd

theorem load_eq_outcome (data : List Byte) (options : LoadOptions) (env : Env) :
    load data options env = (loadM options env data 0).outcome := by
  unfold load Res.outcome
  cases loadM options env data 0 <;> rfl

theorem headerOf_version (data : List Byte) : (headerOf data).version = data.take 4 := by
  simp [headerOf, parseHeader, field, List.take_take]

/-- What a completed run of the rest of `load` went through. -/
theorem loadFrom_ok_inv {options : LoadOptions} {env : Env} {header : WMB_HEADER}
    {textures : List Texture} {materials : List Material} {blocks : List Block}
    {offsets : List Nat} {d : List Byte} {p q : Nat} {lvl : Level}
    (h : loadFrom options env header textures materials blocks offsets d p = Res.ok lvl q) :
    ∃ st r lightmaps r2 terrain,
      loadObjectList options env header.objects.offset offsets ⟨false, env.uninitInfo, []⟩ d p
        = Res.ok st r ∧
      st.info.lightMapSize ≠ 0 ∧
      loadLightmaps header st.info.lightMapSize d r = Res.ok lightmaps r2 ∧
      loadTerrain env header d r2 = Res.ok terrain q ∧
      lvl = ⟨st.info, textures, materials, lightmaps, terrain, blocks, st.objects⟩ := by
  unfold loadFrom at h
  obtain ⟨st, r, h1, h2⟩ := bind_ok_inv h
  rw [run_ite] at h2
  split_ifs at h2 with hz
  · simp [run_stop] at h2
  · obtain ⟨lms, r2, h3, h4⟩ := bind_ok_inv h2
    obtain ⟨tl, r3, h5, h6⟩ := bind_ok_inv h4
    simp only [run_pure, Res.ok.injEq] at h6
    obtain ⟨h7, h8⟩ := h6
    subst h8
    exact ⟨st, r, lms, r2, tl, h1, hz, h3, h5, h7.symm⟩

/-- What a returned scene says about the run of `load`: the header was read
and carries the magic, the three leading sections were decoded, the object
offset table was read and the rest of `load` ran on it. -/
theorem load_scene_inv {data : List Byte} {options : LoadOptions} {env : Env} {lvl : Level}
    (h : load data options env = Outcome.scene lvl) :
    164 ≤ data.length ∧ data.take 4 = magic ∧
    ∃ textures materials blocks p1 p2 p3 q,
      loadTextures env (headerOf data) data 164 = Res.ok textures p1 ∧
      loadMaterials env (headerOf data) data p1 = Res.ok materials p2 ∧
      loadBlocks options (headerOf data) data p2 = Res.ok blocks p3 ∧
      (headerOf data).objects.offset + 4 ≤ data.length ∧
      loadFrom options env (headerOf data) textures materials blocks (objTable data) data
        ((headerOf data).objects.offset + 4 + 4 * objCount data) = Res.ok lvl q := by
  rw [load_eq_outcome] at h
  cases hm : loadM options env data 0 with
  | halt e => rw [hm] at h; simp [Res.outcome] at h
  | ok l q =>
    rw [hm] at h
    simp only [Res.outcome, Outcome.scene.injEq] at h
    subst h
    unfold loadM at hm
    obtain ⟨bs, r, h1, h2⟩ := bind_ok_inv hm
    obtain ⟨rfl, h3, rfl⟩ := read_ok_inv h1
    have hlen : 164 ≤ data.length := by omega
    dsimp only at h2
    rw [← headerOf, run_ite] at h2
    split_ifs at h2 with hv
    · simp [run_stop] at h2
    · rw [headerOf_version] at hv
      obtain ⟨tex, p1, h4, h5⟩ := bind_ok_inv h2
      obtain ⟨mat, p2, h6, h7⟩ := bind_ok_inv h5
      obtain ⟨blk, p3, h8, h9⟩ := bind_ok_inv h7
      obtain ⟨u, p4, h10, h11⟩ := bind_ok_inv h9
      rw [run_seek] at h10
      simp only [Res.ok.injEq, true_and] at h10
      subst h10
      obtain ⟨n, p5, h12, h13⟩ := bind_ok_inv h11
      obtain ⟨rfl, h14, rfl⟩ := readU32_ok_inv h12
      obtain ⟨offs, p6, h15, h16⟩ := bind_ok_inv h13
      have htab := times_readU32_ok_inv _ h15
      have hp6 := times_readU32_ok_pos _ h15
      subst hp6
      have htab2 : offs = objTable data := by
        rw [htab]
        unfold objTable objCount objEntry
        rfl
      subst htab2
      exact ⟨hlen, not_not.mp hv, tex, mat, blk, p1, p2, p3, q, h4, h6, h8, h14, h16⟩

end WMB

namespace WMB
open Rd

theorem loadObjectList_nil (options : LoadOptions) (env : Env) (base : Nat) (st : ObjState)
    (d : List Byte) (p : Nat) : loadObjectList options env base [] st d p = Res.ok st p := rfl

theorem loadObjectList_cons (options : LoadOptions) (env : Env) (base x : Nat) (l : List Nat)
    (st : ObjState) (d : List Byte) (p : Nat) :
    loadObjectList options env base (x :: l) st d p =
      match loadObject options env base st x d p with
      | Res.ok st1 r => loadObjectList options env base l st1 d r
      | Res.halt e => Res.halt e := by
  rw [loadObjectList, run_bind]
  cases loadObject options env base st x d p <;> rfl

theorem loadObjectList_append (options : LoadOptions) (env : Env) (base : Nat) (l1 l2 : List Nat)
    (st : ObjState) (d : List Byte) (p : Nat) :
    loadObjectList options env base (l1 ++ l2) st d p =
      match loadObjectList options env base l1 st d p with
      | Res.ok st1 r => loadObjectList options env base l2 st1 d r
      | Res.halt e => Res.halt e := by
  induction l1 generalizing st p with
  | nil => rfl
  | cons x l ih =>
    rw [List.cons_append, loadObjectList_cons, loadObjectList_cons]
    cases loadObject options env base st x d p with
    | ok st1 r => exact ih st1 r
    | halt e => rfl

/-- The cursor at which an iteration of the object loop starts is irrelevant:
the iteration seeks first. -/
theorem loadObject_cursor (options : LoadOptions) (env : Env) (base x : Nat) (st : ObjState)
    (d : List Byte) (p q : Nat) :
    loadObject options env base st x d p = loadObject options env base st x d q := by
  unfold loadObject
  rw [run_bind, run_bind, run_seek, run_seek]

/-- A completed object loop has completed the iteration of each table entry,
on a state reached from the initial one. -/
theorem loadObjectList_split_inv {options : LoadOptions} {env : Env} {base : Nat}
    {l1 l2 : List Nat} {x : Nat} {st st3 : ObjState} {d : List Byte} {p q : Nat}
    (h : loadObjectList options env base (l1 ++ x :: l2) st d p = Res.ok st3 q) :
    ∃ st1 r1 st2 r2,
      loadObjectList options env base l1 st d p = Res.ok st1 r1 ∧
      loadObject options env base st1 x d r1 = Res.ok st2 r2 ∧
      loadObjectList options env base l2 st2 d r2 = Res.ok st3 q := by
  rw [loadObjectList_append] at h
  cases h1 : loadObjectList options env base l1 st d p with
  | halt e => rw [h1] at h; cases h
  | ok st1 r1 =>
    rw [h1] at h
    simp only [loadObjectList_cons] at h
    cases h2 : loadObject options env base st1 x d r1 with
    | halt e => rw [h2] at h; cases h
    | ok st2 r2 =>
      rw [h2] at h
      exact ⟨st1, r1, st2, r2, rfl, h2, h⟩

/-- A completed object loop that started with `hasInfo` set has not touched
`level.info`. -/
theorem loadObjectList_keeps_info {options : LoadOptions} {env : Env} {base : Nat}
    {l : List Nat} {st st1 : ObjState} {d : List Byte} {p q : Nat}
    (h : loadObjectList options env base l st d p = Res.ok st1 q) (hs : st.hasInfo = true) :
    st1.hasInfo = true ∧ st1.info = st.info := by
  induction l generalizing st p with
  | nil =>
    simp only [loadObjectList_nil, Res.ok.injEq] at h
    rw [← h.1]
    exact ⟨hs, rfl⟩
  | cons x l ih =>
    rw [loadObjectList_cons] at h
    cases h1 : loadObject options env base st x d p with
    | halt e => rw [h1] at h; cases h
    | ok st2 r =>
      rw [h1] at h
      obtain ⟨h2, h3⟩ := (loadObject_hasInfo h1).1 hs
      obtain ⟨h4, h5⟩ := ih h h2
      exact ⟨h4, h5.trans h3⟩

/-- A completed object loop over entries none of which is tagged `Info` has
touched neither `hasInfo` nor `level.info`. -/
theorem loadObjectList_no_info {options : LoadOptions} {env : Env} {base : Nat}
    {l : List Nat} {st st1 : ObjState} {d : List Byte} {p q : Nat}
    (h : loadObjectList options env base l st d p = Res.ok st1 q)
    (hl : ∀ x ∈ l, uintAt d ((base + x) % 2 ^ 32) 4 ≠ 5) :
    st1.hasInfo = st.hasInfo ∧ st1.info = st.info := by
  induction l generalizing st p with
  | nil =>
    simp only [loadObjectList_nil, Res.ok.injEq] at h
    rw [← h.1]
    exact ⟨rfl, rfl⟩
  | cons x l ih =>
    rw [loadObjectList_cons] at h
    cases h1 : loadObject options env base st x d p with
    | halt e => rw [h1] at h; cases h
    | ok st2 r =>
      rw [h1] at h
      obtain ⟨h2, h3⟩ := (loadObject_hasInfo h1).2.2 (hl x (List.mem_cons_self x l))
      obtain ⟨h4, h5⟩ := ih h (fun y hy => hl y (List.mem_cons_of_mem x hy))
      exact ⟨h4.trans h2, h5.trans h3⟩

theorem range_map_split {α : Type} (f : Nat → α) {i n : Nat} (hi : i < n) :
    (List.range n).map f =
      (List.range i).map f ++ f i :: (List.range (n - i - 1)).map (fun j => f (i + 1 + j)) := by
  have hn : n = i + ((n - i - 1) + 1) := by omega
  conv_lhs => rw [hn, List.range_add, List.range_succ_eq_map]
  simp only [List.map_append, List.map_cons, List.map_map, Nat.add_zero]
  congr 2
  apply List.map_congr_left
  intro j _
  simp only [Function.comp]
  congr 1
  omega

/-- The object table, split at its `i`-th entry. -/
theorem objTable_split (data : List Byte) {i : Nat} (hi : i < objCount data) :
    objTable data = (List.range i).map (objEntry data) ++ objEntry data i ::
      (List.range (objCount data - i - 1)).map (fun j => objEntry data (i + 1 + j)) :=
  range_map_split (objEntry data) hi

end WMB

namespace WMB
open Rd

/-! ## The texture decoder -/

theorem onlyHang_read (n : Nat) : OnlyHang (Rd.read n) :=
  fun _ _ _ h => (read_halt_inv h).1

theorem onlyHang_pure {α : Type} (a : α) : OnlyHang (Pure.pure a : Rd α) := by
  intro d p e h
  simp [run_pure] at h

theorem onlyHang_bind {α β : Type} {x : Rd α} {f : α → Rd β} (hx : OnlyHang x)
    (hf : ∀ a, OnlyHang (f a)) : OnlyHang (x >>= f) := by
  intro d p e h
  rcases bind_halt_inv h with h1 | ⟨a, r, _, h2⟩
  · exact hx d p e h1
  · exact hf a d r e h2

theorem onlyHang_readU32 : OnlyHang readU32 :=
  onlyHang_bind (onlyHang_read 4) (fun _ => onlyHang_pure _)

theorem onlyHang_times {α : Type} {x : Rd α} (hx : OnlyHang x) (n : Nat) :
    OnlyHang (times n x) := by
  induction n with
  | zero => exact onlyHang_pure _
  | succ n ih =>
    unfold times
    exact onlyHang_bind hx (fun _ => onlyHang_bind ih (fun _ => onlyHang_pure _))

theorem onlyHang_readLevels (n datalen : Nat) : OnlyHang (readLevels n datalen) := by
  induction n generalizing datalen with
  | zero => exact onlyHang_pure _
  | succ n ih =>
    unfold readLevels
    apply onlyHang_bind (onlyHang_read _)
    intro lv
    split
    · exact onlyHang_pure _
    · exact onlyHang_bind (ih _) (fun _ => onlyHang_pure _)

theorem parseTEXTURE_type (d : List Byte) (p : Nat) :
    (parseTEXTURE (field d p 40)).type = uintAt d (p + 24) 4 := by
  simp only [parseTEXTURE]
  exact uintAt_field d p 40 24 4 (by omega)

/-- A texture iteration that completes has read a record with one of the four
known format codes. -/
theorem loadTexture_ok_inv {env : Env} {base off : Nat} {d : List Byte} {p q : Nat} {t : Texture}
    (h : loadTexture env base off d p = Res.ok t q) :
    (base + off) % 2 ^ 32 + 40 ≤ d.length ∧
    (uintAt d ((base + off) % 2 ^ 32 + 24) 4 &&& 7 = 2 ∨
     uintAt d ((base + off) % 2 ^ 32 + 24) 4 &&& 7 = 4 ∨
     uintAt d ((base + off) % 2 ^ 32 + 24) 4 &&& 7 = 5 ∨
     uintAt d ((base + off) % 2 ^ 32 + 24) 4 &&& 7 = 6) := by
  unfold loadTexture at h
  obtain ⟨u, r, h1, h2⟩ := bind_ok_inv h
  rw [run_seek] at h1
  simp only [Res.ok.injEq, true_and] at h1
  subst h1
  obtain ⟨bs, r, h3, h4⟩ := bind_ok_inv h2
  obtain ⟨rfl, h5, rfl⟩ := read_ok_inv h3
  refine ⟨by omega, ?_⟩
  dsimp only at h4
  rw [parseTEXTURE_type] at h4
  generalize uintAt d ((base + off) % 2 ^ 32 + 24) 4 &&& 7 = f at h4 ⊢
  rw [run_ite] at h4
  split_ifs at h4 with c6
  · exact Or.inr (Or.inr (Or.inr c6))
  · obtain ⟨bpp, r, h6, _⟩ := bind_ok_inv h4
    unfold bytesPerPixel at h6
    simp only [run_ite] at h6
    split_ifs at h6 with c2 c4 c5
    · exact Or.inl c2
    · exact Or.inr (Or.inl c4)
    · exact Or.inr (Or.inr (Or.inl c5))
    · simp [run_stop] at h6

/-- A texture iteration that ends in `std::terminate` has read a record whose
format code is none of the four known ones. -/
theorem loadTexture_terminate_inv {env : Env} {base off : Nat} {d : List Byte} {p : Nat}
    (h : loadTexture env base off d p = Res.halt Halt.terminate) :
    uintAt d ((base + off) % 2 ^ 32 + 24) 4 &&& 7 ≠ 2 ∧
    uintAt d ((base + off) % 2 ^ 32 + 24) 4 &&& 7 ≠ 4 ∧
    uintAt d ((base + off) % 2 ^ 32 + 24) 4 &&& 7 ≠ 5 ∧
    uintAt d ((base + off) % 2 ^ 32 + 24) 4 &&& 7 ≠ 6 := by
  unfold loadTexture at h
  rw [run_bind, run_seek] at h
  dsimp only at h
  rcases bind_halt_inv h with h1 | ⟨bs, r, h1, h2⟩
  · have := (read_halt_inv h1).1
    cases this
  · obtain ⟨rfl, h5, rfl⟩ := read_ok_inv h1
    rw [parseTEXTURE_type] at h2
    generalize uintAt d ((base + off) % 2 ^ 32 + 24) 4 &&& 7 = f at h2 ⊢
    rw [run_ite] at h2
    split_ifs at h2 with c6
    · have := onlyHang_bind (onlyHang_read _) (fun _ => onlyHang_pure _) _ _ _ h2
      cases this
    · rcases bind_halt_inv h2 with h3 | ⟨bpp, r, _, h4⟩
      · unfold bytesPerPixel at h3
        simp only [run_ite] at h3
        split_ifs at h3 with c2 c4 c5
        · simp [run_pure] at h3
        · simp [run_pure] at h3
        · simp [run_pure] at h3
        · exact ⟨c2, c4, c5, c6⟩
      · have := onlyHang_bind (onlyHang_readLevels _ _) (fun _ => onlyHang_pure _) _ _ _ h4
        cases this

theorem loadTextureList_ok_mem {env : Env} {base : Nat} {l : List Nat} {d : List Byte}
    {p q : Nat} {ts : List Texture} (h : loadTextureList env base l d p = Res.ok ts q)
    (x : Nat) (hx : x ∈ l) : ∃ r t s, loadTexture env base x d r = Res.ok t s := by
  induction l generalizing p q ts with
  | nil => cases hx
  | cons y l ih =>
    unfold loadTextureList at h
    obtain ⟨t, r, h1, h2⟩ := bind_ok_inv h
    obtain ⟨ts1, r1, h3, _⟩ := bind_ok_inv h2
    rcases List.mem_cons.mp hx with rfl | hx1
    · exact ⟨p, t, r, h1⟩
    · exact ih h3 hx1

theorem loadTextureList_halt_mem {env : Env} {base : Nat} {l : List Nat} {d : List Byte}
    {p : Nat} {e : Halt} (h : loadTextureList env base l d p = Res.halt e) :
    ∃ x ∈ l, ∃ r, loadTexture env base x d r = Res.halt e := by
  induction l generalizing p with
  | nil => simp [loadTextureList, run_pure] at h
  | cons y l ih =>
    unfold loadTextureList at h
    rcases bind_halt_inv h with h1 | ⟨t, r, _, h2⟩
    · exact ⟨y, List.mem_cons_self y l, p, h1⟩
    · rcases bind_halt_inv h2 with h3 | ⟨ts, r1, _, h4⟩
      · obtain ⟨x, hx, r2, h5⟩ := ih h3
        exact ⟨x, List.mem_cons_of_mem y hx, r2, h5⟩
      · simp [run_pure] at h4

/-- The offset table that a texture decoder run went through. -/
theorem loadTextures_present {env : Env} {data : List Byte} {p : Nat}
    (hoff : (headerOf data).textures.offset ≠ 0) :
    loadTextures env (headerOf data) data p =
      (readU32 >>= fun texcount => times texcount readU32 >>= fun offsets =>
        loadTextureList env (headerOf data).textures.offset offsets) data
        (headerOf data).textures.offset := by
  unfold loadTextures
  rw [if_pos hoff, run_bind, run_seek]

theorem mem_range_map {α : Type} {f : Nat → α} {n : Nat} {x : α}
    (h : x ∈ (List.range n).map f) : ∃ i, i < n ∧ f i = x := by
  obtain ⟨i, hi, rfl⟩ := List.mem_map.mp h
  exact ⟨i, List.mem_range.mp hi, rfl⟩

end WMB

namespace WMB
open Rd

/-! ## Running the object loop forward -/

/-- The `Light` iteration on a complete record. -/
theorem run_loadObject_light (options : LoadOptions) (env : Env) {base off : Nat} (st : ObjState)
    {d : List Byte} (p : Nat) (htag : uintAt d ((base + off) % 2 ^ 32) 4 = 2)
    (hr : (base + off) % 2 ^ 32 + 36 ≤ d.length) :
    loadObject options env base st off d p =
      Res.ok (push st (Object.light
        ⟨mapVec options (vec3At d ((base + off) % 2 ^ 32 + 4)),
         vec3At d ((base + off) % 2 ^ 32 + 16),
         f32At d ((base + off) % 2 ^ 32 + 28),
         uintAt d ((base + off) % 2 ^ 32 + 32) 4⟩)) ((base + off) % 2 ^ 32 + 36) := by
  unfold loadObject
  rw [run_bind, run_seek]
  dsimp only
  rw [run_bind_ok (run_readU32_ok (by omega)), htag]
  simp only [show (2 : Nat) ≠ 5 by decide, ↓reduceIte]
  unfold loadLight
  simp only [run_bind, run_read_ok (show (base + off) % 2 ^ 32 + 4 + 32 ≤ d.length by omega),
    run_pure]
  rw [vec3At_field _ _ _ _ (by omega), vec3At_field _ _ _ _ (by omega),
    f32At_field _ _ _ _ (by omega), uintAt_field _ _ _ _ _ (by omega)]

/-- The `Info` iteration on a complete record, when no Info was seen before and
the size selector is one of 0, 1, 2. -/
theorem run_loadObject_info (options : LoadOptions) (env : Env) {base off : Nat} (st : ObjState)
    {d : List Byte} (p : Nat) {size : Nat} (htag : uintAt d ((base + off) % 2 ^ 32) 4 = 5)
    (hr : (base + off) % 2 ^ 32 + 66 ≤ d.length) (hst : st.hasInfo = false)
    (hsel : lightMapSizes.get? (uintAt d ((base + off) % 2 ^ 32 + 33) 1) = some size) :
    loadObject options env base st off d p =
      Res.ok ⟨true, makeInfo (parseINFO (field d ((base + off) % 2 ^ 32 + 4) 62)) size,
        st.objects⟩ ((base + off) % 2 ^ 32 + 66) := by
  have hk : (parseINFO (field d ((base + off) % 2 ^ 32 + 4) 62)).LMapSize
      = uintAt d ((base + off) % 2 ^ 32 + 33) 1 := by
    simp only [parseINFO]
    exact uintAt_field d _ 62 29 1 (by omega)
  unfold loadObject
  rw [run_bind, run_seek]
  dsimp only
  rw [run_bind_ok (run_readU32_ok (by omega)), htag]
  simp only [↓reduceIte]
  unfold loadInfo
  rw [run_bind_ok (run_read_ok (show (base + off) % 2 ^ 32 + 4 + 62 ≤ d.length by omega))]
  simp only [hst, Bool.false_eq_true, ↓reduceIte, hk, hsel, run_pure]

theorem leWord_lt (bs : List Byte) : leWord bs < 256 ^ bs.length := by
  induction bs with
  | nil => simp [leWord]
  | cons b bs ih =>
    simp only [leWord, List.length_cons, Nat.pow_succ]
    have := b.isLt
    omega

theorem uintAt_lt (d : List Byte) (p : Nat) : uintAt d p 4 < 2 ^ 32 := by
  unfold uintAt
  have h1 := leWord_lt (field d p 4)
  have h2 : (field d p 4).length ≤ 4 := by
    unfold field
    simp only [List.length_take]
    omega
  calc leWord (field d p 4) < 256 ^ (field d p 4).length := h1
    _ ≤ 256 ^ 4 := Nat.pow_le_pow_right (by decide) h2
    _ = 2 ^ 32 := by norm_num

end WMB

namespace WMB

namespace F32

/-! ## Exact cases of the `float` arithmetic -/

theorem bitLenAux_le_iff (fuel n k : Nat) (h : n ≤ fuel) : bitLenAux fuel n ≤ k ↔ n < 2 ^ k := by
  induction fuel generalizing n k with
  | zero =>
    have hn : n = 0 := by omega
    subst hn
    simp [bitLenAux]
  | succ f ih =>
    unfold bitLenAux
    by_cases hn : n = 0
    · subst hn
      simp
    · simp only [hn, if_false]
      cases k with
      | zero =>
        simp only [Nat.pow_zero]
        omega
      | succ k =>
        rw [Nat.succ_le_succ_iff, ih (n / 2) k (by omega), Nat.pow_succ]
        omega

theorem bitLen_le_iff (n k : Nat) : bitLen n ≤ k ↔ n < 2 ^ k :=
  bitLenAux_le_iff n n k (Nat.le_refl n)

theorem rne_exact (m d : Nat) (hd : 0 < d) : rne (m * d) d = m := by
  unfold rne
  simp [Nat.mul_div_cancel m hd, hd]

/-- Rounding a value that is a binary32 value returns its pattern: the
significand `m` at the exponent step `s`. -/
theorem roundMag_exact (m s D : Nat) (hD : 0 < D) (hm : m < 2 ^ 24) (hs : s = 0 ∨ 2 ^ 23 ≤ m)
    (hb : s * 2 ^ 23 + m ≤ 0x7F800000) : roundMag (m * 2 ^ s * D) D = s * 2 ^ 23 + m := by
  unfold roundMag
  have h1 : m * 2 ^ s * D / D = m * 2 ^ s := Nat.mul_div_cancel _ hD
  have h2 : bitLen (m * 2 ^ s) - 24 = s := by
    rcases hs with hs | hs
    · subst hs
      have : bitLen (m * 2 ^ 0) ≤ 24 := (bitLen_le_iff _ _).mpr (by simpa using hm)
      omega
    · have hle : bitLen (m * 2 ^ s) ≤ 24 + s := by
        rw [bitLen_le_iff, Nat.pow_add]
        exact Nat.mul_lt_mul_of_pos_right hm (Nat.two_pow_pos _)
      have hge : ¬ bitLen (m * 2 ^ s) ≤ 23 + s := by
        rw [bitLen_le_iff, Nat.pow_add, Nat.not_lt]
        exact Nat.mul_le_mul_right _ hs
      omega
  have h3 : m * 2 ^ s * D = m * (D * 2 ^ s) := by ring
  simp only [h1, h2]
  rw [h3, rne_exact m _ (Nat.mul_pos hD (Nat.two_pow_pos _))]
  exact Nat.min_eq_left hb

theorem mag_eq (a : F32) : mag a = expo a * 2 ^ 23 + frac a := by
  unfold mag expo frac
  omega

theorem expo_lt (a : F32) : expo a < 256 := by
  unfold expo
  omega

theorem frac_lt (a : F32) : frac a < 2 ^ 23 := by
  unfold frac
  omega

/-- Rounding the value of a finite `float` returns the `float`. -/
theorem roundMag_scaled (a : F32) (hfin : expo a ≠ 255) (D : Nat) (hD : 0 < D) :
    roundMag (scaled a * D) D = mag a := by
  have he := expo_lt a
  have hf := frac_lt a
  rw [mag_eq]
  unfold scaled
  by_cases h0 : expo a = 0
  · simp only [h0, if_true]
    have := roundMag_exact (frac a) 0 D hD (by omega) (Or.inl rfl) (by omega)
    simpa using this
  · simp only [h0, if_false]
    have := roundMag_exact (2 ^ 23 + frac a) (expo a - 1) D hD (by omega) (Or.inr (by omega))
      (by omega)
    rw [this]
    have : expo a = (expo a - 1) + 1 := by omega
    conv_rhs => rw [this]
    ring

theorem withSign_sign_mag (a : Nat) (ha : a < 2 ^ 32) : withSign (sign a) (mag a) = a := by
  unfold withSign sign mag
  by_cases h : a / 2 ^ 31 % 2 = 1
  · simp only [h, decide_True, if_true]
    show (2 ^ 31 + a % 2 ^ 31 : Nat) = a
    omega
  · simp only [h, decide_False, Bool.false_eq_true, if_false]
    show (0 + a % 2 ^ 31 : Nat) = a
    omega

theorem isNaN_false_of_finite {a : F32} (h : expo a ≠ 255) : isNaN a = false := by
  simp [isNaN, h]

theorem isInf_false_of_finite {a : F32} (h : expo a ≠ 255) : isInf a = false := by
  simp [isInf, h]

/-- `1.0f * a` is `a` for every finite `a`. -/
theorem mul_one_finite (a : Nat) (ha : a < 2 ^ 32) (hfin : expo a ≠ 255) : mul one a = a := by
  have h1 : isNaN one = false := by decide
  have h2 : isInf one = false := by decide
  have h3 : isZero one = false := by decide
  have h4 : sign one = false := by decide
  have h5 : scaled one = 2 ^ 149 := by decide
  unfold mul
  simp only [h1, h2, h3, h4, h5, isNaN_false_of_finite hfin, isInf_false_of_finite hfin,
    Bool.or_self, Bool.false_eq_true, if_false, Bool.false_and, Bool.and_false, Bool.false_bne]
  rw [Nat.mul_comm, roundMag_scaled a hfin _ (Nat.two_pow_pos _)]
  exact withSign_sign_mag a ha

theorem roundMag_zero (d : Nat) (hd : 0 < d) : roundMag 0 d = 0 := by
  have := roundMag_exact 0 0 d hd (by decide) (Or.inl rfl) (by decide)
  simpa using this

/-- `0.0f * b` is a zero with the sign of `b` for every finite `b`. -/
theorem mul_zero_finite (b : F32) (hfin : expo b ≠ 255) : mul zero b = withSign (sign b) 0 := by
  have h1 : isNaN zero = false := by decide
  have h2 : isInf zero = false := by decide
  have h4 : sign zero = false := by decide
  have h5 : scaled zero = 0 := by decide
  unfold mul
  simp only [h1, h2, h4, h5, isNaN_false_of_finite hfin, isInf_false_of_finite hfin,
    Bool.or_self, Bool.false_eq_true, if_false, Bool.false_and, Bool.and_false, Bool.false_bne,
    Nat.zero_mul]
  rw [roundMag_zero _ (Nat.two_pow_pos _)]

theorem key_eq_zero_iff (x : Nat) : key x = 0 ↔ scaled x = 0 := by
  unfold key
  split <;> omega

theorem add_signed_zero_right (x : Nat) (sz : Bool) (hx : x < 2 ^ 32) (hfin : expo x ≠ 255) :
    add x (withSign sz 0) = if scaled x = 0 then withSign (sign x && sz) 0 else x := by
  have h1 : isNaN (withSign sz 0) = false := by cases sz <;> decide
  have h2 : isInf (withSign sz 0) = false := by cases sz <;> decide
  have h3 : key (withSign sz 0) = 0 := by cases sz <;> decide
  have h4 : sign (withSign sz 0) = sz := by cases sz <;> decide
  unfold add
  simp only [h1, h2, h3, h4, isNaN_false_of_finite hfin, isInf_false_of_finite hfin,
    Bool.or_self, Bool.false_eq_true, if_false, Bool.and_self, add_zero, key_eq_zero_iff]
  by_cases hz : scaled x = 0
  · simp only [hz, if_true]
  · simp only [hz, if_false]
    have hk : (key x).natAbs = scaled x := by
      unfold key
      split <;> simp
    have hs : decide (key x < 0) = sign x := by
      unfold key
      cases hsx : sign x
      · simp
      · simp only [if_true, decide_eq_true_eq]
        omega
    rw [hk, hs]
    have := roundMag_scaled x hfin 1 (by decide)
    rw [Nat.mul_one] at this
    rw [this]
    exact withSign_sign_mag x hx

theorem add_signed_zero_left (x : Nat) (sz : Bool) (hx : x < 2 ^ 32) (hfin : expo x ≠ 255) :
    add (withSign sz 0) x = if scaled x = 0 then withSign (sz && sign x) 0 else x := by
  have h1 : isNaN (withSign sz 0) = false := by cases sz <;> decide
  have h2 : isInf (withSign sz 0) = false := by cases sz <;> decide
  have h3 : key (withSign sz 0) = 0 := by cases sz <;> decide
  have h4 : sign (withSign sz 0) = sz := by cases sz <;> decide
  unfold add
  simp only [h1, h2, h3, h4, isNaN_false_of_finite hfin, isInf_false_of_finite hfin,
    Bool.or_self, Bool.false_eq_true, if_false, Bool.and_self, zero_add, key_eq_zero_iff]
  by_cases hz : scaled x = 0
  · simp only [hz, if_true]
  · simp only [hz, if_false]
    have hk : (key x).natAbs = scaled x := by
      unfold key
      split <;> simp
    have hs : decide (key x < 0) = sign x := by
      unfold key
      cases hsx : sign x
      · simp
      · simp only [if_true, decide_eq_true_eq]
        omega
    rw [hk, hs]
    have := roundMag_scaled x hfin 1 (by decide)
    rw [Nat.mul_one] at this
    rw [this]
    exact withSign_sign_mag x hx

theorem near_finite {a r : Nat} (ha : a < 2 ^ 32) (hfin : expo a ≠ 255) (h : Near a r) :
    r < 2 ^ 32 ∧ expo r ≠ 255 := by
  rcases h with rfl | ⟨_, s, rfl⟩
  · exact ⟨ha, hfin⟩
  · cases s <;> decide

theorem near_add_right {a r : Nat} (sz : Bool) (ha : a < 2 ^ 32) (hfin : expo a ≠ 255)
    (h : Near a r) : Near a (add r (withSign sz 0)) := by
  obtain ⟨hr, hrf⟩ := near_finite ha hfin h
  rw [add_signed_zero_right r sz hr hrf]
  rcases h with rfl | ⟨hz, s, rfl⟩
  · by_cases h0 : scaled r = 0
    · simp only [h0, if_true]
      exact Or.inr ⟨h0, _, rfl⟩
    · simp only [h0, if_false]
      exact Or.inl rfl
  · have : scaled (withSign s 0) = 0 := by cases s <;> decide
    simp only [this, if_true]
    exact Or.inr ⟨hz, _, rfl⟩

theorem near_add_left {a : Nat} (sz : Bool) (ha : a < 2 ^ 32) (hfin : expo a ≠ 255) :
    Near a (add (withSign sz 0) a) := by
  rw [add_signed_zero_left a sz ha hfin]
  by_cases h0 : scaled a = 0
  · simp only [h0, if_true]
    exact Or.inr ⟨h0, _, rfl⟩
  · simp only [h0, if_false]
    exact Or.inl rfl

theorem near_numEq {a r : Nat} (hfin : expo a ≠ 255) (h : Near a r) : numEq r a = true := by
  rcases h with rfl | ⟨hz, s, rfl⟩
  · simp [numEq, isNaN_false_of_finite hfin]
  · have h1 : isNaN (withSign s 0) = false := by cases s <;> decide
    have h3 : key (withSign s 0) = 0 := by cases s <;> decide
    have h4 : key a = 0 := (key_eq_zero_iff a).mpr hz
    simp [numEq, isNaN_false_of_finite hfin, h1, h3, h4]

theorem signed_zero_add (s t : Bool) : ∃ u, add (withSign s 0) (withSign t 0) = withSign u 0 := by
  cases s <;> cases t
  · exact ⟨false, by decide⟩
  · exact ⟨false, by decide⟩
  · exact ⟨false, by decide⟩
  · exact ⟨true, by decide⟩

end F32

/-- Under the native convention the position mapper multiplies with the
identity matrix in `float` arithmetic: a vector with three finite components
comes back with each component equal to the original (`==`), the sign of a
zero component being the only thing that can change. -/
theorem mapVec_native_finite (options : LoadOptions) (v : Vec3)
    (hopt : options.targetCoordinateSystem = CoordinateSystem.Gamestudio)
    (hx : v.x < 2 ^ 32 ∧ F32.expo v.x ≠ 255) (hy : v.y < 2 ^ 32 ∧ F32.expo v.y ≠ 255)
    (hz : v.z < 2 ^ 32 ∧ F32.expo v.z ≠ 255) :
    F32.numEq (mapVec options v).x v.x = true ∧ F32.numEq (mapVec options v).y v.y = true ∧
    F32.numEq (mapVec options v).z v.z = true := by
  unfold mapVec vecMulMat
  rw [hopt]
  simp only [mapMatrix]
  rw [F32.mul_one_finite v.x hx.1 hx.2, F32.mul_one_finite v.y hy.1 hy.2,
    F32.mul_one_finite v.z hz.1 hz.2, F32.mul_zero_finite v.x hx.2, F32.mul_zero_finite v.y hy.2,
    F32.mul_zero_finite v.z hz.2]
  refine ⟨?_, ?_, ?_⟩
  · exact F32.near_numEq hx.2 (F32.near_add_right _ hx.1 hx.2
      (F32.near_add_right _ hx.1 hx.2 (Or.inl rfl)))
  · exact F32.near_numEq hy.2 (F32.near_add_right _ hy.1 hy.2 (F32.near_add_left _ hy.1 hy.2))
  · obtain ⟨u, hu⟩ := F32.signed_zero_add (F32.sign v.x) (F32.sign v.y)
    rw [hu]
    exact F32.near_numEq hz.2 (F32.near_add_left _ hz.1 hz.2)

end WMB

namespace WMB
open Rd

/-! ## Later Info records -/

theorem outcome_of_forget {r1 r2 : Res Level} (h : r1.forget = r2.forget) :
    r1.outcome = r2.outcome := by
  cases r1 <;> cases r2 <;> simp_all [Res.forget, Res.outcome]

/-- Two runs that agree up to the cursor still agree up to the cursor when
followed by a computation whose result does not depend on the cursor. -/
theorem forget_bind_congr {α β : Type} {r1 r2 : Res α} {f g : α → Rd β} {d : List Byte}
    (h : r1.forget = r2.forget) (hf : ∀ a p q, (f a d p).forget = (g a d q).forget) :
    (match r1 with
      | Res.ok a p => f a d p
      | Res.halt e => Res.halt e).forget =
    (match r2 with
      | Res.ok a p => g a d p
      | Res.halt e => Res.halt e).forget := by
  cases r1 with
  | ok a p =>
    cases r2 with
    | ok b q =>
      simp only [Res.forget, Res.ok.injEq, and_true] at h
      subst h
      exact hf a p q
    | halt e => simp [Res.forget] at h
  | halt e =>
    cases r2 with
    | ok b q => simp [Res.forget] at h
    | halt e2 =>
      simp only [Res.forget, Res.halt.injEq] at h
      subst h
      rfl

theorem loadObjectList_cursor (options : LoadOptions) (env : Env) (base : Nat) (l : List Nat)
    (st : ObjState) (d : List Byte) (p q : Nat) :
    (loadObjectList options env base l st d p).forget =
      (loadObjectList options env base l st d q).forget := by
  cases l with
  | nil => rfl
  | cons x l =>
    rw [loadObjectList_cons, loadObjectList_cons, loadObject_cursor options env base x st d p q]

/-- An entry tagged `Info` whose record is complete is skipped when an Info was
seen before. -/
theorem run_loadObject_info_later {options : LoadOptions} {env : Env} {base off : Nat}
    {st : ObjState} {d : List Byte} {p : Nat} (htag : uintAt d ((base + off) % 2 ^ 32) 4 = 5)
    (hr : (base + off) % 2 ^ 32 + 66 ≤ d.length) (hst : st.hasInfo = true) :
    loadObject options env base st off d p = Res.ok st ((base + off) % 2 ^ 32 + 66) := by
  unfold loadObject
  rw [run_bind, run_seek]
  dsimp only
  rw [run_bind_ok (run_readU32_ok (by omega)), htag]
  simp only [↓reduceIte]
  exact loadInfo_later hst (by omega)

/-- Once an Info was seen, entries that point at complete Info records can be
struck from the table without changing the result of the object loop. -/
theorem loadObjectList_filter (options : LoadOptions) (env : Env) (base : Nat) (dup : Nat → Bool)
    (d : List Byte) (l : List Nat)
    (hdup : ∀ x ∈ l, dup x = true →
      uintAt d ((base + x) % 2 ^ 32) 4 = 5 ∧ (base + x) % 2 ^ 32 + 66 ≤ d.length)
    (st : ObjState) (hst : st.hasInfo = true) (p q : Nat) :
    (loadObjectList options env base l st d p).forget =
      (loadObjectList options env base (l.filter (fun x => !dup x)) st d q).forget := by
  induction l generalizing st p q with
  | nil => rfl
  | cons x l ih =>
    have hl : ∀ y ∈ l, dup y = true →
        uintAt d ((base + y) % 2 ^ 32) 4 = 5 ∧ (base + y) % 2 ^ 32 + 66 ≤ d.length :=
      fun y hy => hdup y (List.mem_cons_of_mem x hy)
    cases hx : dup x with
    | true =>
      obtain ⟨h1, h2⟩ := hdup x (List.mem_cons_self x l) hx
      rw [List.filter_cons_of_neg (by simp [hx]), loadObjectList_cons,
        run_loadObject_info_later h1 h2 hst]
      exact ih hl st hst _ q
    | false =>
      rw [List.filter_cons_of_pos (by simp [hx]), loadObjectList_cons, loadObjectList_cons,
        loadObject_cursor options env base x st d p q]
      cases h1 : loadObject options env base st x d q with
      | halt e => rfl
      | ok st1 r => exact ih hl st1 ((loadObject_hasInfo h1).1 hst).1 r r

/-- A completed object loop over a table with an entry tagged `Info` has set
`hasInfo`. -/
theorem loadObjectList_sets_hasInfo {options : LoadOptions} {env : Env} {base : Nat}
    {l : List Nat} {st st1 : ObjState} {d : List Byte} {p q : Nat}
    (h : loadObjectList options env base l st d p = Res.ok st1 q)
    (hl : ∃ y ∈ l, uintAt d ((base + y) % 2 ^ 32) 4 = 5) : st1.hasInfo = true := by
  induction l generalizing st p with
  | nil =>
    obtain ⟨y, hy, _⟩ := hl
    cases hy
  | cons x l ih =>
    rw [loadObjectList_cons] at h
    cases h1 : loadObject options env base st x d p with
    | halt e => rw [h1] at h; cases h
    | ok st2 r =>
      rw [h1] at h
      obtain ⟨y, hy, hty⟩ := hl
      rcases List.mem_cons.mp hy with rfl | hy1
      · exact (loadObjectList_keeps_info h ((loadObject_hasInfo h1).2.1 hty)).1
      · exact ih h ⟨y, hy1, hty⟩

/-- The object loop on a table whose first part holds an Info entry: striking
later entries that point at complete Info records does not change the result. -/
theorem loadObjectList_later_info (options : LoadOptions) (env : Env) (base : Nat)
    (dup : Nat → Bool) (d : List Byte) (l1 l2 : List Nat)
    (hfirst : ∃ y ∈ l1, uintAt d ((base + y) % 2 ^ 32) 4 = 5)
    (hdup : ∀ x ∈ l2, dup x = true →
      uintAt d ((base + x) % 2 ^ 32) 4 = 5 ∧ (base + x) % 2 ^ 32 + 66 ≤ d.length)
    (st : ObjState) (p q : Nat) :
    (loadObjectList options env base (l1 ++ l2) st d p).forget =
      (loadObjectList options env base (l1 ++ l2.filter (fun x => !dup x)) st d q).forget := by
  rw [loadObjectList_append, loadObjectList_append]
  have hne : l1 ≠ [] := by
    obtain ⟨y, hy, _⟩ := hfirst
    exact List.ne_nil_of_mem hy
  have hc : loadObjectList options env base l1 st d p = loadObjectList options env base l1 st d q := by
    cases l1 with
    | nil => exact absurd rfl hne
    | cons x l =>
      rw [loadObjectList_cons, loadObjectList_cons, loadObject_cursor options env base x st d p q]
  rw [hc]
  cases h1 : loadObjectList options env base l1 st d q with
  | halt e => rfl
  | ok st1 r =>
    exact loadObjectList_filter options env base dup d l2 hdup st1
      (loadObjectList_sets_hasInfo h1 hfirst) r r

/-- What follows the object loop in `load` does not depend on the cursor it
starts at, up to the cursor it ends at. -/
theorem loadFrom_tail_cursor (env : Env) (header : WMB_HEADER) (size : Nat) (mk : List Lightmap →
    List Lightmap → Level) (d : List Byte) (p q : Nat) :
    ((loadLightmaps header size >>= fun lightmaps => loadTerrain env header >>= fun terrain =>
        (Pure.pure (mk lightmaps terrain) : Rd Level)) d p).forget =
    ((loadLightmaps header size >>= fun lightmaps => loadTerrain env header >>= fun terrain =>
        (Pure.pure (mk lightmaps terrain) : Rd Level)) d q).forget := by
  have hT : ∀ (f : List Lightmap → Level) (p q : Nat),
      ((loadTerrain env header >>= fun terrain => (Pure.pure (f terrain) : Rd Level)) d p).forget =
      ((loadTerrain env header >>= fun terrain => (Pure.pure (f terrain) : Rd Level)) d q).forget := by
    intro f p q
    unfold loadTerrain
    by_cases h : header.lightmaps_terrain.offset ≠ 0
    · rw [if_pos h, run_bind, run_bind, run_bind, run_bind, run_seek, run_seek]
    · rw [if_neg h]
      rfl
  unfold loadLightmaps
  by_cases h : header.lightmaps.offset ≠ 0
  · rw [if_pos h, run_bind, run_bind, run_bind, run_bind, run_seek, run_seek]
  · rw [if_neg h]
    exact hT _ p q

theorem loadFrom_forget_congr (options : LoadOptions) (env : Env) (header : WMB_HEADER)
    (textures : List Texture) (materials : List Material) (blocks : List Block)
    (l1 l2 : List Nat) (d : List Byte) (p q : Nat)
    (h : (loadObjectList options env header.objects.offset l1 ⟨false, env.uninitInfo, []⟩ d p).forget
      = (loadObjectList options env header.objects.offset l2 ⟨false, env.uninitInfo, []⟩ d q).forget) :
    (loadFrom options env header textures materials blocks l1 d p).forget =
      (loadFrom options env header textures materials blocks l2 d q).forget := by
  unfold loadFrom
  rw [run_bind, run_bind]
  apply forget_bind_congr h
  intro st r1 r2
  rw [run_ite, run_ite]
  split
  · rfl
  · exact loadFrom_tail_cursor env header st.info.lightMapSize
      (fun lightmaps terrain => ⟨st.info, textures, materials, lightmaps, terrain, blocks,
        st.objects⟩) d r1 r2

end WMB

namespace WMB

namespace F32

/-! ## The edge loop on references that are numbers -/

/-- The pattern with the significand `m` at the exponent step `s` decodes to
`m * 2^s`. -/
theorem decode_normal (m s : Nat) (hm1 : 2 ^ 23 ≤ m) (hm2 : m < 2 ^ 24) (hs : s ≤ 253) :
    sign (s * 2 ^ 23 + m) = false ∧ isNaN (s * 2 ^ 23 + m) = false ∧
    scaled (s * 2 ^ 23 + m) = m * 2 ^ s := by
  have he : expo (s * 2 ^ 23 + m) = s + 1 := by
    unfold expo
    omega
  have hf : frac (s * 2 ^ 23 + m) = m - 2 ^ 23 := by
    unfold frac
    omega
  refine ⟨?_, ?_, ?_⟩
  · unfold sign
    have : ¬ ((s * 2 ^ 23 + m) / 2 ^ 31 % 2 = 1) := by omega
    exact decide_eq_false this
  · apply isNaN_false_of_finite
    rw [he]
    omega
  · unfold scaled
    have e1 : 2 ^ 23 + (m - 2 ^ 23) = m := by omega
    rw [he, hf, if_neg (by omega), Nat.add_sub_cancel, e1]

set_option maxRecDepth 100000 in
/-- A natural number below `2^24` converts to `float` without rounding. -/
theorem ofNat_exact (n : Nat) (hn : n < 2 ^ 24) :
    isNaN (ofNat n) = false ∧ key (ofNat n) = (n : Int) * 2 ^ 149 := by
  by_cases h0 : n = 0
  · subst h0
    have : ofNat 0 = 0 := by
      unfold ofNat
      rw [Nat.zero_mul]
      exact roundMag_zero 1 (by decide)
    rw [this]
    decide
  · have hb1 : bitLen n ≤ 24 := (bitLen_le_iff n 24).mpr hn
    have hb0 : 1 ≤ bitLen n := by
      by_contra hc
      have : bitLen n ≤ 0 := by omega
      rw [bitLen_le_iff] at this
      simp only [Nat.pow_zero] at this
      omega
    have hlo : 2 ^ (bitLen n - 1) ≤ n := by
      by_contra hc
      have : bitLen n ≤ bitLen n - 1 := (bitLen_le_iff _ _).mpr (by omega)
      omega
    have hhi : n < 2 ^ bitLen n := (bitLen_le_iff n _).mp (Nat.le_refl _)
    have hm1 : 2 ^ 23 ≤ n * 2 ^ (24 - bitLen n) := by
      calc 2 ^ 23 = 2 ^ (bitLen n - 1) * 2 ^ (24 - bitLen n) := by
            rw [← Nat.pow_add]
            congr 1
            omega
        _ ≤ n * 2 ^ (24 - bitLen n) := Nat.mul_le_mul_right _ hlo
    have hm2 : n * 2 ^ (24 - bitLen n) < 2 ^ 24 := by
      calc n * 2 ^ (24 - bitLen n) < 2 ^ bitLen n * 2 ^ (24 - bitLen n) :=
            Nat.mul_lt_mul_of_pos_right hhi (Nat.two_pow_pos _)
        _ = 2 ^ 24 := by
            rw [← Nat.pow_add]
            congr 1
            omega
    have hsplit : n * 2 ^ 149 = n * 2 ^ (24 - bitLen n) * 2 ^ (125 + bitLen n) * 1 := by
      rw [Nat.mul_one, Nat.mul_assoc, ← Nat.pow_add]
      congr 2
      omega
    have hr : ofNat n = (125 + bitLen n) * 2 ^ 23 + n * 2 ^ (24 - bitLen n) := by
      unfold ofNat
      rw [hsplit]
      exact roundMag_exact _ _ 1 (by decide) hm2 (Or.inr hm1) (by omega)
    obtain ⟨d1, d2, d3⟩ := decode_normal _ (125 + bitLen n) hm1 hm2 (by omega)
    rw [hr]
    refine ⟨d2, ?_⟩
    unfold key
    rw [d1, d3]
    simp only [Bool.false_eq_true, if_false]
    have : n * 2 ^ (24 - bitLen n) * 2 ^ (125 + bitLen n) = n * 2 ^ 149 := by
      rw [Nat.mul_assoc, ← Nat.pow_add]
      congr 2
      omega
    rw [this]
    push_cast
    rfl

set_option maxRecDepth 100000 in
theorem lt_one_false_iff (x : Nat) (hx : isNaN x = false) :
    lt x one = false ↔ natLe 1 x = true := by
  have h1 : isNaN one = false := by decide
  have h2 : key one = 2 ^ 149 := by decide
  unfold lt natLe
  rw [hx, h1, h2]
  simp only [Bool.not_false, Bool.true_and, decide_eq_false_iff_not, decide_eq_true_eq,
    Nat.cast_one, one_mul, not_lt]

theorem lt_ofNat_false_iff (x n : Nat) (hx : isNaN x = false) (hn : n < 2 ^ 24) :
    lt (ofNat n) x = false ↔ leNat x n = true := by
  obtain ⟨h1, h2⟩ := ofNat_exact n hn
  unfold lt leNat
  rw [hx, h1, h2]
  simp only [Bool.not_false, Bool.true_and, decide_eq_false_iff_not, decide_eq_true_eq, not_lt]

end F32

/-- A reference `r` with `1 <= r <= n` and `n < 2^24` is cast to `unsigned int`
by truncation, and the 0-based index is the truncated value minus one. -/
theorem toUInt_of_valid (env : Env) (x n : Nat) (hn : n < 2 ^ 24)
    (h1 : F32.natLe 1 x = true) (h2 : F32.leNat x n = true) :
    1 ≤ F32.truncMag x ∧ F32.truncMag x ≤ n ∧
    (toUInt env x + 2 ^ 32 - 1) % 2 ^ 32 = F32.truncMag x - 1 := by
  unfold F32.natLe at h1
  unfold F32.leNat at h2
  simp only [Bool.and_eq_true, Bool.not_eq_true', decide_eq_true_eq, Nat.cast_one, one_mul] at h1 h2
  obtain ⟨hnan, hge⟩ := h1
  obtain ⟨_, hle⟩ := h2
  have hsign : F32.sign x = false := by
    cases hs : F32.sign x with
    | false => rfl
    | true =>
      unfold F32.key at hge
      rw [hs] at hge
      simp only [if_true] at hge
      have : (0 : Int) < 2 ^ 149 := by positivity
      omega
  unfold F32.key at hge hle
  rw [hsign] at hge hle
  simp only [Bool.false_eq_true, if_false] at hge hle
  have hge' : 2 ^ 149 ≤ F32.scaled x := by exact_mod_cast hge
  have hle' : F32.scaled x ≤ n * 2 ^ 149 := by exact_mod_cast hle
  have ht1 : 1 ≤ F32.truncMag x := by
    unfold F32.truncMag
    exact (Nat.le_div_iff_mul_le (Nat.two_pow_pos 149)).mpr (by omega)
  have ht2 : F32.truncMag x ≤ n := by
    unfold F32.truncMag
    exact Nat.div_le_of_le_mul (by rw [Nat.mul_comm]; exact hle')
  refine ⟨ht1, ht2, ?_⟩
  have ht3 : F32.truncMag x < 2 ^ 32 := by
    have : (2 : Nat) ^ 24 < 2 ^ 32 := by decide
    omega
  unfold toUInt
  simp only [hnan, hsign, Bool.not_false, Bool.true_and, Bool.true_or, ht3, decide_True,
    Bool.and_self, if_true]
  omega

/-- The body of the edge loop on an edge whose two node references are
numbers, for a path of fewer than `2^24` nodes: the edge is kept exactly when
the specification retains it, and it is kept as the specification says. -/
theorem decodeEdge_eq_spec (env : Env) (n : Nat) (ed : PATH_EDGE) (hn : n < 2 ^ 24)
    (h1 : F32.isNaN ed.fNode1 = false) (h2 : F32.isNaN ed.fNode2 = false) :
    decodeEdge env n ed = if specKeeps n ed = true then some (specEdge ed) else none := by
  unfold decodeEdge specKeeps
  cases ha : F32.natLe 1 ed.fNode1 with
  | false =>
    have : F32.lt ed.fNode1 F32.one = true := by
      cases hc : F32.lt ed.fNode1 F32.one with
      | true => rfl
      | false => rw [(F32.lt_one_false_iff _ h1).mp hc] at ha; cases ha
    simp [this]
  | true =>
    have ha' : F32.lt ed.fNode1 F32.one = false := (F32.lt_one_false_iff _ h1).mpr ha
    cases hb : F32.natLe 1 ed.fNode2 with
    | false =>
      have : F32.lt ed.fNode2 F32.one = true := by
        cases hc : F32.lt ed.fNode2 F32.one with
        | true => rfl
        | false => rw [(F32.lt_one_false_iff _ h2).mp hc] at hb; cases hb
      simp [this]
    | true =>
      have hb' : F32.lt ed.fNode2 F32.one = false := (F32.lt_one_false_iff _ h2).mpr hb
      cases hc : F32.leNat ed.fNode1 n with
      | false =>
        have : F32.lt (F32.ofNat n) ed.fNode1 = true := by
          cases hd : F32.lt (F32.ofNat n) ed.fNode1 with
          | true => rfl
          | false => rw [(F32.lt_ofNat_false_iff _ _ h1 hn).mp hd] at hc; cases hc
        simp [ha', hb', this]
      | true =>
        have hc' := (F32.lt_ofNat_false_iff _ _ h1 hn).mpr hc
        cases hd : F32.leNat ed.fNode2 n with
        | false =>
          have : F32.lt (F32.ofNat n) ed.fNode2 = true := by
            cases he : F32.lt (F32.ofNat n) ed.fNode2 with
            | true => rfl
            | false => rw [(F32.lt_ofNat_false_iff _ _ h2 hn).mp he] at hd; cases hd
          simp [ha', hb', hc', this]
        | true =>
          have hd' := (F32.lt_ofNat_false_iff _ _ h2 hn).mpr hd
          obtain ⟨t1, _, u1⟩ := toUInt_of_valid env _ n hn ha hc
          obtain ⟨t2, _, u2⟩ := toUInt_of_valid env _ n hn hb hd
          simp only [ha', hb', hc', hd', Bool.or_self, Bool.false_eq_true, if_false, u1, u2,
            Bool.and_self, Bool.true_and, decide_eq_true_eq]
          have hiff : F32.truncMag ed.fNode1 - 1 = F32.truncMag ed.fNode2 - 1 ↔
              F32.truncMag ed.fNode1 = F32.truncMag ed.fNode2 := by omega
          by_cases heq : F32.truncMag ed.fNode1 = F32.truncMag ed.fNode2
          · simp [heq]
          · rw [if_neg (by rw [hiff]; exact heq), if_pos heq]
            rfl

/-- On an edge array without NaN node references, for a path of fewer than
`2^24` nodes, the edge loop yields exactly the edge list of the specification:
the retained edges in file order, none dropped, none added.  Every edge of
that list has two distinct indices below the node count. -/
theorem edges_eq_spec (env : Env) (n : Nat) (eds : List PATH_EDGE) (hn : n < 2 ^ 24)
    (hnum : ∀ ed ∈ eds, F32.isNaN ed.fNode1 = false ∧ F32.isNaN ed.fNode2 = false) :
    eds.filterMap (decodeEdge env n) = specEdges n eds ∧
    ∀ e ∈ eds.filterMap (decodeEdge env n), e.node1 < n ∧ e.node2 < n ∧ e.node1 ≠ e.node2 := by
  have hmain : eds.filterMap (decodeEdge env n) = specEdges n eds := by
    unfold specEdges
    induction eds with
    | nil => rfl
    | cons ed eds ih =>
      have hd := decodeEdge_eq_spec env n ed hn (hnum ed (List.mem_cons_self _ _)).1
        (hnum ed (List.mem_cons_self _ _)).2
      have ih' := ih (fun x hx => hnum x (List.mem_cons_of_mem _ hx))
      by_cases hk : specKeeps n ed = true
      · rw [if_pos hk] at hd
        rw [List.filterMap_cons_some hd, List.filter_cons_of_pos hk, List.map_cons, ih']
      · rw [if_neg hk] at hd
        rw [List.filterMap_cons_none hd, List.filter_cons_of_neg hk, ih']
  refine ⟨hmain, ?_⟩
  intro e he
  rw [hmain] at he
  unfold specEdges at he
  obtain ⟨ed, hed, rfl⟩ := List.mem_map.mp he
  obtain ⟨_, hk⟩ := List.mem_filter.mp hed
  unfold specKeeps at hk
  simp only [Bool.and_eq_true, decide_eq_true_eq] at hk
  obtain ⟨⟨⟨⟨a, c⟩, b⟩, d⟩, hne⟩ := hk
  obtain ⟨t1, t2, _⟩ := toUInt_of_valid env _ n hn a c
  obtain ⟨t3, t4, _⟩ := toUInt_of_valid env _ n hn b d
  simp only [specEdge]
  omega

end WMB

namespace WMB
open Rd

/-- A call of `load` that cannot return a scene stops without one. -/
theorem stop_of_no_scene {data : List Byte} {options : LoadOptions} {env : Env}
    (h : ∀ lvl, load data options env ≠ Outcome.scene lvl) :
    ∃ e, load data options env = Outcome.stop e := by
  cases hl : load data options env with
  | scene lvl => exact absurd hl (h lvl)
  | stop e => exact ⟨e, rfl⟩

/-- A file of at least 164 bytes with a wrong tag makes `load` return
`std::nullopt`. -/
theorem load_nullopt_of_bad_magic (data : List Byte) (options : LoadOptions) (env : Env)
    (hlen : 164 ≤ data.length) (hmagic : data.take 4 ≠ magic) :
    load data options env = Outcome.stop Halt.nullopt := by
  have hv : (parseHeader (field data 0 164)).version = data.take 4 := headerOf_version data
  unfold load loadM
  simp only [run_bind, run_read_ok (show 0 + 164 ≤ data.length by omega)]
  simp [hv, hmagic, run_stop]

/-- C1: a file that holds at least the 164 header bytes and whose first four
bytes are not "WMB7" makes `load` return `std::nullopt`, whatever the options
and the indeterminate values are, and whatever follows the header: the early
return precedes every section decoder, so nothing behind the header is looked
at and no effect of a decoder (an endless read, `std::terminate`) can occur. -/
theorem load_bad_magic (data : List Byte) (options : LoadOptions) (env : Env)
    (hlen : 164 ≤ data.length) (hmagic : data.take 4 ≠ magic) :
    load data options env = Outcome.stop Halt.nullopt ∧
    ∀ rest, load (data.take 164 ++ rest) options env = Outcome.stop Halt.nullopt := by
  refine ⟨load_nullopt_of_bad_magic data options env hlen hmagic, ?_⟩
  intro rest
  apply load_nullopt_of_bad_magic
  · rw [List.length_append, List.length_take]
    omega
  · rw [List.take_append_of_le_length (by rw [List.length_take]; omega), List.take_take]
    exact hmagic

end WMB

namespace WMB
open Rd

set_option maxRecDepth 100000 in
/-- The theorem of C1 on `fileBadMagic`, whose texture directory entry would
send the texture decoder behind the end of the file. -/
theorem load_bad_magic_witness :
    load fileBadMagic defaultOptions env0 = Outcome.stop Halt.nullopt ∧
    ∀ rest, load (fileBadMagic.take 164 ++ rest) defaultOptions env0
      = Outcome.stop Halt.nullopt :=
  load_bad_magic fileBadMagic defaultOptions env0 (by decide) (by decide)

end WMB

namespace WMB
open Rd

/-- With the texture, material and block sections absent and the object offset
table in the file, `load` is the rest of `load` run on that table. -/
theorem load_eq_loadFrom (data : List Byte) (options : LoadOptions) (env : Env)
    (hlen : 164 ≤ data.length) (hmagic : data.take 4 = magic)
    (htex : (headerOf data).textures.offset = 0) (hmat : (headerOf data).materials.offset = 0)
    (hblk : (headerOf data).blocks.offset = 0)
    (htab : (headerOf data).objects.offset + 4 + 4 * objCount data ≤ data.length) :
    load data options env =
      (loadFrom options env (headerOf data) [] [] [] (objTable data) data
        ((headerOf data).objects.offset + 4 + 4 * objCount data)).outcome := by
  rw [load_eq_outcome]
  congr 1
  unfold loadM
  rw [run_bind_ok (run_read_ok (show 0 + 164 ≤ data.length by omega))]
  rw [← headerOf, run_ite, if_neg (by rw [headerOf_version, hmagic]; simp)]
  have h1 : ∀ p, loadTextures env (headerOf data) data p = Res.ok [] p := by
    intro p
    unfold loadTextures
    rw [htex]
    rfl
  have h2 : ∀ p, loadMaterials env (headerOf data) data p = Res.ok [] p := by
    intro p
    unfold loadMaterials
    rw [hmat]
    rfl
  have h3 : ∀ p, loadBlocks options (headerOf data) data p = Res.ok [] p := by
    intro p
    unfold loadBlocks
    rw [hblk]
    rfl
  rw [run_bind_ok (h1 _), run_bind_ok (h2 _), run_bind_ok (h3 _), run_bind, run_seek]
  dsimp only
  rw [run_bind_ok (run_readU32_ok (by omega))]
  have h4 := run_times_readU32_ok (d := data) (objCount data)
    (p := (headerOf data).objects.offset + 4) (by omega)
  have h5 : uintAt data (headerOf data).objects.offset 4 = objCount data := rfl
  rw [h5, run_bind_ok h4]
  rfl

/-- The rest of `load` after a completed object loop, with both lightmap
sections absent. -/
theorem run_loadFrom_plain {options : LoadOptions} {env : Env} {header : WMB_HEADER}
    {textures : List Texture} {materials : List Material} {blocks : List Block}
    {offsets : List Nat} {d : List Byte} {p r : Nat} {st : ObjState}
    (hobj : loadObjectList options env header.objects.offset offsets ⟨false, env.uninitInfo, []⟩ d p
      = Res.ok st r)
    (hsize : st.info.lightMapSize ≠ 0) (hlm : header.lightmaps.offset = 0)
    (htl : header.lightmaps_terrain.offset = 0) :
    loadFrom options env header textures materials blocks offsets d p =
      Res.ok ⟨st.info, textures, materials, [], [], blocks, st.objects⟩ r := by
  unfold loadFrom
  rw [run_bind_ok hobj, run_ite, if_neg hsize]
  have h1 : ∀ q, loadLightmaps header st.info.lightMapSize d q = Res.ok [] q := by
    intro q
    unfold loadLightmaps
    rw [hlm]
    rfl
  have h2 : ∀ q, loadTerrain env header d q = Res.ok [] q := by
    intro q
    unfold loadTerrain
    rw [htl]
    rfl
  rw [run_bind_ok (h1 _), run_bind_ok (h2 _)]
  rfl

theorem run_loadObjectList_one {options : LoadOptions} {env : Env} {base x : Nat}
    {st st1 : ObjState} {d : List Byte} {p r1 : Nat}
    (h1 : loadObject options env base st x d p = Res.ok st1 r1) :
    loadObjectList options env base [x] st d p = Res.ok st1 r1 := by
  rw [loadObjectList_cons, h1]
  rfl

theorem run_loadObjectList_two {options : LoadOptions} {env : Env} {base x y : Nat}
    {st st1 st2 : ObjState} {d : List Byte} {p r1 r2 : Nat}
    (h1 : loadObject options env base st x d p = Res.ok st1 r1)
    (h2 : loadObject options env base st1 y d r1 = Res.ok st2 r2) :
    loadObjectList options env base [x, y] st d p = Res.ok st2 r2 := by
  rw [loadObjectList_cons, h1]
  dsimp only
  rw [loadObjectList_cons, h2]
  rfl

/-- C4 (as amended): a file with the magic "WMB7", absent texture, material,
block, lightmap and terrain-lightmap sections and an objects section of two
entries, one complete Info record with the size selector 0 and one complete
Light record (in either order), is decoded: `load` returns a scene whose only
object is the Light, with the colour, range and flags of the record and with
the record's origin passed through the position mapper, whose lightmap size is
256 and whose texture, material, block and lightmap lists are empty.  Under the
native convention the origin equals the record's one component by component
(`==`) whenever the three components are finite. -/
theorem minimal_scene (data : List Byte) (options : LoadOptions) (env : Env)
    (hlen : 164 ≤ data.length) (hmagic : data.take 4 = magic)
    (htex : (headerOf data).textures.offset = 0) (hmat : (headerOf data).materials.offset = 0)
    (hblk : (headerOf data).blocks.offset = 0) (hlm : (headerOf data).lightmaps.offset = 0)
    (htl : (headerOf data).lightmaps_terrain.offset = 0)
    (hcount : objCount data = 2) (htab : (headerOf data).objects.offset + 12 ≤ data.length)
    (i j : Nat) (hij : (i = 0 ∧ j = 1) ∨ (i = 1 ∧ j = 0))
    (hinfo : objTag data i = 5) (hinfoR : objPos data i + 66 ≤ data.length)
    (hsel : uintAt data (objPos data i + 33) 1 = 0)
    (hlight : objTag data j = 2) (hlightR : objPos data j + 36 ≤ data.length) :
    ∃ lvl origin, load data options env = Outcome.scene lvl ∧
      lvl.objects = [Object.light ⟨origin, vec3At data (objPos data j + 16),
        f32At data (objPos data j + 28), uintAt data (objPos data j + 32) 4⟩] ∧
      origin = mapVec options (vec3At data (objPos data j + 4)) ∧
      (options.targetCoordinateSystem = CoordinateSystem.Gamestudio →
        F32.isFinite (vec3At data (objPos data j + 4)).x = true →
        F32.isFinite (vec3At data (objPos data j + 4)).y = true →
        F32.isFinite (vec3At data (objPos data j + 4)).z = true →
        F32.numEq origin.x (vec3At data (objPos data j + 4)).x = true ∧
        F32.numEq origin.y (vec3At data (objPos data j + 4)).y = true ∧
        F32.numEq origin.z (vec3At data (objPos data j + 4)).z = true) ∧
      lvl.info.lightMapSize = 256 ∧ lvl.textures = [] ∧ lvl.materials = [] ∧
      lvl.blocks = [] ∧ lvl.lightmaps = [] ∧ lvl.terrain_lightmaps = [] := by
  have hload := load_eq_loadFrom data options env hlen hmagic htex hmat hblk (by omega)
  have htable : objTable data = [objEntry data 0, objEntry data 1] := by
    unfold objTable
    rw [hcount]
    rfl
  have hsel1 : lightMapSizes.get? (uintAt data (objPos data i + 33) 1) = some 256 := by
    rw [hsel]
    rfl
  have hnative : options.targetCoordinateSystem = CoordinateSystem.Gamestudio →
      F32.isFinite (vec3At data (objPos data j + 4)).x = true →
      F32.isFinite (vec3At data (objPos data j + 4)).y = true →
      F32.isFinite (vec3At data (objPos data j + 4)).z = true →
      F32.numEq (mapVec options (vec3At data (objPos data j + 4))).x
        (vec3At data (objPos data j + 4)).x = true ∧
      F32.numEq (mapVec options (vec3At data (objPos data j + 4))).y
        (vec3At data (objPos data j + 4)).y = true ∧
      F32.numEq (mapVec options (vec3At data (objPos data j + 4))).z
        (vec3At data (objPos data j + 4)).z = true := by
    intro hopt hx hy hz
    have fin : ∀ a : Nat, F32.isFinite a = true → F32.expo a ≠ 255 := by
      intro a ha
      simpa [F32.isFinite] using ha
    exact mapVec_native_finite options _ hopt ⟨uintAt_lt _ _, fin _ hx⟩ ⟨uintAt_lt _ _, fin _ hy⟩
      ⟨uintAt_lt _ _, fin _ hz⟩
  rw [htable] at hload
  rcases hij with ⟨rfl, rfl⟩ | ⟨rfl, rfl⟩
  · have s1 := run_loadObject_info options env ⟨false, env.uninitInfo, []⟩
      ((headerOf data).objects.offset + 4 + 4 * objCount data) hinfo hinfoR rfl hsel1
    have s2 := run_loadObject_light options env
      ⟨true, makeInfo (parseINFO (field data
        (((headerOf data).objects.offset + objEntry data 0) % 2 ^ 32 + 4) 62)) 256, []⟩
      (((headerOf data).objects.offset + objEntry data 0) % 2 ^ 32 + 66) hlight hlightR
    have s3 := run_loadObjectList_two s1 s2
    rw [run_loadFrom_plain s3 (by simp [push, makeInfo]) hlm htl] at hload
    exact ⟨_, _, hload, rfl, rfl, hnative, rfl, rfl, rfl, rfl, rfl, rfl⟩
  · have s1 := run_loadObject_light options env ⟨false, env.uninitInfo, []⟩
      ((headerOf data).objects.offset + 4 + 4 * objCount data) hlight hlightR
    have s2 := run_loadObject_info options env
      (push ⟨false, env.uninitInfo, []⟩ (Object.light
        ⟨mapVec options (vec3At data (((headerOf data).objects.offset + objEntry data 0) % 2 ^ 32 + 4)),
         vec3At data (((headerOf data).objects.offset + objEntry data 0) % 2 ^ 32 + 16),
         f32At data (((headerOf data).objects.offset + objEntry data 0) % 2 ^ 32 + 28),
         uintAt data (((headerOf data).objects.offset + objEntry data 0) % 2 ^ 32 + 32) 4⟩))
      (((headerOf data).objects.offset + objEntry data 0) % 2 ^ 32 + 36) hinfo hinfoR rfl hsel1
    have s3 := run_loadObjectList_two s1 s2
    rw [run_loadFrom_plain s3 (by simp [push, makeInfo]) hlm htl] at hload
    exact ⟨_, _, hload, rfl, rfl, hnative, rfl, rfl, rfl, rfl, rfl, rfl⟩

end WMB

namespace WMB
open Rd

/-! ## The lightmap resolution -/

/-- An iteration of the object loop keeps this: if an Info was seen, the
lightmap size is one of the three table values. -/
theorem loadObject_size_inv {options : LoadOptions} {env : Env} {base off : Nat}
    {st st1 : ObjState} {d : List Byte} {p q : Nat}
    (h : loadObject options env base st off d p = Res.ok st1 q)
    (hst : st.hasInfo = true → st.info.lightMapSize ∈ lightMapSizes) :
    st1.hasInfo = true → st1.info.lightMapSize ∈ lightMapSizes := by
  intro h1
  cases hs : st.hasInfo with
  | true =>
    rw [((loadObject_hasInfo h).1 hs).2]
    exact hst hs
  | false =>
    obtain ⟨_, h2 | h2⟩ := loadObject_ok_inv h
    · have h3 := (loadInfo_first_inv hs h2.2).2.2.2.2
      exact List.get?_mem h3
    · obtain ⟨_, _, _, o, rfl⟩ := h2
      simp only [push] at h1
      rw [hs] at h1
      cases h1

theorem loadObjectList_size_inv {options : LoadOptions} {env : Env} {base : Nat}
    {l : List Nat} {st st1 : ObjState} {d : List Byte} {p q : Nat}
    (h : loadObjectList options env base l st d p = Res.ok st1 q)
    (hst : st.hasInfo = true → st.info.lightMapSize ∈ lightMapSizes) :
    st1.hasInfo = true → st1.info.lightMapSize ∈ lightMapSizes := by
  induction l generalizing st p with
  | nil =>
    simp only [loadObjectList_nil, Res.ok.injEq] at h
    rw [← h.1]
    exact hst
  | cons x l ih =>
    rw [loadObjectList_cons] at h
    cases h1 : loadObject options env base st x d p with
    | halt e => rw [h1] at h; cases h
    | ok st2 r =>
      rw [h1] at h
      exact ih h (loadObject_size_inv h1 hst)

/-- The records that a loop over fixed-size records delivers. -/
theorem times_read_ok_inv {α : Type} (f : List Byte → α) (sz : Nat) {d : List Byte} (n : Nat)
    {p q : Nat} {l : List α}
    (h : times n (Rd.read sz >>= fun bs => (Pure.pure (f bs) : Rd α)) d p = Res.ok l q) :
    l = (List.range n).map (fun i => f (field d (p + i * sz) sz)) := by
  induction n generalizing p q l with
  | zero =>
    simp only [times, run_pure, Res.ok.injEq] at h
    obtain ⟨h1, _⟩ := h
    subst h1
    rfl
  | succ n ih =>
    unfold times at h
    obtain ⟨a, r, h1, h2⟩ := bind_ok_inv h
    obtain ⟨ys, r2, h3, h4⟩ := bind_ok_inv h2
    obtain ⟨bs, r3, h5, h6⟩ := bind_ok_inv h1
    obtain ⟨rfl, _, rfl⟩ := read_ok_inv h5
    simp only [run_pure, Res.ok.injEq] at h6 h4
    obtain ⟨rfl, rfl⟩ := h6
    have := ih h3
    rw [← h4.1, this, List.range_succ_eq_map]
    simp only [List.map_cons, List.map_map, Nat.zero_mul, Nat.add_zero, List.cons.injEq, true_and]
    apply List.map_congr_left
    intro i _
    simp only [Function.comp]
    congr 2
    rw [Nat.succ_mul]
    omega

/-- C8: in a scene that `load` returns for a file with a present lightmap
section and an Info record, the lightmap size `s` is 256, 512 or 1024 and the
lightmaps are, in order, the `length / (3 * s * s)` consecutive blocks of
`3 * s * s` bytes from the section offset on, each with width and height `s`
and without an owning object. -/
theorem lightmap_blocks (data : List Byte) (options : LoadOptions) (env : Env) (lvl : Level)
    (h : load data options env = Outcome.scene lvl)
    (hoff : (headerOf data).lightmaps.offset ≠ 0)
    (hinfo : ∃ i, i < objCount data ∧ objTag data i = 5) :
    (lvl.info.lightMapSize = 256 ∨ lvl.info.lightMapSize = 512 ∨ lvl.info.lightMapSize = 1024) ∧
    lvl.lightmaps.length =
      (headerOf data).lightmaps.length / (3 * lvl.info.lightMapSize * lvl.info.lightMapSize) ∧
    lvl.lightmaps =
      (List.range ((headerOf data).lightmaps.length /
          (3 * lvl.info.lightMapSize * lvl.info.lightMapSize))).map
        (fun i => ⟨lvl.info.lightMapSize, lvl.info.lightMapSize, none,
          field data ((headerOf data).lightmaps.offset +
            i * (3 * lvl.info.lightMapSize * lvl.info.lightMapSize))
            (3 * lvl.info.lightMapSize * lvl.info.lightMapSize)⟩) := by
  obtain ⟨_, _, tex, mat, blk, p1, p2, p3, q, _, _, _, _, h5⟩ := load_scene_inv h
  obtain ⟨st, r, lms, r2, tl, h6, _, h7, _, rfl⟩ := loadFrom_ok_inv h5
  dsimp only
  have hhas : st.hasInfo = true := by
    apply loadObjectList_sets_hasInfo h6
    obtain ⟨i, hi, ht⟩ := hinfo
    exact ⟨objEntry data i, List.mem_map.mpr ⟨i, List.mem_range.mpr hi, rfl⟩, ht⟩
  have hmem := loadObjectList_size_inv h6 (by intro hf; cases hf) hhas
  have hsz : st.info.lightMapSize = 256 ∨ st.info.lightMapSize = 512 ∨
      st.info.lightMapSize = 1024 := by
    simpa [lightMapSizes] using hmem
  have hmod : 3 * st.info.lightMapSize * st.info.lightMapSize % 2 ^ 32
      = 3 * st.info.lightMapSize * st.info.lightMapSize := by
    rcases hsz with e | e | e <;> rw [e] <;> decide
  have hne : 3 * st.info.lightMapSize * st.info.lightMapSize ≠ 0 := by
    rcases hsz with e | e | e <;> rw [e] <;> decide
  unfold loadLightmaps at h7
  rw [if_pos hoff, run_bind, run_seek] at h7
  dsimp only at h7
  rw [hmod, run_ite, if_neg hne] at h7
  have h8 : loadLightmap st.info.lightMapSize =
      (Rd.read (3 * st.info.lightMapSize * st.info.lightMapSize) >>= fun bs =>
        (Pure.pure (⟨st.info.lightMapSize, st.info.lightMapSize, none, bs⟩ : Lightmap)
          : Rd Lightmap)) := by
    unfold loadLightmap
    rw [hmod]
  rw [h8] at h7
  have h9 := times_read_ok_inv _ _ _ h7
  refine ⟨hsz, ?_, h9⟩
  rw [h9]
  simp

set_option maxRecDepth 100000 in
/-- C10 (the code at the failing input): on the file with valid magic and an
empty object table `load` stops in `std::terminate` only if the memory of the
never initialised `level.info.lightMapSize` is zero; otherwise it returns a
scene, whose Environment is that memory. -/
theorem no_info_outcome (options : LoadOptions) (env : Env) :
    load fileNoInfo options env =
      if env.uninitInfo.lightMapSize = 0 then Outcome.stop Halt.terminate
      else Outcome.scene ⟨env.uninitInfo, [], [], [], [], [], []⟩ := by
  rw [load_eq_loadFrom fileNoInfo options env (by decide) (by decide) (by decide) (by decide)
    (by decide) (by decide)]
  have htab : objTable fileNoInfo = [] := by decide
  rw [htab]
  by_cases hz : env.uninitInfo.lightMapSize = 0
  · rw [if_pos hz]
    unfold loadFrom
    rw [run_bind, loadObjectList_nil]
    dsimp only
    rw [run_ite, if_pos hz]
    rfl
  · rw [if_neg hz, run_loadFrom_plain (loadObjectList_nil _ _ _ _ _ _) hz (by decide) (by decide)]
    rfl

end WMB

namespace WMB
open Rd

/-! ## A file with one lightmap -/

theorem field_append_left (pre rest : List Byte) (off n : Nat) (h : off + n ≤ pre.length) :
    field (pre ++ rest) off n = field pre off n := by
  unfold field
  rw [List.drop_append_of_le_length (by omega), List.take_append_of_le_length]
  rw [List.length_drop]
  omega

theorem uintAt_append_left (pre rest : List Byte) (off n : Nat) (h : off + n ≤ pre.length) :
    uintAt (pre ++ rest) off n = uintAt pre off n := by
  unfold uintAt
  rw [field_append_left pre rest off n h]

theorem headerOf_append (pre rest : List Byte) (h : 164 ≤ pre.length) :
    headerOf (pre ++ rest) = headerOf pre := by
  unfold headerOf
  rw [field_append_left pre rest 0 164 (by omega)]

/-- The lightmap decoder on a section that holds exactly one lightmap. -/
theorem run_loadLightmaps_one (header : WMB_HEADER) (size : Nat) (d : List Byte) (p : Nat)
    (hoff : header.lightmaps.offset ≠ 0)
    (hmod : 3 * size * size % 2 ^ 32 = 3 * size * size) (hne : 3 * size * size ≠ 0)
    (hone : header.lightmaps.length / (3 * size * size) = 1)
    (hr : header.lightmaps.offset + 3 * size * size ≤ d.length) :
    loadLightmaps header size d p =
      Res.ok [⟨size, size, none, field d header.lightmaps.offset (3 * size * size)⟩]
        (header.lightmaps.offset + 3 * size * size) := by
  unfold loadLightmaps
  rw [if_pos hoff, run_bind, run_seek]
  dsimp only
  rw [hmod, run_ite, if_neg hne, hone]
  unfold times loadLightmap
  rw [hmod, run_bind, run_bind, run_read_ok hr]
  rfl

set_option maxRecDepth 100000 in
theorem fileOneLightmap_header : headerOf fileOneLightmap = headerOf fileLightmapHead :=
  headerOf_append fileLightmapHead _ (by decide)

theorem fileOneLightmap_length : fileOneLightmap.length = 238 + 196608 := by
  unfold fileOneLightmap
  rw [List.length_append, List.length_replicate]
  rfl

set_option maxRecDepth 100000 in
/-- The file `fileOneLightmap` is decoded, to a scene with one lightmap. -/
theorem fileOneLightmap_scene :
    ∃ info, info.lightMapSize = 256 ∧
      load fileOneLightmap defaultOptions env0 = Outcome.scene
        ⟨info, [], [], [⟨256, 256, none, field fileOneLightmap 238 196608⟩], [], [], []⟩ := by
  have hh := fileOneLightmap_header
  have hlen := fileOneLightmap_length
  have hcount : objCount fileOneLightmap = 1 := by
    unfold objCount
    rw [hh]
    unfold fileOneLightmap
    rw [uintAt_append_left _ _ _ _ (by decide)]
    decide
  have hentry : objEntry fileOneLightmap 0 = 8 := by
    unfold objEntry
    rw [hh]
    unfold fileOneLightmap
    rw [uintAt_append_left _ _ _ _ (by decide)]
    decide
  have hbase : (headerOf fileLightmapHead).objects.offset = 164 := by decide
  have hload := load_eq_loadFrom fileOneLightmap defaultOptions env0 (by omega)
    (by
      unfold fileOneLightmap
      rw [List.take_append_of_le_length (by decide)]
      decide)
    (by rw [hh]; decide) (by rw [hh]; decide) (by rw [hh]; decide)
    (by rw [hh, hcount, hlen, hbase]; decide)
  have htable : objTable fileOneLightmap = [8] := by
    unfold objTable
    rw [hcount]
    simp only [List.range_succ, List.range_zero, List.nil_append, List.map_cons, List.map_nil,
      hentry]
  rw [htable, hh, hcount, hbase] at hload
  have htag : uintAt fileOneLightmap ((164 + 8) % 2 ^ 32) 4 = 5 := by
    unfold fileOneLightmap
    rw [uintAt_append_left _ _ _ _ (by decide)]
    decide
  have hsel : lightMapSizes.get? (uintAt fileOneLightmap ((164 + 8) % 2 ^ 32 + 33) 1)
      = some 256 := by
    unfold fileOneLightmap
    rw [uintAt_append_left _ _ _ _ (by decide)]
    decide
  have s1 := run_loadObject_info defaultOptions env0 ⟨false, env0.uninitInfo, []⟩
    (164 + 4 + 4 * 1) htag (by rw [hlen]; decide) rfl hsel
  have s2 := run_loadObjectList_one s1
  have s3 := run_loadLightmaps_one (headerOf fileLightmapHead) 256 fileOneLightmap
    ((164 + 8) % 2 ^ 32 + 66) (by decide) (by decide) (by decide) (by decide)
    (by rw [hlen]; decide)
  have hoff : (headerOf fileLightmapHead).lightmaps.offset = 238 := by decide
  have hobj : (headerOf fileLightmapHead).objects.offset = 164 := by decide
  refine ⟨makeInfo (parseINFO (field fileOneLightmap ((164 + 8) % 2 ^ 32 + 4) 62)) 256, rfl, ?_⟩
  rw [hload]
  unfold loadFrom
  rw [hobj, run_bind_ok s2]
  dsimp only
  have hsz : (makeInfo (parseINFO (field fileOneLightmap ((164 + 8) % 2 ^ 32 + 4) 62))
      256).lightMapSize = 256 := rfl
  rw [run_ite, if_neg (by simp [makeInfo]), hsz, run_bind_ok s3]
  have h2 : ∀ q, loadTerrain env0 (headerOf fileLightmapHead) fileOneLightmap q = Res.ok [] q := by
    intro q
    unfold loadTerrain
    rw [if_neg (by decide)]
    rfl
  rw [run_bind_ok (h2 _), hoff]
  rfl

end WMB

namespace WMB
open Rd

set_option maxRecDepth 100000 in
theorem minimal_scene_witness :
    ∃ lvl, load fileMinimal defaultOptions env0 = Outcome.scene lvl ∧
      lvl.objects = [Object.light ⟨⟨0x3F800000, 0x40000000, 0x40400000⟩,
        ⟨0x41200000, 0x41A00000, 0x41F00000⟩, 0x42C80000, 2⟩] ∧
      lvl.info.lightMapSize = 256 ∧ lvl.textures = [] ∧ lvl.materials = [] ∧
      lvl.blocks = [] ∧ lvl.lightmaps = [] ∧ lvl.terrain_lightmaps = [] := by
  obtain ⟨lvl, origin, h1, h2, h3, _, h4⟩ :=
    minimal_scene fileMinimal defaultOptions env0 (by decide) (by decide) (by decide) (by decide)
      (by decide) (by decide) (by decide) (by decide) (by decide) 0 1 (Or.inl ⟨rfl, rfl⟩)
      (by decide) (by decide) (by decide) (by decide) (by decide)
  refine ⟨lvl, h1, ?_, h4⟩
  rw [h2, h3]
  decide

set_option maxRecDepth 100000 in
/-- C4, the claim as stated fails: the file `fileInfLight` is in the scope of
the claim (valid magic, five absent sections, an Info record with selector 0
and a Light record), the origin stored in the Light record is
(+infinity, 0, 0), and under the native convention `load` returns the Light
with the origin (+infinity, NaN, NaN): the product with the identity matrix
adds `0 * infinity`. -/
theorem minimal_scene_origin_not_copied :
    fileInfLight.take 4 = magic ∧ objCount fileInfLight = 2 ∧
    objTag fileInfLight 0 = 5 ∧ objTag fileInfLight 1 = 2 ∧
    vec3At fileInfLight (objPos fileInfLight 1 + 4) = ⟨0x7F800000, 0, 0⟩ ∧
    ∃ lvl l, load fileInfLight defaultOptions env0 = Outcome.scene lvl ∧
      lvl.objects = [Object.light l] ∧
      l.origin = ⟨0x7F800000, 0x7FC00000, 0x7FC00000⟩ ∧
      l.origin ≠ vec3At fileInfLight (objPos fileInfLight 1 + 4) :=
  ⟨by decide, by decide, by decide, by decide, by decide, _, _, rfl, rfl, by decide, by decide⟩

set_option maxRecDepth 100000 in
/-- C6 (the code at the failing input): the Path of `filePathNaN` has one node
and one edge whose first node reference is a NaN.  Both range checks are false
for a NaN, the cast of the NaN to `unsigned int` has no defined result (0 on
x86-64 and AArch64, as in `env0`), and the edge is kept with
`node1 = 4294967295`, which is not below the node count 1. -/
theorem path_nan_edge_kept :
    ∃ lvl p e, load filePathNaN defaultOptions env0 = Outcome.scene lvl ∧
      lvl.objects = [Object.path p] ∧ p.nodes.length = 1 ∧ p.edges = [e] ∧
      e.node1 = 4294967295 ∧ e.node2 = 0 ∧ ¬ e.node1 < p.nodes.length :=
  ⟨_, _, _, rfl, rfl, by decide, rfl, by decide, by decide, by decide⟩

set_option maxRecDepth 100000 in
/-- C7 (the code at the failing input): the Path of `filePathMixed` has two
nodes and the edge array (1, 2), (NaN, 2).  The filter of the specification
retains the first edge only; `load` returns both, the second with
`node1 = 4294967295`. -/
theorem path_edges_not_filtered :
    ∃ lvl p, load filePathMixed defaultOptions env0 = Outcome.scene lvl ∧
      lvl.objects = [Object.path p] ∧ p.nodes.length = 2 ∧
      specEdges 2 (edgeArray filePathMixed (objPos filePathMixed 1 + 116) 2)
        = [⟨0, 1, 0x3F800000, 0x40000000, 0x40400000, 0x40800000⟩] ∧
      p.edges = [⟨0, 1, 0x3F800000, 0x40000000, 0x40400000, 0x40800000⟩,
        ⟨4294967295, 1, 0x40A00000, 0x40C00000, 0x40E00000, 0x41000000⟩] :=
  ⟨_, _, rfl, rfl, by decide, by decide, by decide⟩

set_option maxRecDepth 100000 in
/-- The theorem of C8 on `fileOneLightmap`, whose lightmap section holds the
196608 bytes of one lightmap of the size 256. -/
theorem lightmap_blocks_witness :
    ∃ lvl, load fileOneLightmap defaultOptions env0 = Outcome.scene lvl ∧
      lvl.info.lightMapSize = 256 ∧ lvl.lightmaps.length = 1 ∧
      lvl.lightmaps = [⟨256, 256, none, field fileOneLightmap 238 196608⟩] := by
  obtain ⟨info, hsize, h⟩ := fileOneLightmap_scene
  obtain ⟨_, h1, _⟩ := lightmap_blocks fileOneLightmap defaultOptions env0 _ h
    (by rw [fileOneLightmap_header]; decide)
    ⟨0, by
      have hc : objCount fileOneLightmap = 1 := by
        unfold objCount
        rw [fileOneLightmap_header]
        unfold fileOneLightmap
        rw [uintAt_append_left _ _ _ _ (by decide)]
        decide
      omega, by
      unfold objTag recTag recPos objEntry
      rw [fileOneLightmap_header]
      unfold fileOneLightmap
      rw [uintAt_append_left _ _ _ _ (by decide), uintAt_append_left _ _ _ _ (by decide)]
      decide⟩
  exact ⟨_, h, hsize, by rw [h1]; simp only [hsize, fileOneLightmap_header]; decide, rfl⟩

end WMB

namespace WMB
open Rd

/-! ## The position mapper under the three conventions -/

namespace F32

theorem neg_eq (a : Nat) : neg a = (if sign a then 0 else 2 ^ 31) + a % 2 ^ 31 := by
  unfold neg withSign mag
  cases sign a <;> rfl

theorem neg_lt (a : Nat) : neg a < 2 ^ 32 := by
  rw [neg_eq]
  show ((if sign a then 0 else 2 ^ 31) + a % 2 ^ 31 : Nat) < 2 ^ 32
  split <;> omega

theorem expo_neg (a : Nat) : expo (neg a) = expo a := by
  rw [neg_eq]
  unfold expo
  show ((if sign a then 0 else 2 ^ 31) + a % 2 ^ 31 : Nat) / 2 ^ 23 % 2 ^ 8 = a / 2 ^ 23 % 2 ^ 8
  split <;> omega

theorem frac_neg (a : Nat) : frac (neg a) = frac a := by
  rw [neg_eq]
  unfold frac
  show ((if sign a then 0 else 2 ^ 31) + a % 2 ^ 31 : Nat) % 2 ^ 23 = a % 2 ^ 23
  split <;> omega

theorem scaled_neg (a : Nat) : scaled (neg a) = scaled a := by
  unfold scaled
  rw [expo_neg, frac_neg]

/-- `-1.0f * a` is `-a` for every finite `a`. -/
theorem mul_negOne_finite (a : Nat) (hfin : expo a ≠ 255) : mul negOne a = neg a := by
  have h1 : isNaN negOne = false := by decide
  have h2 : isInf negOne = false := by decide
  have h3 : isZero negOne = false := by decide
  have h4 : sign negOne = true := by decide
  have h5 : scaled negOne = 2 ^ 149 := by decide
  unfold mul
  simp only [h1, h2, h3, h4, h5, isNaN_false_of_finite hfin, isInf_false_of_finite hfin,
    Bool.or_self, Bool.false_eq_true, if_false, Bool.false_and, Bool.and_false, Bool.true_bne]
  rw [Nat.mul_comm, roundMag_scaled a hfin _ (Nat.two_pow_pos _)]
  rfl

/-- A sum of a finite `a` and signed zeros is `a` bit for bit unless `a` is a
zero. -/
theorem near_exact {a r : Nat} (h : Near a r) (hnz : scaled a ≠ 0) : r = a := by
  rcases h with rfl | ⟨hz, _⟩
  · rfl
  · exact absurd hz hnz

end F32

end WMB

namespace WMB
open Rd

/-! ## Running the fixed-size decoders forward -/

theorem run_loadVertex (options : LoadOptions) {d : List Byte} {p : Nat}
    (hr : p + 28 ≤ d.length) :
    loadVertex options d p =
      Res.ok ⟨mapVec options (vec3At d p), ⟨f32At d (p + 12), f32At d (p + 16)⟩,
        ⟨f32At d (p + 20), f32At d (p + 24)⟩⟩ (p + 28) := by
  unfold loadVertex
  simp only [run_bind, run_read_ok hr, run_pure]
  rw [vec3At_field _ _ _ _ (by omega), f32At_field _ _ _ _ (by omega),
    f32At_field _ _ _ _ (by omega), f32At_field _ _ _ _ (by omega),
    f32At_field _ _ _ _ (by omega)]
  rfl

theorem loadTriangle_eq (options : LoadOptions) :
    loadTriangle options = (Rd.read 12 >>= fun t =>
      (Pure.pure (triangleAt options t 0) : Rd Triangle)) := by
  unfold loadTriangle triangleAt
  funext d p
  simp only [run_bind]
  cases Rd.read 12 d p with
  | halt e => rfl
  | ok t q =>
    dsimp only
    by_cases h : options.targetCoordinateSystem = CoordinateSystem.OpenGL
    · simp only [h, if_true, run_pure]
    · simp only [h, if_false, run_pure]

theorem triangleAt_field (options : LoadOptions) (d : List Byte) (p : Nat) :
    triangleAt options (field d p 12) 0 = triangleAt options d p := by
  unfold triangleAt
  simp only [uintAt_field d p 12 0 2 (by omega), uintAt_field d p 12 (0 + 2) 2 (by omega),
    uintAt_field d p 12 (0 + 4) 2 (by omega), uintAt_field d p 12 (0 + 6) 2 (by omega),
    Nat.add_zero, Nat.zero_add]

theorem run_loadTriangle (options : LoadOptions) {d : List Byte} {p : Nat}
    (hr : p + 12 ≤ d.length) :
    loadTriangle options d p = Res.ok (triangleAt options d p) (p + 12) := by
  rw [loadTriangle_eq]
  simp only [run_bind, run_read_ok hr, run_pure, triangleAt_field]

/-- The `Entity` iteration on a complete record. -/
theorem run_loadObject_entity (options : LoadOptions) (env : Env) {base off : Nat}
    (st : ObjState) {d : List Byte} (p : Nat) (htag : uintAt d ((base + off) % 2 ^ 32) 4 = 7)
    (hr : (base + off) % 2 ^ 32 + 372 ≤ d.length) :
    ∃ e, loadObject options env base st off d p =
        Res.ok (push st (Object.entity e)) ((base + off) % 2 ^ 32 + 372) ∧
      e.isOldEntity = false ∧
      e.origin = mapVec options (vec3At d ((base + off) % 2 ^ 32 + 4)) ∧
      e.scale = mapScale options (vec3At d ((base + off) % 2 ^ 32 + 28)) ∧
      e.path = optIndexInt (uintAt d ((base + off) % 2 ^ 32 + 232) 4) ∧
      e.attachedEntity = optIndex (uintAt d ((base + off) % 2 ^ 32 + 236) 4) := by
  unfold loadObject
  rw [run_bind, run_seek]
  dsimp only
  rw [run_bind_ok (run_readU32_ok (by omega)), htag]
  simp only [show (7 : Nat) ≠ 5 by decide, show (7 : Nat) ≠ 2 by decide,
    show (7 : Nat) ≠ 6 by decide, show (7 : Nat) ≠ 1 by decide, show (7 : Nat) ≠ 4 by decide,
    ↓reduceIte]
  unfold loadEntity
  simp only [run_bind, run_read_ok (show (base + off) % 2 ^ 32 + 4 + 368 ≤ d.length by omega),
    run_pure]
  refine ⟨_, rfl, rfl, ?_, ?_, ?_, ?_⟩
  · show mapVec options (vec3At (field d _ 368) 0) = _
    rw [vec3At_field _ _ _ _ (by omega)]
  · show mapScale options (vec3At (field d _ 368) 24) = _
    rw [vec3At_field _ _ _ _ (by omega)]
  · show optIndexInt (uintAt (field d _ 368) 228 4) = _
    rw [uintAt_field _ _ _ _ _ (by omega)]
  · show optIndex (uintAt (field d _ 368) 232 4) = _
    rw [uintAt_field _ _ _ _ _ (by omega)]

/-- The `OldEntity` iteration on a complete record. -/
theorem run_loadObject_oldEntity (options : LoadOptions) (env : Env) {base off : Nat}
    (st : ObjState) {d : List Byte} (p : Nat) (htag : uintAt d ((base + off) % 2 ^ 32) 4 = 3)
    (hr : (base + off) % 2 ^ 32 + 133 ≤ d.length) :
    ∃ e, loadObject options env base st off d p =
        Res.ok (push st (Object.entity e)) ((base + off) % 2 ^ 32 + 133) ∧
      e.isOldEntity = true ∧
      e.origin = mapVec options (vec3At d ((base + off) % 2 ^ 32 + 4)) ∧
      e.scale = mapScale options (vec3At d ((base + off) % 2 ^ 32 + 28)) ∧
      e.path = none ∧ e.attachedEntity = none ∧
      e.material = [] ∧ e.string1 = [] ∧ e.string2 = [] := by
  unfold loadObject
  rw [run_bind, run_seek]
  dsimp only
  rw [run_bind_ok (run_readU32_ok (by omega)), htag]
  simp only [show (3 : Nat) ≠ 5 by decide, show (3 : Nat) ≠ 2 by decide,
    show (3 : Nat) ≠ 6 by decide, show (3 : Nat) ≠ 1 by decide, show (3 : Nat) ≠ 4 by decide,
    show (3 : Nat) ≠ 7 by decide, ↓reduceIte]
  unfold loadOldEntity
  simp only [run_bind, run_read_ok (show (base + off) % 2 ^ 32 + 4 + 129 ≤ d.length by omega),
    run_pure]
  refine ⟨_, rfl, rfl, ?_, ?_, rfl, rfl, rfl, rfl, rfl⟩
  · show mapVec options (vec3At (field d _ 129) 0) = _
    rw [vec3At_field _ _ _ _ (by omega)]
  · show mapScale options (vec3At (field d _ 129) 24) = _
    rw [vec3At_field _ _ _ _ (by omega)]

end WMB

namespace WMB
open Rd

/-! ## Loops over fixed-size records -/

/-- The cursor behind a loop over fixed-size records. -/
theorem times_read_ok_pos {α : Type} (f : List Byte → α) (sz : Nat) {d : List Byte} (n : Nat)
    {p q : Nat} {l : List α}
    (h : times n (Rd.read sz >>= fun bs => (Pure.pure (f bs) : Rd α)) d p = Res.ok l q) :
    q = p + n * sz := by
  induction n generalizing p q l with
  | zero =>
    simp only [times, run_pure, Res.ok.injEq] at h
    omega
  | succ n ih =>
    unfold times at h
    obtain ⟨a, r, h1, h2⟩ := bind_ok_inv h
    obtain ⟨ys, r2, h3, h4⟩ := bind_ok_inv h2
    obtain ⟨bs, r3, h5, h6⟩ := bind_ok_inv h1
    obtain ⟨_, _, rfl⟩ := read_ok_inv h5
    simp only [run_pure, Res.ok.injEq] at h6 h4
    obtain ⟨_, rfl⟩ := h6
    have := ih h3
    rw [Nat.succ_mul]
    omega

/-- A loop over fixed-size records that the file holds delivers them all. -/
theorem run_times_read_ok {α : Type} (f : List Byte → α) (sz : Nat) {d : List Byte} (n : Nat)
    {p : Nat} (h : p + n * sz ≤ d.length) :
    times n (Rd.read sz >>= fun bs => (Pure.pure (f bs) : Rd α)) d p =
      Res.ok ((List.range n).map (fun i => f (field d (p + i * sz) sz))) (p + n * sz) := by
  induction n generalizing p with
  | zero => simp [times, run_pure]
  | succ n ih =>
    rw [Nat.succ_mul] at h
    have h1 : p + sz ≤ d.length := by omega
    have h2 : p + sz + n * sz ≤ d.length := by omega
    unfold times
    simp only [run_bind, run_read_ok h1, run_pure, ih h2]
    rw [List.range_succ_eq_map]
    simp only [List.map_cons, List.map_map, Nat.zero_mul, Nat.add_zero, Res.ok.injEq,
      List.cons.injEq, true_and]
    constructor
    · apply List.map_congr_left
      intro i _
      simp only [Function.comp]
      congr 2
      rw [Nat.succ_mul]
      omega
    · rw [Nat.succ_mul]
      omega

theorem loadVertex_eq (options : LoadOptions) :
    loadVertex options = (Rd.read 28 >>= fun v => (Pure.pure
      (⟨mapVec options (vec3At v 0), ⟨f32At v 12, f32At v 16⟩, ⟨f32At v 20, f32At v 24⟩⟩ : Vertex)
        : Rd Vertex)) := rfl

/-- What a decoded block holds: the bounding box of the `BLOCK` record at `p`
as stored, and the triangles of the `lNumTris` records behind the `lNumVerts`
vertex records. -/
theorem loadBlock_ok_inv {options : LoadOptions} {d : List Byte} {p q : Nat} {b : Block}
    (h : loadBlock options d p = Res.ok b q) :
    p + 40 ≤ d.length ∧
    b.bbMin = vec3At d p ∧ b.bbMax = vec3At d (p + 12) ∧
    b.vertices = (List.range (uintAt d (p + 28) 4)).map (fun i =>
      ⟨mapVec options (vec3At d (p + 40 + i * 28)),
        ⟨f32At d (p + 40 + i * 28 + 12), f32At d (p + 40 + i * 28 + 16)⟩,
        ⟨f32At d (p + 40 + i * 28 + 20), f32At d (p + 40 + i * 28 + 24)⟩⟩) ∧
    b.triangles = (List.range (uintAt d (p + 32) 4)).map
      (fun i => triangleAt options d (p + 40 + uintAt d (p + 28) 4 * 28 + i * 12)) := by
  unfold loadBlock at h
  obtain ⟨bl, r1, h1, h2⟩ := bind_ok_inv h
  obtain ⟨rfl, hlen, rfl⟩ := read_ok_inv h1
  have hlen40 : p + 40 ≤ d.length := by omega
  obtain ⟨vs, r2, h3, h4⟩ := bind_ok_inv h2
  obtain ⟨ts, r3, h5, h6⟩ := bind_ok_inv h4
  obtain ⟨ss, r4, h7, h8⟩ := bind_ok_inv h6
  simp only [run_pure, Res.ok.injEq] at h8
  obtain ⟨rfl, _⟩ := h8
  rw [loadVertex_eq] at h3
  rw [loadTriangle_eq] at h5
  have hv := times_read_ok_inv _ _ _ h3
  have hvp := times_read_ok_pos _ _ _ h3
  have ht := times_read_ok_inv _ _ _ h5
  rw [uintAt_field _ _ _ _ _ (by omega)] at hv hvp
  rw [uintAt_field _ _ _ _ _ (by omega)] at ht
  refine ⟨hlen40, ?_, ?_, ?_, ?_⟩
  · show vec3At (field d p 40) 0 = _
    rw [vec3At_field _ _ _ _ (by omega)]
    rfl
  · show vec3At (field d p 40) 12 = _
    rw [vec3At_field _ _ _ _ (by omega)]
  · show vs = _
    rw [hv]
    apply List.map_congr_left
    intro i _
    rw [vec3At_field _ _ _ _ (by omega), f32At_field _ _ _ _ (by omega),
      f32At_field _ _ _ _ (by omega), f32At_field _ _ _ _ (by omega),
      f32At_field _ _ _ _ (by omega)]
    rfl
  · show ts = _
    rw [ht, hvp]
    apply List.map_congr_left
    intro i _
    rw [triangleAt_field]

end WMB

namespace WMB
open Rd

/-! ## Texture levels -/

theorem length_field {d : List Byte} {p n : Nat} (h : n = 0 ∨ p + n ≤ d.length) :
    (field d p n).length = n := by
  unfold field
  simp only [List.length_take, List.length_drop]
  omega

/-- The levels that a completed loop of the raw formats has read. -/
theorem readLevels_ok_inv (n : Nat) {L : Nat} {d : List Byte} {p q : Nat} {lv : List (List Byte)}
    (h : readLevels n L d p = Res.ok lv q) :
    lv = consecutive d p (loopSizes n L) ∧ lv.map List.length = loopSizes n L ∧
    q = p + (loopSizes n L).sum := by
  induction n generalizing L p q lv with
  | zero =>
    simp only [readLevels, run_pure, Res.ok.injEq] at h
    obtain ⟨rfl, rfl⟩ := h
    simp [loopSizes, consecutive]
  | succ n ih =>
    unfold readLevels at h
    obtain ⟨l0, r, h1, h2⟩ := bind_ok_inv h
    obtain ⟨rfl, hlen, rfl⟩ := read_ok_inv h1
    rw [run_ite] at h2
    unfold loopSizes
    by_cases hz : L / 4 = 0
    · rw [if_pos hz] at h2
      simp only [run_pure, Res.ok.injEq] at h2
      obtain ⟨rfl, rfl⟩ := h2
      simp [hz, consecutive, length_field hlen]
    · rw [if_neg hz] at h2
      obtain ⟨rest, r2, h3, h4⟩ := bind_ok_inv h2
      simp only [run_pure, Res.ok.injEq] at h4
      obtain ⟨rfl, rfl⟩ := h4
      obtain ⟨e1, e2, e3⟩ := ih h3
      simp only [hz, if_false, consecutive, List.map_cons, List.sum_cons, length_field hlen]
      refine ⟨?_, ?_, ?_⟩
      · rw [← e1]
      · rw [e2]
      · omega

/-- The loop of the raw formats on a file that holds the levels. -/
theorem run_readLevels (n L : Nat) {d : List Byte} {p : Nat}
    (h : p + (loopSizes n L).sum ≤ d.length) :
    readLevels n L d p = Res.ok (consecutive d p (loopSizes n L)) (p + (loopSizes n L).sum) := by
  induction n generalizing L p with
  | zero => simp [readLevels, loopSizes, consecutive, run_pure]
  | succ n ih =>
    unfold readLevels
    unfold loopSizes at h ⊢
    by_cases hz : L / 4 = 0
    · simp only [hz, if_true, List.sum_cons, List.sum_nil, Nat.add_zero] at h ⊢
      simp only [run_bind, run_read_ok h, run_ite, if_true, run_pure, consecutive]
    · simp only [hz, if_false, List.sum_cons] at h ⊢
      have h1 : p + L ≤ d.length := by omega
      have h2 : p + L + (loopSizes n (L / 4)).sum ≤ d.length := by omega
      simp only [run_bind, run_read_ok h1, run_ite, hz, if_false, ih (L / 4) h2, run_pure,
        consecutive, Nat.add_assoc]

theorem parseTEXTURE_width (d : List Byte) (p : Nat) :
    (parseTEXTURE (field d p 40)).width = uintAt d (p + 16) 4 := by
  simp only [parseTEXTURE]
  exact uintAt_field d p 40 16 4 (by omega)

theorem parseTEXTURE_height (d : List Byte) (p : Nat) :
    (parseTEXTURE (field d p 40)).height = uintAt d (p + 20) 4 := by
  simp only [parseTEXTURE]
  exact uintAt_field d p 40 20 4 (by omega)

theorem bytesPerPixel_ok_inv {f bpp : Nat} {d : List Byte} {p q : Nat}
    (h : bytesPerPixel f d p = Res.ok bpp q) :
    (f = 2 ∨ f = 4 ∨ f = 5) ∧ bpp = bppOf f ∧ q = p := by
  unfold bytesPerPixel at h
  unfold bppOf
  simp only [run_ite] at h
  split_ifs at h with c2 c4 c5
  · simp only [run_pure, Res.ok.injEq] at h
    exact ⟨Or.inl c2, by rw [if_pos c2]; exact h.1.symm, h.2.symm⟩
  · simp only [run_pure, Res.ok.injEq] at h
    exact ⟨Or.inr (Or.inl c4), by rw [if_neg c2, if_pos c4]; exact h.1.symm, h.2.symm⟩
  · simp only [run_pure, Res.ok.injEq] at h
    exact ⟨Or.inr (Or.inr c5), by rw [if_neg c2, if_neg c4]; exact h.1.symm, h.2.symm⟩
  · simp [run_stop] at h

/-- A completed iteration of the texture loop on a record of a raw format: the
levels are the byte ranges that the loop of `readLevels` reads behind the
record, whatever the mipmap flag is. -/
theorem loadTexture_raw_inv {env : Env} {base off : Nat} {d : List Byte} {p q : Nat}
    {t : Texture} (h : loadTexture env base off d p = Res.ok t q)
    (hraw : uintAt d ((base + off) % 2 ^ 32 + 24) 4 &&& 7 ≠ 6) :
    t.width = uintAt d ((base + off) % 2 ^ 32 + 16) 4 ∧
    t.height = uintAt d ((base + off) % 2 ^ 32 + 20) 4 ∧
    t.format = uintAt d ((base + off) % 2 ^ 32 + 24) 4 &&& 7 ∧
    t.hasMipMaps = decide (uintAt d ((base + off) % 2 ^ 32 + 24) 4 &&& 8 ≠ 0) ∧
    t.levels = consecutive d ((base + off) % 2 ^ 32 + 40)
      (loopSizes 3 (bppOf (uintAt d ((base + off) % 2 ^ 32 + 24) 4 &&& 7) *
        uintAt d ((base + off) % 2 ^ 32 + 16) 4 * uintAt d ((base + off) % 2 ^ 32 + 20) 4
          % 2 ^ 64)) ∧
    t.levels.map List.length =
      loopSizes 3 (bppOf (uintAt d ((base + off) % 2 ^ 32 + 24) 4 &&& 7) *
        uintAt d ((base + off) % 2 ^ 32 + 16) 4 * uintAt d ((base + off) % 2 ^ 32 + 20) 4
          % 2 ^ 64) := by
  unfold loadTexture at h
  obtain ⟨u, r, h1, h2⟩ := bind_ok_inv h
  rw [run_seek] at h1
  simp only [Res.ok.injEq, true_and] at h1
  subst h1
  obtain ⟨bs, r, h3, h4⟩ := bind_ok_inv h2
  obtain ⟨rfl, h5, rfl⟩ := read_ok_inv h3
  dsimp only at h4
  rw [parseTEXTURE_type, parseTEXTURE_width, parseTEXTURE_height] at h4
  rw [run_ite, if_neg hraw] at h4
  obtain ⟨bpp, r, h6, h7⟩ := bind_ok_inv h4
  obtain ⟨_, rfl, rfl⟩ := bytesPerPixel_ok_inv h6
  obtain ⟨lv, r2, h8, h9⟩ := bind_ok_inv h7
  simp only [run_pure, Res.ok.injEq] at h9
  obtain ⟨rfl, _⟩ := h9
  obtain ⟨e1, e2, _⟩ := readLevels_ok_inv 3 h8
  exact ⟨rfl, rfl, rfl, rfl, e1, e2⟩

/-- A completed iteration of the texture loop on a record of the compressed
format: one level, the `width` bytes behind the record. -/
theorem loadTexture_dds_inv {env : Env} {base off : Nat} {d : List Byte} {p q : Nat}
    {t : Texture} (h : loadTexture env base off d p = Res.ok t q)
    (hdds : uintAt d ((base + off) % 2 ^ 32 + 24) 4 &&& 7 = 6) :
    t.width = uintAt d ((base + off) % 2 ^ 32 + 16) 4 ∧
    t.height = uintAt d ((base + off) % 2 ^ 32 + 20) 4 ∧
    t.format = 6 ∧
    t.hasMipMaps = decide (uintAt d ((base + off) % 2 ^ 32 + 24) 4 &&& 8 ≠ 0) ∧
    t.levels = [field d ((base + off) % 2 ^ 32 + 40) (uintAt d ((base + off) % 2 ^ 32 + 16) 4)] ∧
    (field d ((base + off) % 2 ^ 32 + 40) (uintAt d ((base + off) % 2 ^ 32 + 16) 4)).length
      = uintAt d ((base + off) % 2 ^ 32 + 16) 4 ∧
    q = (base + off) % 2 ^ 32 + 40 + uintAt d ((base + off) % 2 ^ 32 + 16) 4 := by
  unfold loadTexture at h
  obtain ⟨u, r, h1, h2⟩ := bind_ok_inv h
  rw [run_seek] at h1
  simp only [Res.ok.injEq, true_and] at h1
  subst h1
  obtain ⟨bs, r, h3, h4⟩ := bind_ok_inv h2
  obtain ⟨rfl, h5, rfl⟩ := read_ok_inv h3
  dsimp only at h4
  rw [parseTEXTURE_type, parseTEXTURE_width, parseTEXTURE_height] at h4
  rw [run_ite, if_pos hdds] at h4
  obtain ⟨lv, r2, h8, h9⟩ := bind_ok_inv h4
  obtain ⟨rfl, hlen, rfl⟩ := read_ok_inv h8
  simp only [run_pure, Res.ok.injEq] at h9
  obtain ⟨rfl, rfl⟩ := h9
  exact ⟨rfl, rfl, hdds, rfl, rfl, length_field hlen, rfl⟩

/-- The iteration of the texture loop on a complete record of the compressed
format. -/
theorem run_loadTexture_dds (env : Env) {base off : Nat} {d : List Byte} (p : Nat)
    (hdds : uintAt d ((base + off) % 2 ^ 32 + 24) 4 &&& 7 = 6)
    (hr : (base + off) % 2 ^ 32 + 40 + uintAt d ((base + off) % 2 ^ 32 + 16) 4 ≤ d.length) :
    ∃ t, loadTexture env base off d p = Res.ok t
      ((base + off) % 2 ^ 32 + 40 + uintAt d ((base + off) % 2 ^ 32 + 16) 4) := by
  unfold loadTexture
  rw [run_bind, run_seek]
  dsimp only
  rw [run_bind_ok (run_read_ok (show (base + off) % 2 ^ 32 + 40 ≤ d.length by omega))]
  rw [parseTEXTURE_type, parseTEXTURE_width, parseTEXTURE_height]
  rw [run_ite, if_pos hdds]
  rw [run_bind_ok (run_read_ok hr)]
  exact ⟨_, rfl⟩

end WMB

namespace WMB
open Rd

/-! ## The sections of a returned scene -/

/-- The lists of a returned scene are what the section decoders returned. -/
theorem load_scene_sections {data : List Byte} {options : LoadOptions} {env : Env} {lvl : Level}
    (h : load data options env = Outcome.scene lvl) :
    ∃ p1 p2 p3 r2 q,
      loadTextures env (headerOf data) data 164 = Res.ok lvl.textures p1 ∧
      loadMaterials env (headerOf data) data p1 = Res.ok lvl.materials p2 ∧
      loadBlocks options (headerOf data) data p2 = Res.ok lvl.blocks p3 ∧
      loadTerrain env (headerOf data) data r2 = Res.ok lvl.terrain_lightmaps q := by
  obtain ⟨_, _, textures, materials, blocks, p1, p2, p3, q, h1, h2, h3, _, h4⟩ := load_scene_inv h
  obtain ⟨st, r, lightmaps, r2, terrain, _, _, _, h5, rfl⟩ := loadFrom_ok_inv h4
  exact ⟨p1, p2, p3, r2, q, h1, h2, h3, h5⟩

/-- The textures of a completed texture loop, entry by entry. -/
theorem loadTextureList_ok_get {env : Env} {base : Nat} {l : List Nat} {d : List Byte}
    {p q : Nat} {ts : List Texture} (h : loadTextureList env base l d p = Res.ok ts q) :
    ts.length = l.length ∧
    ∀ i x, l.get? i = some x →
      ∃ t r s, ts.get? i = some t ∧ loadTexture env base x d r = Res.ok t s := by
  induction l generalizing p q ts with
  | nil =>
    simp only [loadTextureList, run_pure, Res.ok.injEq] at h
    obtain ⟨rfl, _⟩ := h
    simp
  | cons y l ih =>
    unfold loadTextureList at h
    obtain ⟨t, r, h1, h2⟩ := bind_ok_inv h
    obtain ⟨rest, r2, h3, h4⟩ := bind_ok_inv h2
    simp only [run_pure, Res.ok.injEq] at h4
    obtain ⟨rfl, _⟩ := h4
    obtain ⟨e1, e2⟩ := ih h3
    refine ⟨by simp [e1], ?_⟩
    intro i x hx
    cases i with
    | zero =>
      simp only [List.get?_cons_zero, Option.some.injEq] at hx
      subst hx
      exact ⟨t, p, r, rfl, h1⟩
    | succ i =>
      simp only [List.get?_cons_succ] at hx ⊢
      exact e2 i x hx

theorem get?_range_map {α : Type} (f : Nat → α) {n i : Nat} (hi : i < n) :
    ((List.range n).map f).get? i = some (f i) := by
  rw [List.get?_eq_getElem?, List.getElem?_map, List.getElem?_range hi]
  rfl

/-- The textures of a returned scene, entry by entry of the offset table. -/
theorem load_textures_inv {data : List Byte} {options : LoadOptions} {env : Env} {lvl : Level}
    (h : load data options env = Outcome.scene lvl)
    (hoff : (headerOf data).textures.offset ≠ 0) :
    lvl.textures.length = texCount data ∧
    ∀ i, i < texCount data →
      ∃ t r s, lvl.textures.get? i = some t ∧
        loadTexture env (headerOf data).textures.offset (texEntry data i) data r = Res.ok t s := by
  obtain ⟨p1, _, _, _, _, h1, _⟩ := load_scene_sections h
  rw [loadTextures_present hoff] at h1
  obtain ⟨n, r, h2, h3⟩ := bind_ok_inv h1
  obtain ⟨rfl, _, rfl⟩ := readU32_ok_inv h2
  obtain ⟨offs, r2, h4, h5⟩ := bind_ok_inv h3
  have e := times_readU32_ok_inv _ h4
  subst e
  obtain ⟨e1, e2⟩ := loadTextureList_ok_get h5
  refine ⟨by rw [e1]; simp [texCount], ?_⟩
  intro i hi
  have hg := get?_range_map
    (fun j => uintAt data ((headerOf data).textures.offset + 4 + 4 * j) 4) hi
  exact e2 i _ hg

end WMB

namespace WMB
open Rd

/-! ## Where the decoders apply the mappers -/

theorem read_pure_ok_inv {α : Type} {f : List Byte → α} {n : Nat} {d : List Byte} {p q : Nat}
    {a : α} (h : (Rd.read n >>= fun bs => (Pure.pure (f bs) : Rd α)) d p = Res.ok a q) :
    a = f (field d p n) ∧ (n = 0 ∨ p + n ≤ d.length) ∧ q = p + n := by
  obtain ⟨bs, r, h1, h2⟩ := bind_ok_inv h
  obtain ⟨rfl, hlen, rfl⟩ := read_ok_inv h1
  simp only [run_pure, Res.ok.injEq] at h2
  exact ⟨h2.1.symm, hlen, h2.2.symm⟩

theorem read_eq_bind_pure (sz : Nat) :
    Rd.read sz = (Rd.read sz >>= fun bs => (Pure.pure bs : Rd (List Byte))) := by
  funext d p
  rw [run_bind]
  cases Rd.read sz d p <;> rfl

/-- The byte ranges that a loop of reads of one size delivers. -/
theorem times_read_plain_inv (sz : Nat) {d : List Byte} (n : Nat) {p q : Nat}
    {l : List (List Byte)} (h : times n (Rd.read sz) d p = Res.ok l q) :
    l = (List.range n).map (fun i => field d (p + i * sz) sz) ∧ q = p + n * sz := by
  rw [read_eq_bind_pure] at h
  exact ⟨times_read_ok_inv _ _ _ h, times_read_ok_pos _ _ _ h⟩

theorem loadVertex_ok_inv {options : LoadOptions} {d : List Byte} {p q : Nat} {v : Vertex}
    (h : loadVertex options d p = Res.ok v q) : v.position = mapVec options (vec3At d p) := by
  unfold loadVertex at h
  obtain ⟨rfl, hlen, _⟩ := read_pure_ok_inv h
  show mapVec options (vec3At (field d p 28) 0) = _
  rw [vec3At_field _ _ _ _ (by omega)]
  rfl

theorem loadLight_ok_inv {options : LoadOptions} {d : List Byte} {p q : Nat} {o : Object}
    (h : loadLight options d p = Res.ok o q) :
    ∃ l, o = Object.light l ∧ l.origin = mapVec options (vec3At d p) := by
  unfold loadLight at h
  obtain ⟨rfl, hlen, _⟩ := read_pure_ok_inv h
  refine ⟨_, rfl, ?_⟩
  show mapVec options (vec3At (field d p 32) 0) = _
  rw [vec3At_field _ _ _ _ (by omega)]
  rfl

theorem loadPosition_ok_inv {options : LoadOptions} {env : Env} {d : List Byte} {p q : Nat}
    {o : Object} (h : loadPosition options env d p = Res.ok o q) :
    ∃ x, o = Object.position x ∧ x.origin = mapVec options (vec3At d p) := by
  unfold loadPosition at h
  obtain ⟨rfl, hlen, _⟩ := read_pure_ok_inv h
  refine ⟨_, rfl, ?_⟩
  show mapVec options (vec3At (field d p 52) 0) = _
  rw [vec3At_field _ _ _ _ (by omega)]
  rfl

theorem loadSound_ok_inv {options : LoadOptions} {env : Env} {d : List Byte} {p q : Nat}
    {o : Object} (h : loadSound options env d p = Res.ok o q) :
    ∃ s, o = Object.sound s ∧ s.origin = mapVec options (vec3At d p) := by
  unfold loadSound at h
  obtain ⟨rfl, hlen, _⟩ := read_pure_ok_inv h
  refine ⟨_, rfl, ?_⟩
  show mapVec options (vec3At (field d p 65) 0) = _
  rw [vec3At_field _ _ _ _ (by omega)]
  rfl

theorem loadEntity_ok_inv {options : LoadOptions} {env : Env} {d : List Byte} {p q : Nat}
    {o : Object} (h : loadEntity options env d p = Res.ok o q) :
    ∃ e, o = Object.entity e ∧ e.origin = mapVec options (vec3At d p) ∧
      e.scale = mapScale options (vec3At d (p + 24)) := by
  unfold loadEntity at h
  obtain ⟨rfl, hlen, _⟩ := read_pure_ok_inv h
  refine ⟨_, rfl, ?_, ?_⟩
  · show mapVec options (vec3At (field d p 368) 0) = _
    rw [vec3At_field _ _ _ _ (by omega)]
    rfl
  · show mapScale options (vec3At (field d p 368) 24) = _
    rw [vec3At_field _ _ _ _ (by omega)]

theorem loadOldEntity_ok_inv {options : LoadOptions} {env : Env} {d : List Byte} {p q : Nat}
    {o : Object} (h : loadOldEntity options env d p = Res.ok o q) :
    ∃ e, o = Object.entity e ∧ e.origin = mapVec options (vec3At d p) ∧
      e.scale = mapScale options (vec3At d (p + 24)) := by
  unfold loadOldEntity at h
  obtain ⟨rfl, hlen, _⟩ := read_pure_ok_inv h
  refine ⟨_, rfl, ?_, ?_⟩
  · show mapVec options (vec3At (field d p 129) 0) = _
    rw [vec3At_field _ _ _ _ (by omega)]
    rfl
  · show mapScale options (vec3At (field d p 129) 24) = _
    rw [vec3At_field _ _ _ _ (by omega)]

/-- The nodes of a decoded Path: the position of the `k`-th node is the mapped
`k`-th vector of the position array behind the 40-byte `WMB_PATH` record. -/
theorem loadPath_ok_inv {options : LoadOptions} {env : Env} {d : List Byte} {p q : Nat}
    {o : Object} (h : loadPath options env d p = Res.ok o q) :
    ∃ pa, o = Object.path pa ∧
      ∀ k node, pa.nodes.get? k = some node →
        node.position = mapVec options (vec3At d (p + 40 + k * 12)) := by
  unfold loadPath at h
  obtain ⟨e, r1, h1, h2⟩ := bind_ok_inv h
  obtain ⟨rfl, _, rfl⟩ := read_ok_inv h1
  obtain ⟨positions, r2, h3, h4⟩ := bind_ok_inv h2
  obtain ⟨skills, r3, h5, h6⟩ := bind_ok_inv h4
  obtain ⟨edges, r4, h7, h8⟩ := bind_ok_inv h6
  simp only [run_pure, Res.ok.injEq] at h8
  obtain ⟨rfl, _⟩ := h8
  obtain ⟨e1, _⟩ := times_read_plain_inv _ _ h3
  refine ⟨_, rfl, ?_⟩
  intro k node hk
  simp only [List.get?_eq_getElem?, List.getElem?_eq_some_iff] at hk
  obtain ⟨hlt, hk⟩ := hk
  rw [List.getElem_zipWith] at hk
  rw [← hk]
  simp only [List.length_zipWith] at hlt
  have hpk : k < positions.length := by omega
  have hpos : positions[k] = field d (p + 40 + k * 12) 12 := by
    have := List.getElem_of_eq e1 hpk
    rw [this]
    simp
  show mapVec options (vec3At positions[k] 0) = _
  rw [hpos]
  have hbound : k < toSize env (f32At (field d p 40) 20) := by
    have := congrArg List.length e1
    simp only [List.length_map, List.length_range] at this
    omega
  by_cases hfull : p + 40 + k * 12 + 12 ≤ d.length
  · rw [vec3At_field _ _ _ _ (by omega)]
    rfl
  · exfalso
    have hr := h3
    rw [read_eq_bind_pure] at hr
    have hq := times_read_ok_pos _ _ _ hr
    have key : ∀ (n : Nat) (p0 q0 : Nat) (l : List (List Byte)),
        times n (Rd.read 12) d p0 = Res.ok l q0 → 0 < n → q0 ≤ d.length := by
      intro n
      induction n with
      | zero => intro _ _ _ _ h0; omega
      | succ n ih =>
        intro p0 q0 l hrun _
        unfold times at hrun
        obtain ⟨a, r, g1, g2⟩ := bind_ok_inv hrun
        obtain ⟨rest, r', g3, g4⟩ := bind_ok_inv g2
        simp only [run_pure, Res.ok.injEq] at g4
        obtain ⟨_, rfl⟩ := g4
        obtain ⟨_, glen, rfl⟩ := read_ok_inv g1
        by_cases hn : 0 < n
        · exact ih _ _ _ g3 hn
        · have hn0 : n = 0 := by omega
          subst hn0
          simp only [times, run_pure, Res.ok.injEq] at g3
          omega
    have hle := key _ _ _ _ h3 (by omega)
    have : (k + 1) * 12 ≤ toSize env (f32At (field d p 40) 20) * 12 :=
      Nat.mul_le_mul_right 12 hbound
    rw [Nat.succ_mul] at this
    omega

end WMB

namespace WMB
open Rd

/-! ## Native, OpenGL and DirectX positions (C11, C12) -/

theorem finite_components {v : Vec3} (h : v.finite = true) :
    F32.expo v.x ≠ 255 ∧ F32.expo v.y ≠ 255 ∧ F32.expo v.z ≠ 255 := by
  simpa [Vec3.finite, F32.isFinite, and_assoc] using h

theorem vec3At_isFloat (d : List Byte) (p : Nat) : (vec3At d p).IsFloat :=
  ⟨uintAt_lt d p, uintAt_lt d (p + 4), uintAt_lt d (p + 8)⟩

/-- The product with the identity matrix, on a vector of finite components. -/
theorem mapVec_native_near (options : LoadOptions) (v : Vec3)
    (hopt : options.targetCoordinateSystem = CoordinateSystem.Gamestudio)
    (hv : v.IsFloat) (hfin : v.finite = true) :
    F32.Near v.x (mapVec options v).x ∧ F32.Near v.y (mapVec options v).y ∧
    F32.Near v.z (mapVec options v).z := by
  obtain ⟨hx, hy, hz⟩ := hv
  obtain ⟨fx, fy, fz⟩ := finite_components hfin
  unfold mapVec vecMulMat
  rw [hopt]
  simp only [mapMatrix]
  rw [F32.mul_one_finite v.x hx fx, F32.mul_one_finite v.y hy fy, F32.mul_one_finite v.z hz fz,
    F32.mul_zero_finite v.x fx, F32.mul_zero_finite v.y fy, F32.mul_zero_finite v.z fz]
  refine ⟨?_, ?_, ?_⟩
  · exact F32.near_add_right _ hx fx (F32.near_add_right _ hx fx (Or.inl rfl))
  · exact F32.near_add_right _ hy fy (F32.near_add_left _ hy fy)
  · obtain ⟨u, hu⟩ := F32.signed_zero_add (F32.sign v.x) (F32.sign v.y)
    rw [hu]
    exact F32.near_add_left _ hz fz

/-- The product with the OpenGL matrix, on a vector of finite components. -/
theorem mapVec_opengl_near (options : LoadOptions) (v : Vec3)
    (hopt : options.targetCoordinateSystem = CoordinateSystem.OpenGL)
    (hv : v.IsFloat) (hfin : v.finite = true) :
    F32.Near (F32.neg v.y) (mapVec options v).x ∧ F32.Near v.z (mapVec options v).y ∧
    F32.Near (F32.neg v.x) (mapVec options v).z := by
  obtain ⟨hx, hy, hz⟩ := hv
  obtain ⟨fx, fy, fz⟩ := finite_components hfin
  have nx : F32.expo (F32.neg v.x) ≠ 255 := by rw [F32.expo_neg]; exact fx
  have ny : F32.expo (F32.neg v.y) ≠ 255 := by rw [F32.expo_neg]; exact fy
  unfold mapVec vecMulMat
  rw [hopt]
  simp only [mapMatrix]
  rw [F32.mul_one_finite v.z hz fz, F32.mul_negOne_finite v.x fx, F32.mul_negOne_finite v.y fy,
    F32.mul_zero_finite v.x fx, F32.mul_zero_finite v.y fy, F32.mul_zero_finite v.z fz]
  refine ⟨?_, ?_, ?_⟩
  · exact F32.near_add_right _ (F32.neg_lt _) ny (F32.near_add_left _ (F32.neg_lt _) ny)
  · obtain ⟨u, hu⟩ := F32.signed_zero_add (F32.sign v.x) (F32.sign v.y)
    rw [hu]
    exact F32.near_add_left _ hz fz
  · exact F32.near_add_right _ (F32.neg_lt _) nx
      (F32.near_add_right _ (F32.neg_lt _) nx (Or.inl rfl))

/-- The product with the DirectX matrix, on a vector of finite components. -/
theorem mapVec_directx_near (options : LoadOptions) (v : Vec3)
    (hopt : options.targetCoordinateSystem = CoordinateSystem.DirectX)
    (hv : v.IsFloat) (hfin : v.finite = true) :
    F32.Near (F32.neg v.y) (mapVec options v).x ∧ F32.Near v.z (mapVec options v).y ∧
    F32.Near v.x (mapVec options v).z := by
  obtain ⟨hx, hy, hz⟩ := hv
  obtain ⟨fx, fy, fz⟩ := finite_components hfin
  have ny : F32.expo (F32.neg v.y) ≠ 255 := by rw [F32.expo_neg]; exact fy
  unfold mapVec vecMulMat
  rw [hopt]
  simp only [mapMatrix]
  rw [F32.mul_one_finite v.z hz fz, F32.mul_one_finite v.x hx fx, F32.mul_negOne_finite v.y fy,
    F32.mul_zero_finite v.x fx, F32.mul_zero_finite v.y fy, F32.mul_zero_finite v.z fz]
  refine ⟨?_, ?_, ?_⟩
  · exact F32.near_add_right _ (F32.neg_lt _) ny (F32.near_add_left _ (F32.neg_lt _) ny)
  · obtain ⟨u, hu⟩ := F32.signed_zero_add (F32.sign v.x) (F32.sign v.y)
    rw [hu]
    exact F32.near_add_left _ hz fz
  · exact F32.near_add_right _ hx fx (F32.near_add_right _ hx fx (Or.inl rfl))

end WMB

namespace WMB
open Rd

theorem numEq_of_near {v r : Vec3} (hfin : v.finite = true) (hx : F32.Near v.x r.x)
    (hy : F32.Near v.y r.y) (hz : F32.Near v.z r.z) : Vec3.numEq r v = true := by
  obtain ⟨fx, fy, fz⟩ := finite_components hfin
  simp only [Vec3.numEq, F32.near_numEq fx hx, F32.near_numEq fy hy, F32.near_numEq fz hz,
    Bool.and_self]

/-- C11 (as amended): under the native convention (Gamestudio) the scale
mapper is the identity on every vector, and the position mapper, a product
with the identity matrix in `float` arithmetic, returns a vector of finite
components with each component equal to the original (`==`; bit for bit
unless the component is a zero, whose sign may change).  So every decoded
vertex position, object origin (Light, Position, Sound, Entity, OldEntity) and
path node position equals (`==`) the raw vector of the record when that vector
is finite, and every decoded entity scale is the raw vector of the record. -/
theorem native_mapping (options : LoadOptions) (env : Env)
    (hopt : options.targetCoordinateSystem = CoordinateSystem.Gamestudio) :
    (∀ v, mapScale options v = v) ∧
    (∀ v : Vec3, v.IsFloat → v.finite = true →
      Vec3.numEq (mapVec options v) v = true ∧
      (F32.scaled v.x ≠ 0 → (mapVec options v).x = v.x) ∧
      (F32.scaled v.y ≠ 0 → (mapVec options v).y = v.y) ∧
      (F32.scaled v.z ≠ 0 → (mapVec options v).z = v.z)) ∧
    (∀ d p q vert, loadVertex options d p = Res.ok vert q → (vec3At d p).finite = true →
      Vec3.numEq vert.position (vec3At d p) = true) ∧
    (∀ d p q o, loadLight options d p = Res.ok o q →
      ∃ l, o = Object.light l ∧
        ((vec3At d p).finite = true → Vec3.numEq l.origin (vec3At d p) = true)) ∧
    (∀ d p q o, loadPosition options env d p = Res.ok o q →
      ∃ x, o = Object.position x ∧
        ((vec3At d p).finite = true → Vec3.numEq x.origin (vec3At d p) = true)) ∧
    (∀ d p q o, loadSound options env d p = Res.ok o q →
      ∃ s, o = Object.sound s ∧
        ((vec3At d p).finite = true → Vec3.numEq s.origin (vec3At d p) = true)) ∧
    (∀ d p q o, loadEntity options env d p = Res.ok o q →
      ∃ e, o = Object.entity e ∧ e.scale = vec3At d (p + 24) ∧
        ((vec3At d p).finite = true → Vec3.numEq e.origin (vec3At d p) = true)) ∧
    (∀ d p q o, loadOldEntity options env d p = Res.ok o q →
      ∃ e, o = Object.entity e ∧ e.scale = vec3At d (p + 24) ∧
        ((vec3At d p).finite = true → Vec3.numEq e.origin (vec3At d p) = true)) ∧
    (∀ d p q o, loadPath options env d p = Res.ok o q →
      ∃ pa, o = Object.path pa ∧
        ∀ k node, pa.nodes.get? k = some node → (vec3At d (p + 40 + k * 12)).finite = true →
          Vec3.numEq node.position (vec3At d (p + 40 + k * 12)) = true) := by
  have hscale : ∀ v, mapScale options v = v := by
    intro v
    unfold mapScale
    rw [hopt]
  have hnum : ∀ v : Vec3, v.IsFloat → v.finite = true →
      Vec3.numEq (mapVec options v) v = true := by
    intro v hv hfin
    obtain ⟨nx, ny, nz⟩ := mapVec_native_near options v hopt hv hfin
    exact numEq_of_near hfin nx ny nz
  refine ⟨hscale, ?_, ?_, ?_, ?_, ?_, ?_, ?_, ?_⟩
  · intro v hv hfin
    obtain ⟨nx, ny, nz⟩ := mapVec_native_near options v hopt hv hfin
    exact ⟨hnum v hv hfin, F32.near_exact nx, F32.near_exact ny, F32.near_exact nz⟩
  · intro d p q vert h hfin
    rw [loadVertex_ok_inv h]
    exact hnum _ (vec3At_isFloat d p) hfin
  · intro d p q o h
    obtain ⟨l, rfl, e⟩ := loadLight_ok_inv h
    exact ⟨l, rfl, fun hfin => by rw [e]; exact hnum _ (vec3At_isFloat d p) hfin⟩
  · intro d p q o h
    obtain ⟨x, rfl, e⟩ := loadPosition_ok_inv h
    exact ⟨x, rfl, fun hfin => by rw [e]; exact hnum _ (vec3At_isFloat d p) hfin⟩
  · intro d p q o h
    obtain ⟨x, rfl, e⟩ := loadSound_ok_inv h
    exact ⟨x, rfl, fun hfin => by rw [e]; exact hnum _ (vec3At_isFloat d p) hfin⟩
  · intro d p q o h
    obtain ⟨x, rfl, e, e2⟩ := loadEntity_ok_inv h
    exact ⟨x, rfl, by rw [e2, hscale],
      fun hfin => by rw [e]; exact hnum _ (vec3At_isFloat d p) hfin⟩
  · intro d p q o h
    obtain ⟨x, rfl, e, e2⟩ := loadOldEntity_ok_inv h
    exact ⟨x, rfl, by rw [e2, hscale],
      fun hfin => by rw [e]; exact hnum _ (vec3At_isFloat d p) hfin⟩
  · intro d p q o h
    obtain ⟨pa, rfl, e⟩ := loadPath_ok_inv h
    refine ⟨pa, rfl, ?_⟩
    intro k node hk hfin
    rw [e k node hk]
    exact hnum _ (vec3At_isFloat d _) hfin

set_option maxRecDepth 100000 in
/-- The theorem of C11 on the vector (1, -0, 3), which the position mapper
returns equal (`==`), the first and third component bit for bit, and on the
first vertex record of `fileBlock`, at 208, with the position (1, 2, 3). -/
theorem native_mapping_witness :
    mapScale defaultOptions vecNegZero = vecNegZero ∧
    Vec3.numEq (mapVec defaultOptions vecNegZero) vecNegZero = true ∧
    (mapVec defaultOptions vecNegZero).x = vecNegZero.x ∧
    (mapVec defaultOptions vecNegZero).z = vecNegZero.z ∧
    (∃ vert q, loadVertex defaultOptions fileBlock 208 = Res.ok vert q ∧
      vec3At fileBlock 208 = vecOneTwoThree ∧
      Vec3.numEq vert.position (vec3At fileBlock 208) = true) :=
  have h := (native_mapping defaultOptions env0 rfl).2.1 vecNegZero
    ⟨by decide, by decide, by decide⟩ (by decide)
  ⟨(native_mapping defaultOptions env0 rfl).1 vecNegZero, h.1, h.2.1 (by decide),
    h.2.2.2 (by decide),
    ⟨_, _, run_loadVertex defaultOptions (by decide), by decide,
      (native_mapping defaultOptions env0 rfl).2.2.1 fileBlock 208 _ _
        (run_loadVertex defaultOptions (by decide)) (by decide)⟩⟩

set_option maxRecDepth 100000 in
/-- C11, the claim as stated fails: under the native convention the position
mapper sends (+infinity, 0, 0) to (+infinity, NaN, NaN), since the product
with the identity matrix adds `0 * infinity`; and it sends (1, -0, 3) to
(1, +0, 3), another bit pattern (though an equal value). -/
theorem native_mapping_not_identity :
    defaultOptions.targetCoordinateSystem = CoordinateSystem.Gamestudio ∧
    mapVec defaultOptions vecInfinite = ⟨0x7F800000, 0x7FC00000, 0x7FC00000⟩ ∧
    mapVec defaultOptions vecInfinite ≠ vecInfinite ∧
    Vec3.numEq (mapVec defaultOptions vecInfinite) vecInfinite = false ∧
    mapVec defaultOptions vecNegZero = ⟨0x3F800000, 0, 0x40400000⟩ := by
  decide

/-- C12 (as amended): for a position vector (x, y, z) of finite components the
position mapper returns a vector equal (`==`) to (-y, z, -x) under the OpenGL
convention and to (-y, z, x) under the DirectX convention; a component whose
source component is not a zero is that value bit for bit. -/
theorem convention_mapping (options : LoadOptions) (v : Vec3) (hv : v.IsFloat)
    (hfin : v.finite = true) :
    (options.targetCoordinateSystem = CoordinateSystem.OpenGL →
      Vec3.numEq (mapVec options v) ⟨F32.neg v.y, v.z, F32.neg v.x⟩ = true ∧
      (F32.scaled v.y ≠ 0 → (mapVec options v).x = F32.neg v.y) ∧
      (F32.scaled v.z ≠ 0 → (mapVec options v).y = v.z) ∧
      (F32.scaled v.x ≠ 0 → (mapVec options v).z = F32.neg v.x)) ∧
    (options.targetCoordinateSystem = CoordinateSystem.DirectX →
      Vec3.numEq (mapVec options v) ⟨F32.neg v.y, v.z, v.x⟩ = true ∧
      (F32.scaled v.y ≠ 0 → (mapVec options v).x = F32.neg v.y) ∧
      (F32.scaled v.z ≠ 0 → (mapVec options v).y = v.z) ∧
      (F32.scaled v.x ≠ 0 → (mapVec options v).z = v.x)) := by
  obtain ⟨fx, fy, fz⟩ := finite_components hfin
  have nx : F32.expo (F32.neg v.x) ≠ 255 := by rw [F32.expo_neg]; exact fx
  have ny : F32.expo (F32.neg v.y) ≠ 255 := by rw [F32.expo_neg]; exact fy
  constructor
  · intro hopt
    obtain ⟨h1, h2, h3⟩ := mapVec_opengl_near options v hopt hv hfin
    refine ⟨?_, ?_, F32.near_exact h2, ?_⟩
    · simp only [Vec3.numEq, F32.near_numEq ny h1, F32.near_numEq fz h2, F32.near_numEq nx h3,
        Bool.and_self]
    · intro hnz
      exact F32.near_exact h1 (by rw [F32.scaled_neg]; exact hnz)
    · intro hnz
      exact F32.near_exact h3 (by rw [F32.scaled_neg]; exact hnz)
  · intro hopt
    obtain ⟨h1, h2, h3⟩ := mapVec_directx_near options v hopt hv hfin
    refine ⟨?_, ?_, F32.near_exact h2, F32.near_exact h3⟩
    · simp only [Vec3.numEq, F32.near_numEq ny h1, F32.near_numEq fz h2, F32.near_numEq fx h3,
        Bool.and_self]
    · intro hnz
      exact F32.near_exact h1 (by rw [F32.scaled_neg]; exact hnz)

set_option maxRecDepth 100000 in
/-- The theorem of C12 on the vector (1, 2, 3): (-2, 3, -1) under OpenGL and
(-2, 3, 1) under DirectX, bit for bit. -/
theorem convention_mapping_witness :
    (mapVec openGLOptions vecOneTwoThree).x = 0xC0000000 ∧
    (mapVec openGLOptions vecOneTwoThree).y = 0x40400000 ∧
    (mapVec openGLOptions vecOneTwoThree).z = 0xBF800000 ∧
    Vec3.numEq (mapVec directXOptions vecOneTwoThree)
      ⟨F32.neg vecOneTwoThree.y, vecOneTwoThree.z, vecOneTwoThree.x⟩ = true :=
  have h := convention_mapping openGLOptions vecOneTwoThree ⟨by decide, by decide, by decide⟩
    (by decide)
  have g := convention_mapping directXOptions vecOneTwoThree ⟨by decide, by decide, by decide⟩
    (by decide)
  ⟨(h.1 rfl).2.1 (by decide), (h.1 rfl).2.2.1 (by decide), (h.1 rfl).2.2.2 (by decide),
    (g.2 rfl).1⟩

set_option maxRecDepth 100000 in
/-- C12, the claim as stated fails: the position (+infinity, 0, 0) is mapped
to (NaN, NaN, -infinity) under OpenGL and to (NaN, NaN, +infinity) under
DirectX, not to (-0, 0, -infinity) and (-0, 0, +infinity): the products with
the matrix add `0 * infinity`. -/
theorem convention_mapping_not_exact :
    mapVec openGLOptions vecInfinite = ⟨0x7FC00000, 0x7FC00000, 0xFF800000⟩ ∧
    Vec3.numEq (mapVec openGLOptions vecInfinite)
      ⟨F32.neg vecInfinite.y, vecInfinite.z, F32.neg vecInfinite.x⟩ = false ∧
    mapVec directXOptions vecInfinite = ⟨0x7FC00000, 0x7FC00000, 0x7F800000⟩ ∧
    Vec3.numEq (mapVec directXOptions vecInfinite)
      ⟨F32.neg vecInfinite.y, vecInfinite.z, vecInfinite.x⟩ = false := by
  decide

end WMB

namespace WMB
open Rd

/-! ## Triangle winding (C13) -/

/-- C13: the triangle loop turns the `TRIANGLE` record (v1, v2, v3, skin) at
the file position `r` into (v1, v3, v2, skin) under the OpenGL convention and
into (v1, v2, v3, skin) under the two other conventions; the triangles of a
decoded block are the triangles of its `lNumTris` records, in order.  The skin
index is the stored one under every convention, the OpenGL triangle is the
swap of the triangle of the other conventions, and the swap is an involution. -/
theorem triangle_winding (options : LoadOptions) (d : List Byte) :
    (∀ r, r + 12 ≤ d.length →
      loadTriangle options d r = Res.ok (triangleAt options d r) (r + 12)) ∧
    (∀ p b q, loadBlock options d p = Res.ok b q →
      b.triangles = (List.range (uintAt d (p + 32) 4)).map
        (fun i => triangleAt options d (p + 40 + uintAt d (p + 28) 4 * 28 + i * 12))) ∧
    (∀ r, (triangleAt options d r).v1 = uintAt d r 2 ∧
      (triangleAt options d r).skin = uintAt d (r + 6) 2 ∧
      (options.targetCoordinateSystem = CoordinateSystem.OpenGL →
        (triangleAt options d r).v2 = uintAt d (r + 4) 2 ∧
        (triangleAt options d r).v3 = uintAt d (r + 2) 2) ∧
      (options.targetCoordinateSystem ≠ CoordinateSystem.OpenGL →
        (triangleAt options d r).v2 = uintAt d (r + 2) 2 ∧
        (triangleAt options d r).v3 = uintAt d (r + 4) 2)) ∧
    (∀ other : LoadOptions, ∀ r,
      options.targetCoordinateSystem = CoordinateSystem.OpenGL →
      other.targetCoordinateSystem ≠ CoordinateSystem.OpenGL →
      triangleAt options d r = (triangleAt other d r).swap ∧
      (triangleAt options d r).swap = triangleAt other d r) ∧
    (∀ t : Triangle, t.swap.swap = t) := by
  refine ⟨fun r hr => run_loadTriangle options hr, ?_, ?_, ?_, fun t => rfl⟩
  · intro p b q h
    exact (loadBlock_ok_inv h).2.2.2.2
  · intro r
    unfold triangleAt
    by_cases hgl : options.targetCoordinateSystem = CoordinateSystem.OpenGL
    · simp only [hgl, if_true, ne_eq, not_true_eq_false, false_implies, true_implies, and_self]
    · simp only [hgl, if_false, ne_eq, not_false_eq_true, false_implies, true_implies, and_self]
  · intro other r hgl hother
    unfold triangleAt Triangle.swap
    simp only [hgl, hother, if_true, if_false, and_self]

set_option maxRecDepth 100000 in
/-- The theorem of C13 on `fileBlock`, whose first triangle record (0, 1, 2,
skin 0) lies at 292: the triangle loop delivers (0, 2, 1, 0) under OpenGL and
(0, 1, 2, 0) under the native and the DirectX convention, and `load` returns
the block with both triangles swapped under OpenGL. -/
theorem triangle_winding_witness :
    loadTriangle openGLOptions fileBlock 292 = Res.ok ⟨0, 2, 1, 0⟩ 304 ∧
    loadTriangle defaultOptions fileBlock 292 = Res.ok ⟨0, 1, 2, 0⟩ 304 ∧
    loadTriangle directXOptions fileBlock 292 = Res.ok ⟨0, 1, 2, 0⟩ 304 ∧
    (∃ lvl b, load fileBlock openGLOptions env0 = Outcome.scene lvl ∧ lvl.blocks = [b] ∧
      b.triangles = [⟨0, 2, 1, 0⟩, ⟨2, 0, 1, 5⟩]) ∧
    (∃ lvl b, load fileBlock defaultOptions env0 = Outcome.scene lvl ∧ lvl.blocks = [b] ∧
      b.triangles = [⟨0, 1, 2, 0⟩, ⟨2, 1, 0, 5⟩]) :=
  ⟨(triangle_winding openGLOptions fileBlock).1 292 (by decide),
   (triangle_winding defaultOptions fileBlock).1 292 (by decide),
   (triangle_winding directXOptions fileBlock).1 292 (by decide),
   ⟨_, _, rfl, rfl, by decide⟩, ⟨_, _, rfl, rfl, by decide⟩⟩

end WMB

namespace WMB
open Rd

/-! ## Texture levels (C14, C15, C16) -/

/-- The level sizes of the loop of the raw formats, case by case: one level
below 4 bytes, two below 16, three from 16 bytes on. -/
theorem loopSizes_three (L : Nat) :
    loopSizes 3 L =
      if L < 4 then [L] else if L < 16 then [L, L / 4] else [L, L / 4, L / 16] := by
  simp only [loopSizes]
  by_cases h4 : L < 4
  · have : L / 4 = 0 := by omega
    simp [h4, this]
  · have h4' : ¬ L / 4 = 0 := by omega
    by_cases h16 : L < 16
    · have : L / 4 / 4 = 0 := by omega
      simp [h4, h4', h16, this]
    · have h16' : ¬ L / 4 / 4 = 0 := by omega
      have e : L / 4 / 4 = L / 16 := by omega
      have e16 : ¬ L / 16 = 0 := by omega
      simp only [h4, h4', h16, h16', if_false, e, e16, ite_self]

/-- The levels of a raw texture in a returned scene: for the `i`-th texture
record, of a raw format and with the level-0 size `L`, the decoded texture has
the levels of the sizes `L`, `L / 4`, `L / 16` cut behind the first size below
4, i.e. one to three levels, with or without the mipmap flag. -/
theorem raw_texture_levels (data : List Byte) (options : LoadOptions) (env : Env) (lvl : Level)
    (h : load data options env = Outcome.scene lvl)
    (hoff : (headerOf data).textures.offset ≠ 0) (i : Nat) (hi : i < texCount data)
    (hraw : texType data i &&& 7 ≠ 6) :
    ∃ t, lvl.textures.get? i = some t ∧
      t.hasMipMaps = decide (texType data i &&& 8 ≠ 0) ∧
      t.levels.map List.length =
        loopSizes 3 (bppOf (texType data i &&& 7) * texWidth data i * texHeight data i % 2 ^ 64) ∧
      t.levels = consecutive data (texPos data i + 40)
        (loopSizes 3 (bppOf (texType data i &&& 7) * texWidth data i * texHeight data i % 2 ^ 64)) ∧
      (16 ≤ bppOf (texType data i &&& 7) * texWidth data i * texHeight data i % 2 ^ 64 →
        t.levels.length = 3) := by
  obtain ⟨_, hget⟩ := load_textures_inv h hoff
  obtain ⟨t, r, s, h1, h2⟩ := hget i hi
  obtain ⟨_, _, _, e4, e5, e6⟩ := loadTexture_raw_inv h2 hraw
  have e6' : t.levels.map List.length =
      loopSizes 3 (bppOf (texType data i &&& 7) * texWidth data i * texHeight data i % 2 ^ 64) :=
    e6
  refine ⟨t, h1, e4, e6', e5, ?_⟩
  have hlen := congrArg List.length e6'
  rw [List.length_map] at hlen
  rw [hlen]
  generalize bppOf (texType data i &&& 7) * texWidth data i * texHeight data i % 2 ^ 64 = L
  intro hL
  rw [loopSizes_three, if_neg (by omega), if_neg (by omega)]
  rfl

set_option maxRecDepth 100000 in
/-- C14 (the code at the failing input): the texture of `fileTexNoMip` is a
2x2 RGBA8888 texture without the mipmap flag, followed by its 16 payload
bytes and then by the objects section.  `load` returns it with three levels,
of 16, 4 and 1 bytes; the second and the third are the first bytes of the
objects section (its count word and the first byte of its offset table). -/
theorem raw_texture_without_flag :
    texCount fileTexNoMip = 1 ∧ texType fileTexNoMip 0 = 5 ∧
    texWidth fileTexNoMip 0 = 2 ∧ texHeight fileTexNoMip 0 = 2 ∧
    texPos fileTexNoMip 0 + 40 + 16 = (headerOf fileTexNoMip).objects.offset ∧
    ∃ lvl t, load fileTexNoMip defaultOptions env0 = Outcome.scene lvl ∧
      lvl.textures = [t] ∧ t.format = 5 ∧ t.hasMipMaps = false ∧
      t.levels.map List.length = [16, 4, 1] ∧
      t.levels = [field fileTexNoMip 212 16, [1, 0, 0, 0], [8]] ∧
      t.levels.length ≠ 1 :=
  ⟨by decide, by decide, by decide, by decide, by decide, _, _, rfl, rfl, by decide, by decide,
    by decide, by decide, by decide⟩

set_option maxRecDepth 100000 in
/-- C15 (the code at the failing input): the texture of `fileTexMip` is a 4x4
RGBA8888 texture with the mipmap flag, level-0 size 64, followed by the
64 + 16 + 4 + 1 payload bytes of the four levels that the specification
describes.  `load` returns it with three levels, of 64, 16 and 4 bytes. -/
theorem mip_texture_three_levels :
    texCount fileTexMip = 1 ∧ texType fileTexMip 0 = 13 ∧
    texWidth fileTexMip 0 = 4 ∧ texHeight fileTexMip 0 = 4 ∧
    specMipSizes (4 * 4 * 4) = [64, 16, 4, 1] ∧
    ∃ lvl t, load fileTexMip defaultOptions env0 = Outcome.scene lvl ∧
      lvl.textures = [t] ∧ t.format = 5 ∧ t.hasMipMaps = true ∧
      t.levels.map List.length = [64, 16, 4] ∧
      t.levels.map List.length ≠ specMipSizes (4 * 4 * 4) ∧
      t.levels.length ≠ 4 :=
  ⟨by decide, by decide, by decide, by decide, by decide, _, _, rfl, rfl, by decide, by decide,
    by decide, by decide, by decide⟩

/-- C16: a texture record whose format code `type & 7` is 6 (compressed) is
decoded to a texture with exactly one level, the `width` bytes that follow
the 40-byte record, whatever the mipmap flag and the height word are: that is
the `i`-th texture of every scene that `load` returns, and the iteration of
the texture loop returns whenever the file holds the record and these bytes. -/
theorem dds_single_level (data : List Byte) (options : LoadOptions) (env : Env)
    (hoff : (headerOf data).textures.offset ≠ 0) (i : Nat) (hi : i < texCount data)
    (hdds : texType data i &&& 7 = 6) :
    (∀ lvl, load data options env = Outcome.scene lvl →
      ∃ t, lvl.textures.get? i = some t ∧ t.format = 6 ∧
        t.width = texWidth data i ∧ t.height = texHeight data i ∧
        t.levels = [field data (texPos data i + 40) (texWidth data i)] ∧
        t.levels.map List.length = [texWidth data i]) ∧
    (texPos data i + 40 + texWidth data i ≤ data.length →
      ∀ p, ∃ t, loadTexture env (headerOf data).textures.offset (texEntry data i) data p
          = Res.ok t (texPos data i + 40 + texWidth data i) ∧
        t.levels = [field data (texPos data i + 40) (texWidth data i)] ∧
        t.levels.map List.length = [texWidth data i]) := by
  constructor
  · intro lvl h
    obtain ⟨_, hget⟩ := load_textures_inv h hoff
    obtain ⟨t, r, s, h1, h2⟩ := hget i hi
    obtain ⟨e1, e2, e3, _, e5, e6, _⟩ := loadTexture_dds_inv h2 hdds
    refine ⟨t, h1, e3, e1, e2, e5, ?_⟩
    rw [e5]
    simp only [List.map_cons, List.map_nil, List.cons.injEq, and_true]
    exact e6
  · intro hr p
    obtain ⟨t, h2⟩ := run_loadTexture_dds env p hdds hr
    obtain ⟨_, _, _, _, e5, e6, _⟩ := loadTexture_dds_inv h2 hdds
    refine ⟨t, h2, e5, ?_⟩
    rw [e5]
    simp only [List.map_cons, List.map_nil, List.cons.injEq, and_true]
    exact e6

set_option maxRecDepth 100000 in
/-- The theorem of C16 on `fileDDS`, whose texture record has the type word 14
(compressed, mipmap flag set), the width word 5 and the height word 7: the
decoded texture has the one level of the 5 bytes behind the record. -/
theorem dds_single_level_witness :
    (∃ lvl t, load fileDDS defaultOptions env0 = Outcome.scene lvl ∧
      lvl.textures.get? 0 = some t ∧ t.format = 6 ∧ t.width = 5 ∧ t.height = 7 ∧
      t.levels = [[68, 68, 83, 32, 9]]) ∧
    (∃ lvl t, load fileDDS defaultOptions env0 = Outcome.scene lvl ∧
      lvl.textures = [t] ∧ t.hasMipMaps = true) := by
  refine ⟨?_, _, _, rfl, rfl, by decide⟩
  have hrun : ∃ lvl, load fileDDS defaultOptions env0 = Outcome.scene lvl := ⟨_, rfl⟩
  obtain ⟨lvl, h⟩ := hrun
  obtain ⟨t, h1, h2, h3, h4, h5, _⟩ :=
    (dds_single_level fileDDS defaultOptions env0 (by decide) 0 (by decide) (by decide)).1 lvl h
  refine ⟨lvl, t, h, h1, h2, ?_, ?_, ?_⟩
  · rw [h3]; decide
  · rw [h4]; decide
  · rw [h5]; decide

end WMB

namespace WMB
open Rd

/-! ## Materials (C17) -/

theorem loadMaterial_eq (env : Env) :
    loadMaterial env = (Rd.read 64 >>= fun info => (Pure.pure
      (⟨toString env (field info 44 20), decide (field info 44 4 = [0, 100, 101, 102])⟩ : Material)
        : Rd Material)) := rfl

/-- The materials of a completed material decoder on a present section. -/
theorem loadMaterials_ok_inv {env : Env} {header : WMB_HEADER} {d : List Byte} {p q : Nat}
    {ms : List Material} (hoff : header.materials.offset ≠ 0)
    (h : loadMaterials env header d p = Res.ok ms q) :
    ms = (List.range (header.materials.length / 64)).map (fun i =>
      ⟨toString env (field d (header.materials.offset + i * 64 + 44) 20),
        decide (field d (header.materials.offset + i * 64 + 44) 4 = [0, 100, 101, 102])⟩) := by
  unfold loadMaterials at h
  rw [run_ite, if_pos hoff, run_bind, run_seek] at h
  dsimp only at h
  rw [loadMaterial_eq] at h
  rw [times_read_ok_inv _ _ _ h]
  apply List.map_congr_left
  intro i _
  rw [field_field _ _ _ _ _ (by omega), field_field _ _ _ _ _ (by omega)]

/-- The material decoder on a present section that the file holds. -/
theorem run_loadMaterials (env : Env) {header : WMB_HEADER} {d : List Byte} (p : Nat)
    (hoff : header.materials.offset ≠ 0)
    (hr : header.materials.offset + header.materials.length / 64 * 64 ≤ d.length) :
    ∃ ms, loadMaterials env header d p =
      Res.ok ms (header.materials.offset + header.materials.length / 64 * 64) := by
  unfold loadMaterials
  rw [run_ite, if_pos hoff, run_bind, run_seek]
  dsimp only
  rw [loadMaterial_eq, run_times_read_ok _ _ _ hr]
  exact ⟨_, rfl⟩

/-- C17: with a present material section of the byte length `len`, the
material list of every scene that `load` returns has `len / 64` entries, taken
from the consecutive 64-byte records from the section offset on: the `i`-th
is the default material exactly if the bytes 44..47 of the `i`-th record are
NUL, 'd', 'e', 'f', and its name is read from the bytes 44..63.  The material
decoder returns whenever the file holds the `len / 64` records. -/
theorem material_list (data : List Byte) (options : LoadOptions) (env : Env)
    (hoff : (headerOf data).materials.offset ≠ 0) :
    (∀ lvl, load data options env = Outcome.scene lvl →
      lvl.materials.length = (headerOf data).materials.length / 64 ∧
      ∀ i, i < (headerOf data).materials.length / 64 →
        ∃ m, lvl.materials.get? i = some m ∧
          (m.isDefault = true ↔
            field data ((headerOf data).materials.offset + i * 64 + 44) 4 = [0, 100, 101, 102]) ∧
          m.name = toString env (field data ((headerOf data).materials.offset + i * 64 + 44) 20)) ∧
    ((headerOf data).materials.offset + (headerOf data).materials.length / 64 * 64 ≤ data.length →
      ∀ p, ∃ ms q, loadMaterials env (headerOf data) data p = Res.ok ms q ∧
        ms.length = (headerOf data).materials.length / 64) := by
  constructor
  · intro lvl h
    obtain ⟨_, _, _, _, _, _, h2, _⟩ := load_scene_sections h
    have e := loadMaterials_ok_inv hoff h2
    refine ⟨by rw [e]; simp, ?_⟩
    intro i hi
    refine ⟨_, by rw [e]; exact get?_range_map _ hi, ?_, rfl⟩
    simp only [decide_eq_true_eq]
  · intro hr p
    obtain ⟨ms, h⟩ := run_loadMaterials env p hoff hr
    refine ⟨ms, _, h, ?_⟩
    rw [loadMaterials_ok_inv hoff h]
    simp

set_option maxRecDepth 100000 in
/-- The theorem of C17 on `fileMaterials`, whose material section of 130 bytes
holds the records NUL "def" and "stone": two materials, the first one the
default material and the second one not. -/
theorem material_list_witness :
    (∃ lvl m0 m1, load fileMaterials defaultOptions env0 = Outcome.scene lvl ∧
      lvl.materials.length = 2 ∧
      lvl.materials.get? 0 = some m0 ∧ m0.isDefault = true ∧
      lvl.materials.get? 1 = some m1 ∧ m1.isDefault = false ∧
      m1.name = [115, 116, 111, 110, 101]) ∧
    (∃ ms q, loadMaterials env0 (headerOf fileMaterials) fileMaterials 164 = Res.ok ms q ∧
      ms.length = 2) := by
  have hm := material_list fileMaterials defaultOptions env0 (by decide)
  constructor
  · have hrun : ∃ lvl, load fileMaterials defaultOptions env0 = Outcome.scene lvl := ⟨_, rfl⟩
    obtain ⟨lvl, h⟩ := hrun
    obtain ⟨hlen, hget⟩ := hm.1 lvl h
    obtain ⟨m0, g0, d0, _⟩ := hget 0 (by decide)
    obtain ⟨m1, g1, d1, n1⟩ := hget 1 (by decide)
    refine ⟨lvl, m0, m1, h, ?_, g0, ?_, g1, ?_, ?_⟩
    · rw [hlen]; decide
    · exact d0.mpr (by decide)
    · cases hd : m1.isDefault with
      | false => rfl
      | true => exact absurd (d1.mp hd) (by decide)
    · rw [n1]; decide
  · obtain ⟨ms, q, h, hl⟩ := hm.2 (by decide) 164
    exact ⟨ms, q, h, by rw [hl]; decide⟩

end WMB

namespace WMB
open Rd

/-! ## Entity references (C18) -/

theorem optIndex_none_iff (x : Nat) : optIndex x = none ↔ x = 0 := by
  unfold optIndex
  split <;> simp [*]

theorem optIndex_pos {x : Nat} (h0 : x ≠ 0) (hx : x < 2 ^ 32) : optIndex x = some (x - 1) := by
  have e : (x + 2 ^ 32 - 1) % 2 ^ 32 = x - 1 := by omega
  unfold optIndex
  rw [if_neg h0, e]

theorem toInt32_eq_zero_iff {x : Nat} (hx : x < 2 ^ 32) : toInt32 x = 0 ↔ x = 0 := by
  unfold toInt32
  split <;> omega

theorem optIndexInt_none_iff {x : Nat} (hx : x < 2 ^ 32) : optIndexInt x = none ↔ x = 0 := by
  unfold optIndexInt
  rw [← toInt32_eq_zero_iff hx]
  split <;> simp [*]

theorem optIndexInt_pos {x : Nat} (h0 : x ≠ 0) (hx : x < 2 ^ 32) :
    optIndexInt x = some (x - 1) := by
  have e : ((toInt32 x - 1) % 2 ^ 32).toNat = x - 1 := by
    unfold toInt32
    split <;> omega
  unfold optIndexInt
  rw [if_neg (fun h => h0 ((toInt32_eq_zero_iff hx).mp h)), e]

/-- C18: the Entity iteration of the object loop, on a complete record (tag
7), returns an Entity with `isOldEntity` false whose path reference is absent
exactly if the `path` word of the record is 0 and is that word minus one
otherwise, and likewise for the attached entity and the `entity2` word.  The
OldEntity iteration, on a complete record (tag 3), returns an Entity with
`isOldEntity` true, both references absent and `material`, `string1` and
`string2` empty. -/
theorem entity_references (data : List Byte) (options : LoadOptions) (env : Env) (i : Nat)
    (st : ObjState) (p : Nat) :
    (objTag data i = 7 → objPos data i + 372 ≤ data.length →
      ∃ e q, loadObject options env (headerOf data).objects.offset st (objEntry data i) data p
          = Res.ok (push st (Object.entity e)) q ∧
        e.isOldEntity = false ∧
        (e.path = none ↔ uintAt data (objPos data i + 232) 4 = 0) ∧
        (uintAt data (objPos data i + 232) 4 ≠ 0 →
          e.path = some (uintAt data (objPos data i + 232) 4 - 1)) ∧
        (e.attachedEntity = none ↔ uintAt data (objPos data i + 236) 4 = 0) ∧
        (uintAt data (objPos data i + 236) 4 ≠ 0 →
          e.attachedEntity = some (uintAt data (objPos data i + 236) 4 - 1))) ∧
    (objTag data i = 3 → objPos data i + 133 ≤ data.length →
      ∃ e q, loadObject options env (headerOf data).objects.offset st (objEntry data i) data p
          = Res.ok (push st (Object.entity e)) q ∧
        e.isOldEntity = true ∧ e.path = none ∧ e.attachedEntity = none ∧
        e.material = [] ∧ e.string1 = [] ∧ e.string2 = []) := by
  constructor
  · intro htag hr
    obtain ⟨e, hrun, h1, _, _, hp, ha⟩ := run_loadObject_entity options env st p htag hr
    refine ⟨e, _, hrun, h1, ?_, ?_, ?_, ?_⟩
    · rw [hp]
      exact optIndexInt_none_iff (uintAt_lt _ _)
    · intro h0
      rw [hp]
      exact optIndexInt_pos h0 (uintAt_lt _ _)
    · rw [ha]
      exact optIndex_none_iff _
    · intro h0
      rw [ha]
      exact optIndex_pos h0 (uintAt_lt _ _)
  · intro htag hr
    obtain ⟨e, hrun, h1, _, _, h2, h3, h4, h5, h6⟩ :=
      run_loadObject_oldEntity options env st p htag hr
    exact ⟨e, _, hrun, h1, h2, h3, h4, h5, h6⟩

set_option maxRecDepth 100000 in
/-- The theorem of C18 on `fileEntities`, whose second object is an Entity
with the path word 3 and the `entity2` word 0 and whose third object is an
OldEntity; `load` returns the two. -/
theorem entity_references_witness :
    (∃ e q, loadObject defaultOptions env0 (headerOf fileEntities).objects.offset
        ⟨true, env0.uninitInfo, []⟩ (objEntry fileEntities 1) fileEntities 0
          = Res.ok (push ⟨true, env0.uninitInfo, []⟩ (Object.entity e)) q ∧
      e.isOldEntity = false ∧ e.path = some 2 ∧ e.attachedEntity = none) ∧
    (∃ e q, loadObject defaultOptions env0 (headerOf fileEntities).objects.offset
        ⟨true, env0.uninitInfo, []⟩ (objEntry fileEntities 2) fileEntities 0
          = Res.ok (push ⟨true, env0.uninitInfo, []⟩ (Object.entity e)) q ∧
      e.isOldEntity = true ∧ e.path = none ∧ e.attachedEntity = none ∧
      e.material = [] ∧ e.string1 = [] ∧ e.string2 = []) ∧
    (∃ lvl e1 e2, load fileEntities defaultOptions env0 = Outcome.scene lvl ∧
      lvl.objects = [Object.entity e1, Object.entity e2] ∧
      e1.isOldEntity = false ∧ e1.path = some 2 ∧ e1.attachedEntity = none ∧
      e2.isOldEntity = true ∧ e2.path = none ∧ e2.attachedEntity = none) := by
  refine ⟨?_, ?_, _, _, _, rfl, rfl, by decide, by decide, by decide, by decide, by decide,
    by decide⟩
  · obtain ⟨e, q, hrun, h1, _, h3, h4, _⟩ :=
      (entity_references fileEntities defaultOptions env0 1 ⟨true, env0.uninitInfo, []⟩ 0).1
        (by decide) (by decide)
    refine ⟨e, q, hrun, h1, ?_, h4.mpr (by decide)⟩
    rw [h3 (by decide)]
    decide
  · exact (entity_references fileEntities defaultOptions env0 2 ⟨true, env0.uninitInfo, []⟩ 0).2
      (by decide) (by decide)

end WMB

namespace WMB
open Rd

/-! ## Terrain lightmaps (C19) -/

/-- The lightmaps of a completed terrain lightmap loop: each one has the
height word of its entry as its width, the never assigned `lm.height` as its
height and the object word of its entry as its object. -/
theorem loadTerrainList_ok_inv (env : Env) (i n : Nat) {d : List Byte} {p q : Nat}
    {tl : List Lightmap} (h : loadTerrainList env i n d p = Res.ok tl q) :
    tl.length = n ∧
    ∀ k lm, tl.get? k = some lm →
      lm.height = env.uninitHeight (i + k) % 2 ^ 32 ∧
      ∃ r, r + 12 ≤ d.length ∧ lm.width = uintAt d (r + 8) 4 ∧
        lm.object = some (uintAt d r 4) ∧
        lm.data = field d (r + 12) (3 * lm.width * lm.height % 2 ^ 32) ∧
        (k = 0 → r = p) := by
  induction n generalizing i p q tl with
  | zero =>
    simp only [loadTerrainList, run_pure, Res.ok.injEq] at h
    obtain ⟨rfl, _⟩ := h
    simp
  | succ n ih =>
    unfold loadTerrainList at h
    obtain ⟨obj, r1, h1, h2⟩ := bind_ok_inv h
    obtain ⟨rfl, hlen, rfl⟩ := read_ok_inv h1
    have hlen12 : p + 12 ≤ d.length := by omega
    obtain ⟨data, r2, h3, h4⟩ := bind_ok_inv h2
    obtain ⟨rfl, _, rfl⟩ := read_ok_inv h3
    obtain ⟨rest, r3, h5, h6⟩ := bind_ok_inv h4
    simp only [run_pure, Res.ok.injEq] at h6
    obtain ⟨rfl, _⟩ := h6
    obtain ⟨e1, e2⟩ := ih (i + 1) h5
    refine ⟨by simp [e1], ?_⟩
    intro k lm hk
    cases k with
    | zero =>
      simp only [List.get?_cons_zero, Option.some.injEq] at hk
      subst hk
      refine ⟨rfl, p, hlen12, ?_, ?_, ?_, fun _ => rfl⟩
      · exact uintAt_field d p 12 8 4 (by omega)
      · show some (uintAt (field d p 12) 0 4) = _
        rw [uintAt_field d p 12 0 4 (by omega)]
        rfl
      · rfl
    | succ k =>
      simp only [List.get?_cons_succ] at hk
      obtain ⟨g1, r, g2, g3, g4, g5, _⟩ := e2 k lm hk
      refine ⟨?_, r, g2, g3, g4, g5, fun hk0 => absurd hk0 (Nat.succ_ne_zero k)⟩
      rw [g1]
      congr 2
      omega

/-- The terrain lightmaps that the code delivers, in every scene that `load`
returns for a file with a present terrain lightmap section: as many as the
count word says; each with the object word of its entry; each with the HEIGHT
word of its entry as its width, the indeterminate `lm.height` as its height
and a payload of `3 * width * height` bytes computed from these two.  The
first entry lies behind the count word. -/
theorem terrain_lightmaps_code (data : List Byte) (options : LoadOptions) (env : Env)
    (lvl : Level) (h : load data options env = Outcome.scene lvl)
    (hoff : (headerOf data).lightmaps_terrain.offset ≠ 0) :
    lvl.terrain_lightmaps.length = uintAt data (headerOf data).lightmaps_terrain.offset 4 ∧
    ∀ k lm, lvl.terrain_lightmaps.get? k = some lm →
      lm.height = env.uninitHeight k % 2 ^ 32 ∧
      ∃ r, r + 12 ≤ data.length ∧ lm.width = uintAt data (r + 8) 4 ∧
        lm.object = some (uintAt data r 4) ∧
        lm.data = field data (r + 12) (3 * lm.width * lm.height % 2 ^ 32) ∧
        (k = 0 → r = (headerOf data).lightmaps_terrain.offset + 4) := by
  obtain ⟨_, _, _, r2, q, _, _, _, h1⟩ := load_scene_sections h
  unfold loadTerrain at h1
  rw [run_ite, if_pos hoff, run_bind, run_seek] at h1
  dsimp only at h1
  obtain ⟨n, r, h2, h3⟩ := bind_ok_inv h1
  obtain ⟨rfl, _, rfl⟩ := readU32_ok_inv h2
  obtain ⟨e1, e2⟩ := loadTerrainList_ok_inv env 0 _ h3
  refine ⟨e1, ?_⟩
  intro k lm hk
  obtain ⟨g1, r, g2, g3, g4, g5, g6⟩ := e2 k lm hk
  rw [Nat.zero_add] at g1
  exact ⟨g1, r, g2, g3, g4, g5, g6⟩

set_option maxRecDepth 100000 in
/-- C19 (the code at the failing input): the terrain lightmap section of
`fileTerrain` holds one entry with the object index 7, the width 2 and the
height 3, followed by its 3 * 2 * 3 = 18 payload bytes.  `load` returns one
terrain lightmap with the object 7 and the width 3, the height word of the
entry; its height and the length of its data depend on the memory of the
never assigned `lm.height`: 0 and no data on zeroed memory, 2 and 18 bytes
where that memory holds 2. -/
theorem terrain_entry_miscopied :
    (headerOf fileTerrain).lightmaps_terrain.offset = 238 ∧
    uintAt fileTerrain 238 4 = 1 ∧ uintAt fileTerrain 242 4 = 7 ∧
    uintAt fileTerrain 246 4 = 2 ∧ uintAt fileTerrain 250 4 = 3 ∧
    fileTerrain.length = 254 + 3 * 2 * 3 ∧
    (∃ lvl, load fileTerrain defaultOptions env0 = Outcome.scene lvl ∧
      lvl.terrain_lightmaps = [⟨3, 0, some 7, []⟩] ∧
      lvl.terrain_lightmaps ≠ [⟨2, 3, some 7, field fileTerrain 254 18⟩]) ∧
    (∃ lvl, load fileTerrain defaultOptions envHeight2 = Outcome.scene lvl ∧
      lvl.terrain_lightmaps = [⟨3, 2, some 7, field fileTerrain 254 18⟩] ∧
      lvl.terrain_lightmaps ≠ [⟨2, 3, some 7, field fileTerrain 254 18⟩]) :=
  ⟨by decide, by decide, by decide, by decide, by decide, by decide,
    ⟨_, rfl, by decide, by decide⟩, ⟨_, rfl, by decide, by decide⟩⟩

end WMB

namespace WMB
open Rd

/-! ## Short reads (C20) -/

/-- A file shorter than the 164 bytes of the header: the first read of `load`
never ends. -/
theorem load_short_header (data : List Byte) (options : LoadOptions) (env : Env)
    (h : data.length < 164) : load data options env = Outcome.stop Halt.hang := by
  have hr : Rd.read 164 data 0 = Res.halt Halt.hang :=
    run_read_hang (by decide) (by omega)
  unfold load loadM
  rw [run_bind_halt hr]

/-- Every way in which a read of the byte source ends without the bytes is the
endless loop: `File::read` has no failure exit. -/
theorem read_never_fails (n : Nat) (d : List Byte) (p : Nat) :
    Rd.read n d p = Res.ok (field d p n) (p + n) ∨ Rd.read n d p = Res.halt Halt.hang := by
  unfold Rd.read
  by_cases h0 : n = 0
  · subst h0
    left
    simp [field]
  · by_cases h1 : p + n ≤ d.length
    · left
      simp [h0, h1]
    · right
      simp [h0, h1]

set_option maxRecDepth 100000 in
/-- C20 (the code at the failing inputs): on `fileShort`, 100 bytes and so
shorter than the header, and on `fileTexTruncated`, which ends 8 bytes into the
16 declared payload bytes of its texture, the read loop of `File::read` gets 0
bytes from `fread` at the end of the file and never ends: `load` neither fails
nor returns. -/
theorem short_read_never_ends :
    fileShort.length = 100 ∧
    load fileShort defaultOptions env0 = Outcome.stop Halt.hang ∧
    texCount fileTexTruncated = 1 ∧ texType fileTexTruncated 0 = 5 ∧
    texWidth fileTexTruncated 0 = 2 ∧ texHeight fileTexTruncated 0 = 2 ∧
    fileTexTruncated.length = texPos fileTexTruncated 0 + 40 + 8 ∧
    load fileTexTruncated defaultOptions env0 = Outcome.stop Halt.hang :=
  ⟨by decide, load_short_header fileShort defaultOptions env0 (by decide), by decide, by decide,
    by decide, by decide, by decide, by decide⟩

end WMB

namespace WMB
open Rd

/-! ## Colors (C21) -/

theorem select_eq (val byte : Nat) : select val byte = val / 2 ^ (4 * byte) % 256 := by
  unfold select
  rw [Nat.shiftRight_eq_div_pow]
  exact Nat.and_pow_two_sub_one_eq_mod _ 8

/-- The color that the code makes of a word depends on the low 20 bits of the
word only: `select` shifts by `4 * byte`, so the four components are cut from
the bits 12..19, 8..15, 4..11 and 0..7. -/
theorem toColor_low_bits (val : Nat) : toColor val = toColor (val % 2 ^ 20) := by
  have h3 : select val 3 = select (val % 2 ^ 20) 3 := by
    rw [select_eq, select_eq]
    omega
  have h2 : select val 2 = select (val % 2 ^ 20) 2 := by
    rw [select_eq, select_eq]
    omega
  have h1 : select val 1 = select (val % 2 ^ 20) 1 := by
    rw [select_eq, select_eq]
    omega
  have h0 : select val 0 = select (val % 2 ^ 20) 0 := by
    rw [select_eq, select_eq]
    omega
  unfold toColor
  rw [h3, h2, h1, h0]

set_option maxRecDepth 100000 in
/-- C21 (the code at the failing input): for the word 0xFF000000 the
specification gives the components (1, 0, 0, 0); `toColor` returns
(0, 0, 0, 0), since `select` shifts by `4 * byte` instead of `8 * byte`.  For
the word 0x00000010, whose bytes 1, 2 and 3 are zero, the third component of
`toColor` is 1/255 and not 0: it is cut from the bits 4..11.  The Info record
of `fileMinimal` holds the sun color 0xFF000000 and is decoded with the sun
color (0, 0, 0, 0). -/
theorem color_bytes_misaligned :
    specToColor 0xFF000000 = ⟨F32.one, 0, 0, 0⟩ ∧
    toColor 0xFF000000 = ⟨0, 0, 0, 0⟩ ∧
    specToColor 0x00000010 = ⟨0, 0, 0, 0x3D808081⟩ ∧
    toColor 0x00000010 = ⟨0, 0, 0x3B808081, 0x3D808081⟩ ∧
    uintAt fileMinimal (objPos fileMinimal 0 + 4 + 38) 4 = 0xFF000000 ∧
    ∃ lvl, load fileMinimal defaultOptions env0 = Outcome.scene lvl ∧
      lvl.info.sunColor = ⟨0, 0, 0, 0⟩ ∧
      lvl.info.sunColor ≠ specToColor 0xFF000000 :=
  ⟨by decide!, by decide!, by decide!, by decide!, by decide, _, rfl, by decide!, by decide!⟩

end WMB

namespace WMB
open Rd

/-! ## The object sequence (C22) -/

theorem loadRegion_ok_inv {env : Env} {d : List Byte} {p q : Nat} {o : Object}
    (h : loadRegion env d p = Res.ok o q) :
    ∃ r, o = Object.region r ∧ r.minimum = vec3At d p ∧ r.maximum = vec3At d (p + 12) := by
  unfold loadRegion at h
  obtain ⟨rfl, hlen, _⟩ := read_pure_ok_inv h
  refine ⟨_, rfl, ?_, ?_⟩
  · show vec3At (field d p 64) 0 = _
    rw [vec3At_field _ _ _ _ (by omega)]
    rfl
  · show vec3At (field d p 64) 12 = _
    rw [vec3At_field _ _ _ _ (by omega)]

/-- An iteration of the object loop on a record other than an Info appends the
object that the decoder of the tag returns. -/
theorem loadObject_push_inv {options : LoadOptions} {env : Env} {base off : Nat}
    {st st1 : ObjState} {d : List Byte} {p q : Nat}
    (h : loadObject options env base st off d p = Res.ok st1 q)
    (hne : uintAt d ((base + off) % 2 ^ 32) 4 ≠ 5) :
    ∃ o, decoderOf options env (uintAt d ((base + off) % 2 ^ 32) 4) d
        ((base + off) % 2 ^ 32 + 4) = Res.ok o q ∧ st1 = push st o := by
  unfold loadObject at h
  obtain ⟨u, r, h1, h2⟩ := bind_ok_inv h
  rw [run_seek] at h1
  simp only [Res.ok.injEq, true_and] at h1
  subst h1
  obtain ⟨t, r, h3, h4⟩ := bind_ok_inv h2
  obtain ⟨rfl, h5, rfl⟩ := readU32_ok_inv h3
  unfold decoderOf
  generalize uintAt d ((base + off) % 2 ^ 32) 4 = t at h4 hne ⊢
  simp only [run_ite] at h4 ⊢
  split_ifs at h4 ⊢ with c5 c2 c6 c1 c4 c7 c3
  all_goals exact push_ok_inv h4

/-- An iteration of the object loop on an Info record appends nothing. -/
theorem loadObject_info_objects {options : LoadOptions} {env : Env} {base off : Nat}
    {st st1 : ObjState} {d : List Byte} {p q : Nat}
    (h : loadObject options env base st off d p = Res.ok st1 q)
    (htag : uintAt d ((base + off) % 2 ^ 32) 4 = 5) : st1.objects = st.objects := by
  obtain ⟨_, h1 | h1⟩ := loadObject_ok_inv h
  · cases hs : st.hasInfo with
    | true =>
      have := loadInfo_later_inv hs h1.2
      subst this
      rfl
    | false => exact (loadInfo_first_inv hs h1.2).2.2.2.1
  · exact absurd htag h1.1

/-- The object that the decoder of a tag returns is of the variant of the tag. -/
theorem decoderOf_variant {options : LoadOptions} {env : Env} {tag : Nat} {d : List Byte}
    {p q : Nat} {o : Object} (h : decoderOf options env tag d p = Res.ok o q) :
    variantTag o = tag := by
  unfold decoderOf at h
  simp only [run_ite] at h
  split_ifs at h with c2 c6 c1 c4 c7 c3 c8
  · obtain ⟨l, rfl, _⟩ := loadLight_ok_inv h
    exact c2.symm
  · obtain ⟨l, rfl, _⟩ := loadPath_ok_inv h
    exact c6.symm
  · obtain ⟨l, rfl, _⟩ := loadPosition_ok_inv h
    exact c1.symm
  · obtain ⟨l, rfl, _⟩ := loadSound_ok_inv h
    exact c4.symm
  · unfold loadEntity at h
    obtain ⟨rfl, _, _⟩ := read_pure_ok_inv h
    exact c7.symm
  · unfold loadOldEntity at h
    obtain ⟨rfl, _, _⟩ := read_pure_ok_inv h
    exact c3.symm
  · obtain ⟨l, rfl, _⟩ := loadRegion_ok_inv h
    exact c8.symm
  · simp [run_stop] at h

/-- The objects that a completed object loop has appended: one for each entry
of the table that does not point at an Info record, in the order of the table,
each the object that the decoder of its tag returns on its record. -/
theorem loadObjectList_objects {options : LoadOptions} {env : Env} {base : Nat}
    {l : List Nat} {st st1 : ObjState} {d : List Byte} {p q : Nat}
    (h : loadObjectList options env base l st d p = Res.ok st1 q) :
    ∃ os, st1.objects = st.objects ++ os ∧
      List.Forall₂ (fun off o => ∃ r, decoderOf options env (uintAt d ((base + off) % 2 ^ 32) 4) d
          ((base + off) % 2 ^ 32 + 4) = Res.ok o r)
        (l.filter (fun off => decide (uintAt d ((base + off) % 2 ^ 32) 4 ≠ 5))) os := by
  induction l generalizing st p with
  | nil =>
    rw [loadObjectList_nil] at h
    simp only [Res.ok.injEq] at h
    obtain ⟨rfl, _⟩ := h
    exact ⟨[], by simp, by simp⟩
  | cons x l ih =>
    unfold loadObjectList at h
    obtain ⟨st2, r, h1, h2⟩ := bind_ok_inv h
    obtain ⟨os, e1, e2⟩ := ih h2
    by_cases htag : uintAt d ((base + x) % 2 ^ 32) 4 = 5
    · refine ⟨os, ?_, ?_⟩
      · rw [e1, loadObject_info_objects h1 htag]
      · have hp : ¬ decide (uintAt d ((base + x) % 2 ^ 32) 4 ≠ 5) = true := by
          rw [decide_eq_true_eq]
          exact not_not.mpr htag
        rw [List.filter_cons]
        rw [if_neg hp]
        exact e2
    · obtain ⟨o, g1, rfl⟩ := loadObject_push_inv h1 htag
      refine ⟨o :: os, ?_, ?_⟩
      · rw [e1]
        simp [push]
      · have hp : decide (uintAt d ((base + x) % 2 ^ 32) 4 ≠ 5) = true := decide_eq_true htag
        rw [List.filter_cons]
        rw [if_pos hp]
        exact List.Forall₂.cons ⟨_, g1⟩ e2

/-- The objects of a returned scene: one for each entry of the offset table
that does not point at an Info record, in the order of the table, each the
object that the decoder of its tag returns on its record. -/
theorem load_objects_inv {data : List Byte} {options : LoadOptions} {env : Env} {lvl : Level}
    (h : load data options env = Outcome.scene lvl) :
    List.Forall₂ (fun i o => ∃ r, decoderOf options env (objTag data i) data
        (objPos data i + 4) = Res.ok o r)
      ((List.range (objCount data)).filter (fun i => decide (objTag data i ≠ 5))) lvl.objects := by
  obtain ⟨_, _, tex, mat, blk, p1, p2, p3, q, _, _, _, _, h5⟩ := load_scene_inv h
  obtain ⟨st, r, lms, r2, tl, h6, _, _, _, rfl⟩ := loadFrom_ok_inv h5
  obtain ⟨os, e1, e2⟩ := loadObjectList_objects h6
  simp only [List.nil_append] at e1
  show List.Forall₂ _ _ st.objects
  rw [e1]
  unfold objTable at e2
  rw [List.filter_map, List.forall₂_map_left_iff] at e2
  exact e2

end WMB

namespace WMB
open Rd

theorem forall₂_map_eq {α β γ : Type} {R : α → β → Prop} {f : α → γ} {g : β → γ}
    (hR : ∀ a b, R a b → g b = f a) {l : List α} {u : List β} (h : List.Forall₂ R l u) :
    u.map g = l.map f := by
  induction h with
  | nil => rfl
  | cons hab _ ih => simp only [List.map_cons, hR _ _ hab, ih]

/-- C22: in a scene that `load` returns for a file with the object count `n`,
the object sequence holds one object for each entry of the offset table that
does not point at an Info record (tag 5), in the order of the table, each the
object that the decoder of its tag returns on its record and so of the variant
of its tag (1 Position, 2 Light, 4 Sound, 6 Path, 8 Region, 3 and 7 Entity):
the tags of the decoded objects are the tags of the table without the Info
tags, and the sequence has `n - m` elements for `m` Info entries. -/
theorem object_sequence (data : List Byte) (options : LoadOptions) (env : Env) (lvl : Level)
    (h : load data options env = Outcome.scene lvl) :
    lvl.objects.map variantTag =
      ((List.range (objCount data)).map (objTag data)).filter (fun t => decide (t ≠ 5)) ∧
    lvl.objects.length =
      objCount data -
        ((List.range (objCount data)).filter (fun i => decide (objTag data i = 5))).length ∧
    ((List.range (objCount data)).filter (fun i => decide (objTag data i = 5))).length
      ≤ objCount data ∧
    List.Forall₂ (fun i o => ∃ r, decoderOf options env (objTag data i) data
        (objPos data i + 4) = Res.ok o r)
      ((List.range (objCount data)).filter (fun i => decide (objTag data i ≠ 5))) lvl.objects := by
  have hall := load_objects_inv h
  have hlen := hall.length_eq
  have hsplit := List.length_eq_length_filter_add (l := List.range (objCount data))
    (fun i => decide (objTag data i ≠ 5))
  have hnot : (List.range (objCount data)).filter (fun i => !decide (objTag data i ≠ 5)) =
      (List.range (objCount data)).filter (fun i => decide (objTag data i = 5)) := by
    apply List.filter_congr
    intro i _
    by_cases hi : objTag data i = 5 <;> simp [hi]
  rw [hnot, List.length_range] at hsplit
  refine ⟨?_, by omega, by omega, hall⟩
  rw [List.filter_map]
  exact forall₂_map_eq (fun i o hio => by
    obtain ⟨r, hr⟩ := hio
    exact decoderOf_variant hr) hall

set_option maxRecDepth 100000 in
/-- The theorem of C22 on `fileObjects`, whose table points at a Light, an
Info, a Position, a second Info, a Region, a Sound and a Path: the scene holds
the five objects Light, Position, Region, Sound, Path, in this order. -/
theorem object_sequence_witness :
    ∃ lvl, load fileObjects defaultOptions env0 = Outcome.scene lvl ∧
      objCount fileObjects = 7 ∧
      (List.range (objCount fileObjects)).map (objTag fileObjects) = [2, 5, 1, 5, 8, 4, 6] ∧
      lvl.objects.map variantTag = [2, 1, 8, 4, 6] ∧ lvl.objects.length = 5 := by
  have hrun : ∃ lvl, load fileObjects defaultOptions env0 = Outcome.scene lvl := ⟨_, rfl⟩
  obtain ⟨lvl, h⟩ := hrun
  obtain ⟨h1, h2, _, _⟩ := object_sequence fileObjects defaultOptions env0 lvl h
  refine ⟨lvl, h, by decide, by decide, ?_, ?_⟩
  · rw [h1]
    decide
  · rw [h2]
    decide

end WMB

namespace WMB
open Rd

/-! ## The objects section at offset zero (C23) -/

theorem headerOf_objects_offset (data : List Byte) :
    (headerOf data).objects.offset = uintAt data 124 4 := by
  unfold headerOf parseHeader listAt
  exact uintAt_field data 0 164 124 4 (by omega)

theorem uintAt_zero_of_magic {data : List Byte} (hmagic : data.take 4 = magic) :
    uintAt data 0 4 = 0x37424D57 := by
  unfold uintAt field
  rw [List.drop_zero, hmagic]
  decide

/-- C23: in a file with valid magic whose objects directory entry has the
offset 0, the object decoder, which seeks to that offset without a guard, reads
the object count at the file position 0, where the magic lies: the count is
0x37424D57, the little-endian value of "WMB7", and the offset table is the
words from the position 4 on.  The entry 30 of that table is the objects
offset itself, 0, and points at the magic as a record with the tag 0x37424D57,
so `load` returns no scene at all, and in particular never one with an empty
object list.  The texture, material, block, lightmap and terrain lightmap
decoders return the empty list when their offset is 0. -/
theorem objects_offset_zero (data : List Byte) (options : LoadOptions) (env : Env)
    (hmagic : data.take 4 = magic) (hoff : (headerOf data).objects.offset = 0) :
    (∀ p, (seek (headerOf data).objects.offset >>= fun _ => readU32) data p
      = Res.ok 0x37424D57 4) ∧
    objCount data = 0x37424D57 ∧ objCount data ≠ 0 ∧
    (∀ i, objEntry data i = uintAt data (4 + 4 * i) 4) ∧
    (objEntry data 30 = 0 ∧ objTag data 30 = 0x37424D57) ∧
    (∃ e, load data options env = Outcome.stop e) ∧
    ((headerOf data).textures.offset = 0 →
      ∀ p, loadTextures env (headerOf data) data p = Res.ok [] p) ∧
    ((headerOf data).materials.offset = 0 →
      ∀ p, loadMaterials env (headerOf data) data p = Res.ok [] p) ∧
    ((headerOf data).blocks.offset = 0 →
      ∀ p, loadBlocks options (headerOf data) data p = Res.ok [] p) ∧
    ((headerOf data).lightmaps.offset = 0 →
      ∀ size p, loadLightmaps (headerOf data) size data p = Res.ok [] p) ∧
    ((headerOf data).lightmaps_terrain.offset = 0 →
      ∀ p, loadTerrain env (headerOf data) data p = Res.ok [] p) := by
  have hlen : 0 + 4 ≤ data.length := by
    have := congrArg List.length hmagic
    simp only [List.length_take, magic, List.length_cons, List.length_nil] at this
    omega
  have hcount : objCount data = 0x37424D57 := by
    unfold objCount
    rw [hoff]
    exact uintAt_zero_of_magic hmagic
  have hentry : ∀ i, objEntry data i = uintAt data (4 + 4 * i) 4 := by
    intro i
    unfold objEntry
    rw [hoff, Nat.zero_add]
  have h30 : objEntry data 30 = 0 := by
    rw [hentry 30, ← hoff, headerOf_objects_offset]
  have htag : objTag data 30 = 0x37424D57 := by
    unfold objTag recTag recPos
    rw [h30, hoff]
    exact uintAt_zero_of_magic hmagic
  refine ⟨?_, hcount, by rw [hcount]; decide, hentry, ⟨h30, htag⟩, ?_, ?_, ?_, ?_, ?_, ?_⟩
  · intro p
    rw [run_bind, run_seek, hoff]
    dsimp only
    rw [run_readU32_ok hlen, uintAt_zero_of_magic hmagic]
  · apply stop_of_no_scene
    intro lvl h
    obtain ⟨_, _, tex, mat, blk, p1, p2, p3, q, _, _, _, _, h5⟩ := load_scene_inv h
    obtain ⟨st, r, lms, r2, tl, h6, _⟩ := loadFrom_ok_inv h5
    have hi : 30 < objCount data := by rw [hcount]; decide
    rw [objTable_split data hi] at h6
    obtain ⟨st1, r1, st2, r3, _, h7, _⟩ := loadObjectList_split_inv h6
    obtain ⟨_, h8 | h8⟩ := loadObject_ok_inv h7
    · have : objTag data 30 = 5 := h8.1
      rw [htag] at this
      exact absurd this (by decide)
    · have h10 : objTag data 30 ≤ 8 := h8.2.2.1
      rw [htag] at h10
      exact absurd h10 (by decide)
  · intro h0 p
    unfold loadTextures
    rw [run_ite, if_neg (not_not.mpr h0)]
    rfl
  · intro h0 p
    unfold loadMaterials
    rw [run_ite, if_neg (not_not.mpr h0)]
    rfl
  · intro h0 p
    unfold loadBlocks
    rw [run_ite, if_neg (not_not.mpr h0)]
    rfl
  · intro h0 size p
    unfold loadLightmaps
    rw [run_ite, if_neg (not_not.mpr h0)]
    rfl
  · intro h0 p
    unfold loadTerrain
    rw [run_ite, if_neg (not_not.mpr h0)]
    rfl

set_option maxRecDepth 100000 in
/-- The theorem of C23 on `fileHeaderOnly`, the 164 header bytes with valid
magic and every directory entry zero: the object count is 0x37424D57 and
`load` returns no scene; it reads the offset table up to the end of the file
and then never ends. -/
theorem objects_offset_zero_witness :
    objCount fileHeaderOnly = 0x37424D57 ∧
    (∃ e, load fileHeaderOnly defaultOptions env0 = Outcome.stop e) ∧
    loadTextures env0 (headerOf fileHeaderOnly) fileHeaderOnly 164 = Res.ok [] 164 ∧
    load fileHeaderOnly defaultOptions env0 = Outcome.stop Halt.hang :=
  have h := objects_offset_zero fileHeaderOnly defaultOptions env0 (by decide) (by decide)
  ⟨h.2.1, h.2.2.2.2.2.1, h.2.2.2.2.2.2.1 (by decide) 164, by decide⟩

end WMB

namespace WMB
open Rd

/-! ## Bounds and the coordinate mapper (C24) -/

/-- Two loops whose bodies succeed together and leave the same cursor succeed
together, with related results. -/
theorem times_rel {α β : Type} {R : α → β → Prop} {x : Rd α} {y : Rd β} {d : List Byte}
    (hxy : ∀ p a q, x d p = Res.ok a q → ∃ b, y d p = Res.ok b q ∧ R a b) (n : Nat)
    {p q : Nat} {l : List α} (h : times n x d p = Res.ok l q) :
    ∃ u, times n y d p = Res.ok u q ∧ List.Forall₂ R l u := by
  induction n generalizing p q l with
  | zero =>
    simp only [times, run_pure, Res.ok.injEq] at h
    obtain ⟨rfl, rfl⟩ := h
    exact ⟨[], rfl, List.Forall₂.nil⟩
  | succ n ih =>
    unfold times at h ⊢
    obtain ⟨a, r, h1, h2⟩ := bind_ok_inv h
    obtain ⟨rest, r2, h3, h4⟩ := bind_ok_inv h2
    simp only [run_pure, Res.ok.injEq] at h4
    obtain ⟨rfl, rfl⟩ := h4
    obtain ⟨b, g1, g2⟩ := hxy _ _ _ h1
    obtain ⟨u, g3, g4⟩ := ih h3
    refine ⟨b :: u, ?_, List.Forall₂.cons g2 g4⟩
    rw [run_bind_ok g1, run_bind_ok g3]
    rfl

/-- The elements of a completed loop are results of its body. -/
theorem times_ok_mem {α : Type} {x : Rd α} {d : List Byte} (n : Nat) {p q : Nat} {l : List α}
    (h : times n x d p = Res.ok l q) : ∀ a ∈ l, ∃ r s, x d r = Res.ok a s := by
  induction n generalizing p q l with
  | zero =>
    simp only [times, run_pure, Res.ok.injEq] at h
    obtain ⟨rfl, _⟩ := h
    simp
  | succ n ih =>
    unfold times at h
    obtain ⟨a, r, h1, h2⟩ := bind_ok_inv h
    obtain ⟨rest, r2, h3, h4⟩ := bind_ok_inv h2
    simp only [run_pure, Res.ok.injEq] at h4
    obtain ⟨rfl, _⟩ := h4
    intro b hb
    rcases List.mem_cons.mp hb with rfl | hb
    · exact ⟨_, _, h1⟩
    · exact ih h3 b hb

theorem read_pure_rel {α β : Type} (f : List Byte → α) (g : List Byte → β) (sz : Nat)
    (d : List Byte) (p : Nat) (a : α) (q : Nat)
    (h : (Rd.read sz >>= fun bs => (Pure.pure (f bs) : Rd α)) d p = Res.ok a q) :
    ∃ b, (Rd.read sz >>= fun bs => (Pure.pure (g bs) : Rd β)) d p = Res.ok b q ∧ True := by
  obtain ⟨bs, r, h1, h2⟩ := bind_ok_inv h
  simp only [run_pure, Res.ok.injEq] at h2
  obtain ⟨_, rfl⟩ := h2
  exact ⟨g bs, by rw [run_bind_ok h1]; rfl, trivial⟩

/-- The block decoder reads the same bytes under every convention: it returns
under one exactly if it returns under the other, with the same cursor and the
same bounding box. -/
theorem loadBlock_convention (o1 o2 : LoadOptions) (d : List Byte) (p : Nat) (b1 : Block)
    (q : Nat) (h : loadBlock o1 d p = Res.ok b1 q) :
    ∃ b2, loadBlock o2 d p = Res.ok b2 q ∧ b1.bounds = b2.bounds := by
  unfold loadBlock at h ⊢
  obtain ⟨bl, r1, h1, h2⟩ := bind_ok_inv h
  obtain ⟨vs, r2, h3, h4⟩ := bind_ok_inv h2
  obtain ⟨ts, r3, h5, h6⟩ := bind_ok_inv h4
  obtain ⟨ss, r4, h7, h8⟩ := bind_ok_inv h6
  simp only [run_pure, Res.ok.injEq] at h8
  obtain ⟨rfl, rfl⟩ := h8
  rw [loadVertex_eq] at h3
  rw [loadTriangle_eq] at h5
  obtain ⟨vs2, g3, _⟩ := times_rel (R := fun _ _ => True) (y := loadVertex o2)
    (by rw [loadVertex_eq]; exact read_pure_rel _ _ 28 d) _ h3
  obtain ⟨ts2, g5, _⟩ := times_rel (R := fun _ _ => True) (y := loadTriangle o2)
    (by rw [loadTriangle_eq]; exact read_pure_rel _ _ 12 d) _ h5
  refine ⟨⟨vec3At bl 0, vec3At bl 12, vs2, ts2, ss⟩, ?_, rfl⟩
  rw [run_bind_ok h1, run_bind_ok g3, run_bind_ok g5, run_bind_ok h7]
  rfl

theorem forall₂_bounds {l u : List Block}
    (h : List.Forall₂ (fun b1 b2 => b1.bounds = b2.bounds) l u) :
    u.map Block.bounds = l.map Block.bounds :=
  forall₂_map_eq (fun _ _ hab => hab.symm) h

/-- The block section decoder under two conventions. -/
theorem loadBlocks_convention (o1 o2 : LoadOptions) (header : WMB_HEADER) {d : List Byte}
    {p q : Nat} {bs1 : List Block} (h : loadBlocks o1 header d p = Res.ok bs1 q) :
    ∃ bs2, loadBlocks o2 header d p = Res.ok bs2 q ∧
      bs2.map Block.bounds = bs1.map Block.bounds := by
  unfold loadBlocks at h ⊢
  by_cases hoff : header.blocks.offset ≠ 0
  · rw [run_ite, if_pos hoff] at h ⊢
    rw [run_bind, run_seek] at h ⊢
    dsimp only at h ⊢
    obtain ⟨n, r, h1, h2⟩ := bind_ok_inv h
    obtain ⟨bs2, g1, g2⟩ := times_rel (loadBlock_convention o1 o2 d) n h2
    exact ⟨bs2, by rw [run_bind_ok h1]; exact g1, forall₂_bounds g2⟩
  · rw [run_ite, if_neg hoff] at h ⊢
    simp only [run_pure, Res.ok.injEq] at h
    obtain ⟨rfl, rfl⟩ := h
    exact ⟨[], rfl, rfl⟩

/-- The blocks of a completed block section decoder are results of the block
decoder. -/
theorem loadBlocks_ok_mem {options : LoadOptions} {header : WMB_HEADER} {d : List Byte}
    {p q : Nat} {bs : List Block} (h : loadBlocks options header d p = Res.ok bs q) :
    ∀ b ∈ bs, ∃ r s, loadBlock options d r = Res.ok b s := by
  unfold loadBlocks at h
  by_cases hoff : header.blocks.offset ≠ 0
  · rw [run_ite, if_pos hoff, run_bind, run_seek] at h
    dsimp only at h
    obtain ⟨n, r, h1, h2⟩ := bind_ok_inv h
    exact times_ok_mem n h2
  · rw [run_ite, if_neg hoff] at h
    simp only [run_pure, Res.ok.injEq] at h
    obtain ⟨rfl, _⟩ := h
    simp

theorem forall₂_mem_right {α β : Type} {R : α → β → Prop} {l : List α} {u : List β}
    (h : List.Forall₂ R l u) : ∀ b ∈ u, ∃ a ∈ l, R a b := by
  induction h with
  | nil => simp
  | cons hab _ ih =>
    intro b hb
    rcases List.mem_cons.mp hb with rfl | hb
    · exact ⟨_, List.mem_cons_self _ _, hab⟩
    · obtain ⟨a, ha, hr⟩ := ih b hb
      exact ⟨a, List.mem_cons_of_mem _ ha, hr⟩

theorem forall₂_get_right {α β : Type} {R : α → β → Prop} {l : List α} {u : List β}
    (h : List.Forall₂ R l u) : ∀ k b, u.get? k = some b → ∃ a, l.get? k = some a ∧ R a b := by
  induction h with
  | nil => simp
  | cons hab _ ih =>
    intro k b hb
    cases k with
    | zero =>
      simp only [List.get?_cons_zero, Option.some.injEq] at hb
      subst hb
      exact ⟨_, rfl, hab⟩
    | succ k =>
      simp only [List.get?_cons_succ] at hb ⊢
      exact ih k b hb

theorem forall₂_get_left {α β : Type} {R : α → β → Prop} {l : List α} {u : List β}
    (h : List.Forall₂ R l u) : ∀ k a, l.get? k = some a → ∃ b, u.get? k = some b ∧ R a b := by
  induction h with
  | nil => simp
  | cons hab _ ih =>
    intro k a ha
    cases k with
    | zero =>
      simp only [List.get?_cons_zero, Option.some.injEq] at ha
      subst ha
      exact ⟨_, rfl, hab⟩
    | succ k =>
      simp only [List.get?_cons_succ] at ha ⊢
      exact ih k a ha

/-- A Region comes from a record with the tag 8, read by the Region decoder. -/
theorem decoderOf_region {options : LoadOptions} {env : Env} {tag : Nat} {d : List Byte}
    {p q : Nat} {r : Region} (h : decoderOf options env tag d p = Res.ok (Object.region r) q) :
    tag = 8 ∧ loadRegion env d p = Res.ok (Object.region r) q := by
  have ht : tag = 8 := (decoderOf_variant h).symm
  subst ht
  exact ⟨rfl, h⟩

end WMB

namespace WMB
open Rd

set_option maxRecDepth 100000 in
/-- C24: in a scene that `load` returns, under any convention, every block has
the bounding box of its `BLOCK` record as stored (`fMins`, `fMaxs`), while the
positions of its vertices are the stored vectors passed through the position
mapper; every Region has the `min` and `max` vectors of its record as stored.
So a second convention that also yields a scene yields the same bounding boxes
and the same Regions.  The position mapper leaves every finite vector as it is
(`==`) under the native convention and moves (1, 2, 3) under the two others. -/
theorem bounds_bypass_mapper (data : List Byte) (options : LoadOptions) (env : Env)
    (lvl : Level) (h : load data options env = Outcome.scene lvl) :
    (∀ b ∈ lvl.blocks, ∃ p q, loadBlock options data p = Res.ok b q ∧
      b.bbMin = vec3At data p ∧ b.bbMax = vec3At data (p + 12) ∧
      b.vertices.map (fun v => v.position) =
        (List.range (uintAt data (p + 28) 4)).map
          (fun i => mapVec options (vec3At data (p + 40 + i * 28)))) ∧
    (∀ r, Object.region r ∈ lvl.objects →
      ∃ i, i < objCount data ∧ objTag data i = 8 ∧
        r.minimum = vec3At data (objPos data i + 4) ∧
        r.maximum = vec3At data (objPos data i + 16)) ∧
    (∀ other lvl2, load data other env = Outcome.scene lvl2 →
      lvl2.blocks.map Block.bounds = lvl.blocks.map Block.bounds ∧
      ∀ k r, lvl.objects.get? k = some (Object.region r) →
        lvl2.objects.get? k = some (Object.region r)) ∧
    (options.targetCoordinateSystem = CoordinateSystem.Gamestudio →
      ∀ v : Vec3, v.IsFloat → v.finite = true → Vec3.numEq (mapVec options v) v = true) ∧
    (options.targetCoordinateSystem ≠ CoordinateSystem.Gamestudio →
      Vec3.numEq (mapVec options vecOneTwoThree) vecOneTwoThree = false) := by
  obtain ⟨p1, p2, p3, _, _, hT, hM, hB, _⟩ := load_scene_sections h
  have hobj := load_objects_inv h
  refine ⟨?_, ?_, ?_, ?_, ?_⟩
  · intro b hb
    obtain ⟨r, s, hrun⟩ := loadBlocks_ok_mem hB b hb
    obtain ⟨_, e1, e2, e3, _⟩ := loadBlock_ok_inv hrun
    refine ⟨r, s, hrun, e1, e2, ?_⟩
    rw [e3, List.map_map]
    rfl
  · intro r hr
    obtain ⟨i, hi, q, hdec⟩ := forall₂_mem_right hobj _ hr
    obtain ⟨htag, hreg⟩ := decoderOf_region hdec
    obtain ⟨r', hr', e1, e2⟩ := loadRegion_ok_inv hreg
    cases hr'
    have hlt : i < objCount data := List.mem_range.mp (List.mem_filter.mp hi).1
    exact ⟨i, hlt, htag, e1, by rw [e2]⟩
  · intro other lvl2 h2
    obtain ⟨p1', p2', p3', _, _, hT2, hM2, hB2, _⟩ := load_scene_sections h2
    have hobj2 := load_objects_inv h2
    have ep1 : p1' = p1 := by
      have := hT.symm.trans hT2
      simp only [Res.ok.injEq] at this
      exact this.2.symm
    subst ep1
    have ep2 : p2' = p2 := by
      have := hM.symm.trans hM2
      simp only [Res.ok.injEq] at this
      exact this.2.symm
    subst ep2
    constructor
    · obtain ⟨bs2, g1, g2⟩ := loadBlocks_convention options other (headerOf data) hB
      have := g1.symm.trans hB2
      simp only [Res.ok.injEq] at this
      rw [← this.1]
      exact g2
    · intro k r hk
      obtain ⟨i, hi, q, hdec⟩ := forall₂_get_right hobj k _ hk
      obtain ⟨htag, hreg⟩ := decoderOf_region hdec
      obtain ⟨o2, ho2, q2, hdec2⟩ := forall₂_get_left hobj2 k i hi
      rw [htag] at hdec2
      have hreg2 : loadRegion env data (objPos data i + 4) = Res.ok o2 q2 := hdec2
      have := hreg.symm.trans hreg2
      simp only [Res.ok.injEq] at this
      rw [ho2, ← this.1]
  · intro hopt v hv hfin
    obtain ⟨nx, ny, nz⟩ := mapVec_native_near options v hopt hv hfin
    exact numEq_of_near hfin nx ny nz
  · intro hopt
    obtain ⟨cs, fl⟩ := options
    cases cs
    · exact absurd rfl hopt
    · show Vec3.numEq (vecMulMat vecOneTwoThree (mapMatrix CoordinateSystem.OpenGL))
        vecOneTwoThree = false
      decide
    · show Vec3.numEq (vecMulMat vecOneTwoThree (mapMatrix CoordinateSystem.DirectX))
        vecOneTwoThree = false
      decide

set_option maxRecDepth 100000 in
/-- The theorem of C24 on `fileBlock` and `fileObjects`: the block is returned
with the bounding box (0, 0, 0), (1, 1, 1) of its record under the native and
under the OpenGL convention, while its first vertex (1, 2, 3) becomes
(-2, 3, -1) under OpenGL; the Region is returned with the bounds (1, 2, 3),
(4, 5, 6) of its record under the native and under the DirectX convention. -/
theorem bounds_bypass_mapper_witness :
    (∃ lvl lvl2, load fileBlock defaultOptions env0 = Outcome.scene lvl ∧
      load fileBlock openGLOptions env0 = Outcome.scene lvl2 ∧
      lvl2.blocks.map Block.bounds = lvl.blocks.map Block.bounds ∧
      lvl.blocks.map Block.bounds = [(⟨0, 0, 0⟩, ⟨0x3F800000, 0x3F800000, 0x3F800000⟩)] ∧
      lvl.blocks.map (fun b => (b.vertices.map (fun v => v.position)).head?)
        = [some ⟨0x3F800000, 0x40000000, 0x40400000⟩] ∧
      lvl2.blocks.map (fun b => (b.vertices.map (fun v => v.position)).head?)
        = [some ⟨0xC0000000, 0x40400000, 0xBF800000⟩]) ∧
    (∃ lvl lvl2 r, load fileObjects defaultOptions env0 = Outcome.scene lvl ∧
      load fileObjects directXOptions env0 = Outcome.scene lvl2 ∧
      lvl.objects.get? 2 = some (Object.region r) ∧
      lvl2.objects.get? 2 = some (Object.region r) ∧
      r.minimum = ⟨0x3F800000, 0x40000000, 0x40400000⟩ ∧
      r.maximum = ⟨0x40800000, 0x40A00000, 0x40C00000⟩) :=
  ⟨⟨_, _, rfl, rfl,
      ((bounds_bypass_mapper fileBlock defaultOptions env0 _ rfl).2.2.1 openGLOptions _ rfl).1,
      by decide, by decide, by decide⟩,
    ⟨_, _, _, rfl, rfl, rfl,
      ((bounds_bypass_mapper fileObjects defaultOptions env0 _ rfl).2.2.1 directXOptions _ rfl).2
        2 _ rfl,
      by decide, by decide⟩⟩

end WMB

namespace WMB
open Rd

/-! ## The ways in which the decoders stop -/

theorem haltsIn_of_onlyHang {α : Type} {S : Halt → Prop} {m : Rd α} (h : OnlyHang m)
    (hS : S Halt.hang) : HaltsIn S m := by
  intro d p e he
  rw [h d p e he]
  exact hS

theorem haltsIn_bind {α β : Type} {S : Halt → Prop} {x : Rd α} {f : α → Rd β}
    (hx : HaltsIn S x) (hf : ∀ a, HaltsIn S (f a)) : HaltsIn S (x >>= f) := by
  intro d p e h
  rcases bind_halt_inv h with h1 | ⟨a, r, _, h2⟩
  · exact hx d p e h1
  · exact hf a d r e h2

theorem haltsIn_pure {α : Type} {S : Halt → Prop} (a : α) : HaltsIn S (Pure.pure a : Rd α) := by
  intro d p e h
  simp [run_pure] at h

theorem haltsIn_stop {α : Type} {S : Halt → Prop} {e : Halt} (h : S e) :
    HaltsIn S (stop e : Rd α) := by
  intro d p e1 h1
  simp only [run_stop, Res.halt.injEq] at h1
  rw [← h1]
  exact h

theorem haltsIn_ite {α : Type} {S : Halt → Prop} (c : Prop) [Decidable c] {x y : Rd α}
    (hx : HaltsIn S x) (hy : HaltsIn S y) : HaltsIn S (if c then x else y) := by
  split
  · exact hx
  · exact hy

theorem onlyHang_seek (o : Nat) : OnlyHang (seek o) := by
  intro d p e h
  simp [run_seek] at h

theorem onlyHang_ite {α : Type} (c : Prop) [Decidable c] {x y : Rd α}
    (hx : OnlyHang x) (hy : OnlyHang y) : OnlyHang (if c then x else y) := by
  split
  · exact hx
  · exact hy

theorem onlyHang_read_pure {α : Type} (n : Nat) (f : List Byte → α) :
    OnlyHang (Rd.read n >>= fun bs => (Pure.pure (f bs) : Rd α)) :=
  onlyHang_bind (onlyHang_read n) (fun _ => onlyHang_pure _)

theorem onlyHang_loadMaterials (env : Env) (header : WMB_HEADER) :
    OnlyHang (loadMaterials env header) := by
  unfold loadMaterials
  apply onlyHang_ite
  · exact onlyHang_bind (onlyHang_seek _)
      (fun _ => onlyHang_times (by rw [loadMaterial_eq]; exact onlyHang_read_pure _ _) _)
  · exact onlyHang_pure _

theorem onlyHang_loadSkin : OnlyHang loadSkin := by
  unfold loadSkin
  exact onlyHang_read_pure _ _

theorem onlyHang_loadBlock (options : LoadOptions) : OnlyHang (loadBlock options) := by
  unfold loadBlock
  apply onlyHang_bind (onlyHang_read _)
  intro bl
  apply onlyHang_bind
    (onlyHang_times (by rw [loadVertex_eq]; exact onlyHang_read_pure _ _) _)
  intro vs
  apply onlyHang_bind
    (onlyHang_times (by rw [loadTriangle_eq]; exact onlyHang_read_pure _ _) _)
  intro ts
  exact onlyHang_bind (onlyHang_times onlyHang_loadSkin _) (fun _ => onlyHang_pure _)

theorem onlyHang_loadBlocks (options : LoadOptions) (header : WMB_HEADER) :
    OnlyHang (loadBlocks options header) := by
  unfold loadBlocks
  apply onlyHang_ite
  · exact onlyHang_bind (onlyHang_seek _)
      (fun _ => onlyHang_bind onlyHang_readU32 (fun _ => onlyHang_times (onlyHang_loadBlock _) _))
  · exact onlyHang_pure _

theorem onlyHang_loadPath (options : LoadOptions) (env : Env) :
    OnlyHang (loadPath options env) := by
  unfold loadPath
  apply onlyHang_bind (onlyHang_read _)
  intro e
  apply onlyHang_bind (onlyHang_times (onlyHang_read _) _)
  intro ps
  apply onlyHang_bind (onlyHang_times (onlyHang_read _) _)
  intro ss
  exact onlyHang_bind (onlyHang_times (onlyHang_read _) _) (fun _ => onlyHang_pure _)

theorem haltsIn_mono {α : Type} {S T : Halt → Prop} {m : Rd α} (h : HaltsIn S m)
    (hST : ∀ e, S e → T e) : HaltsIn T m :=
  fun d p e he => hST e (h d p e he)

/-- A texture iteration stops only by an endless read or in `std::terminate`. -/
theorem haltsIn_loadTexture (env : Env) (base off : Nat) :
    HaltsIn (fun e => e = Halt.hang ∨ e = Halt.terminate) (loadTexture env base off) := by
  intro d p e h
  unfold loadTexture at h
  rw [run_bind, run_seek] at h
  dsimp only at h
  rcases bind_halt_inv h with h1 | ⟨bs, r, h1, h2⟩
  · exact Or.inl (read_halt_inv h1).1
  · rw [run_ite] at h2
    split_ifs at h2 with c6
    · exact Or.inl (onlyHang_bind (onlyHang_read _) (fun _ => onlyHang_pure _) _ _ _ h2)
    · rcases bind_halt_inv h2 with h3 | ⟨bpp, r, _, h4⟩
      · unfold bytesPerPixel at h3
        simp only [run_ite] at h3
        split_ifs at h3 with c2 c4 c5
        · simp [run_pure] at h3
        · simp [run_pure] at h3
        · simp [run_pure] at h3
        · simp only [run_stop, Res.halt.injEq] at h3
          exact Or.inr h3.symm
      · exact Or.inl
          (onlyHang_bind (onlyHang_readLevels _ _) (fun _ => onlyHang_pure _) _ _ _ h4)

theorem haltsIn_loadTextureList (env : Env) (base : Nat) (l : List Nat) :
    HaltsIn (fun e => e = Halt.hang ∨ e = Halt.terminate) (loadTextureList env base l) := by
  intro d p e h
  obtain ⟨x, _, r, h1⟩ := loadTextureList_halt_mem h
  exact haltsIn_loadTexture env base x d r e h1

/-- The texture decoder stops only by an endless read or in `std::terminate`. -/
theorem haltsIn_loadTextures (env : Env) (header : WMB_HEADER) :
    HaltsIn (fun e => e = Halt.hang ∨ e = Halt.terminate) (loadTextures env header) := by
  have hh : ∀ {α : Type} {m : Rd α}, OnlyHang m →
      HaltsIn (fun e => e = Halt.hang ∨ e = Halt.terminate) m :=
    fun h => haltsIn_of_onlyHang h (Or.inl rfl)
  unfold loadTextures
  apply haltsIn_ite
  · exact haltsIn_bind (hh (onlyHang_seek _)) (fun _ =>
      haltsIn_bind (hh onlyHang_readU32) (fun _ =>
        haltsIn_bind (hh (onlyHang_times onlyHang_readU32 _)) (fun offs =>
          haltsIn_loadTextureList env _ offs)))
  · exact haltsIn_pure _

/-- The `Info` case stops only by an endless read or by the exception of
`lightMapSizes.at`. -/
theorem haltsIn_loadInfo (st : ObjState) :
    HaltsIn (fun e => e = Halt.hang ∨ e = Halt.outOfRange) (loadInfo st) := by
  intro d p e h
  unfold loadInfo at h
  rcases bind_halt_inv h with h1 | ⟨bs, r, _, h2⟩
  · exact Or.inl (read_halt_inv h1).1
  · dsimp only at h2
    rw [run_ite] at h2
    split_ifs at h2 with hs
    · simp [run_pure] at h2
    · cases hk : lightMapSizes.get? (parseINFO bs).LMapSize with
      | none =>
        rw [hk] at h2
        simp only [run_stop, Res.halt.injEq] at h2
        exact Or.inr h2.symm
      | some size =>
        rw [hk] at h2
        simp [run_pure] at h2

theorem onlyHang_push {m : Rd Object} (st : ObjState) (hm : OnlyHang m) :
    OnlyHang (m >>= fun o => (Pure.pure (push st o) : Rd ObjState)) :=
  onlyHang_bind hm (fun _ => onlyHang_pure _)

/-- An iteration of the object loop stops only by an endless read, in
`std::terminate` or by the exception of `lightMapSizes.at`. -/
theorem haltsIn_loadObject (options : LoadOptions) (env : Env) (base : Nat) (st : ObjState)
    (off : Nat) :
    HaltsIn (fun e => e = Halt.hang ∨ e = Halt.terminate ∨ e = Halt.outOfRange)
      (loadObject options env base st off) := by
  have hh : ∀ {α : Type} {m : Rd α}, OnlyHang m →
      HaltsIn (fun e => e = Halt.hang ∨ e = Halt.terminate ∨ e = Halt.outOfRange) m :=
    fun h => haltsIn_of_onlyHang h (Or.inl rfl)
  unfold loadObject
  apply haltsIn_bind (hh (onlyHang_seek _))
  intro _
  apply haltsIn_bind (hh onlyHang_readU32)
  intro type
  repeat' apply haltsIn_ite
  · exact haltsIn_mono (haltsIn_loadInfo st) (by
      rintro e (h | h)
      · exact Or.inl h
      · exact Or.inr (Or.inr h))
  · unfold loadLight; exact hh (onlyHang_push st (onlyHang_read_pure _ _))
  · exact hh (onlyHang_push st (onlyHang_loadPath _ _))
  · unfold loadPosition; exact hh (onlyHang_push st (onlyHang_read_pure _ _))
  · unfold loadSound; exact hh (onlyHang_push st (onlyHang_read_pure _ _))
  · unfold loadEntity; exact hh (onlyHang_push st (onlyHang_read_pure _ _))
  · unfold loadOldEntity; exact hh (onlyHang_push st (onlyHang_read_pure _ _))
  · unfold loadRegion; exact hh (onlyHang_push st (onlyHang_read_pure _ _))
  · exact haltsIn_stop (Or.inr (Or.inl rfl))

theorem haltsIn_loadObjectList (options : LoadOptions) (env : Env) (base : Nat) (l : List Nat)
    (st : ObjState) :
    HaltsIn (fun e => e = Halt.hang ∨ e = Halt.terminate ∨ e = Halt.outOfRange)
      (loadObjectList options env base l st) := by
  induction l generalizing st with
  | nil =>
    intro d p e h
    simp [loadObjectList_nil] at h
  | cons x l ih =>
    intro d p e h
    rw [loadObjectList_cons] at h
    cases h1 : loadObject options env base st x d p with
    | ok st1 r =>
      rw [h1] at h
      exact ih st1 d r e h
    | halt e1 =>
      rw [h1] at h
      simp only [Res.halt.injEq] at h
      subst h
      exact haltsIn_loadObject options env base st x d p _ h1

/-- Where a call of `load` that returns no scene has stopped: in an endless
read, at the magic check, in the texture decoder, or in the rest of `load`
behind the object offset table. -/
theorem load_stop_inv {data : List Byte} {options : LoadOptions} {env : Env} {e : Halt}
    (h : load data options env = Outcome.stop e) :
    e = Halt.hang ∨ (e = Halt.nullopt ∧ data.take 4 ≠ magic) ∨
    (∃ p, loadTextures env (headerOf data) data p = Res.halt e) ∨
    (∃ tex p1 mat blk p, loadTextures env (headerOf data) data 164 = Res.ok tex p1 ∧
      loadFrom options env (headerOf data) tex mat blk (objTable data) data p = Res.halt e) := by
  rw [load_eq_outcome] at h
  cases hm : loadM options env data 0 with
  | ok l q => rw [hm] at h; simp [Res.outcome] at h
  | halt e1 =>
    rw [hm] at h
    simp only [Res.outcome, Outcome.stop.injEq] at h
    subst h
    unfold loadM at hm
    rcases bind_halt_inv hm with h1 | ⟨bs, r, h1, h2⟩
    · exact Or.inl (read_halt_inv h1).1
    · obtain ⟨rfl, h3, rfl⟩ := read_ok_inv h1
      dsimp only at h2
      rw [← headerOf, run_ite] at h2
      split_ifs at h2 with hv
      · rw [headerOf_version] at hv
        simp only [run_stop, Res.halt.injEq] at h2
        exact Or.inr (Or.inl ⟨h2.symm, hv⟩)
      · rcases bind_halt_inv h2 with h4 | ⟨tex, p1, htex, h5⟩
        · exact Or.inr (Or.inr (Or.inl ⟨_, h4⟩))
        · rcases bind_halt_inv h5 with h6 | ⟨mat, p2, _, h7⟩
          · exact Or.inl (onlyHang_loadMaterials _ _ _ _ _ h6)
          · rcases bind_halt_inv h7 with h8 | ⟨blk, p3, _, h9⟩
            · exact Or.inl (onlyHang_loadBlocks _ _ _ _ _ h8)
            · rw [run_bind, run_seek] at h9
              dsimp only at h9
              rcases bind_halt_inv h9 with h10 | ⟨n, p5, h10, h11⟩
              · exact Or.inl (onlyHang_readU32 _ _ _ h10)
              · obtain ⟨rfl, _, rfl⟩ := readU32_ok_inv h10
                rcases bind_halt_inv h11 with h12 | ⟨offs, p6, h12, h13⟩
                · exact Or.inl (onlyHang_times onlyHang_readU32 _ _ _ _ h12)
                · have htab := times_readU32_ok_inv _ h12
                  have htab2 : offs = objTable data := by
                    rw [htab]
                    unfold objTable objCount objEntry
                    rfl
                  subst htab2
                  exact Or.inr (Or.inr (Or.inr ⟨tex, p1, mat, blk, p6, htex, h13⟩))

/-- Where the rest of `load` has stopped: in the object loop, or behind a
completed object loop. -/
theorem loadFrom_halt_inv {options : LoadOptions} {env : Env} {header : WMB_HEADER}
    {textures : List Texture} {materials : List Material} {blocks : List Block}
    {offsets : List Nat} {d : List Byte} {p : Nat} {e : Halt}
    (h : loadFrom options env header textures materials blocks offsets d p = Res.halt e) :
    loadObjectList options env header.objects.offset offsets ⟨false, env.uninitInfo, []⟩ d p
      = Res.halt e ∨
    ∃ st r, loadObjectList options env header.objects.offset offsets
      ⟨false, env.uninitInfo, []⟩ d p = Res.ok st r := by
  unfold loadFrom at h
  rcases bind_halt_inv h with h1 | ⟨st, r, h1, _⟩
  · exact Or.inl h1
  · exact Or.inr ⟨st, r, h1⟩

/-! ## Running the decoders forward to the point where they stop -/

theorem run_bytesPerPixel_bad {f : Nat} {d : List Byte} {p : Nat} (h2 : f ≠ 2) (h4 : f ≠ 4)
    (h5 : f ≠ 5) : bytesPerPixel f d p = Res.halt Halt.terminate := by
  unfold bytesPerPixel
  rw [if_neg h2, if_neg h4, if_neg h5]
  rfl

theorem run_bytesPerPixel_raw {f : Nat} {d : List Byte} {p : Nat} (h : f = 2 ∨ f = 4 ∨ f = 5) :
    bytesPerPixel f d p = Res.ok (bppOf f) p := by
  unfold bytesPerPixel bppOf
  rcases h with rfl | rfl | rfl <;> rfl

/-- The iteration of the texture loop on a complete record whose format code is
none of 2, 4, 5, 6: the `default` branch of the `switch` is reached. -/
theorem run_loadTexture_bad (env : Env) {base off : Nat} {d : List Byte} (p : Nat)
    (hr : (base + off) % 2 ^ 32 + 40 ≤ d.length)
    (h2 : uintAt d ((base + off) % 2 ^ 32 + 24) 4 &&& 7 ≠ 2)
    (h4 : uintAt d ((base + off) % 2 ^ 32 + 24) 4 &&& 7 ≠ 4)
    (h5 : uintAt d ((base + off) % 2 ^ 32 + 24) 4 &&& 7 ≠ 5)
    (h6 : uintAt d ((base + off) % 2 ^ 32 + 24) 4 &&& 7 ≠ 6) :
    loadTexture env base off d p = Res.halt Halt.terminate := by
  unfold loadTexture
  rw [run_bind, run_seek]
  dsimp only
  rw [run_bind_ok (run_read_ok hr)]
  rw [parseTEXTURE_type, parseTEXTURE_width, parseTEXTURE_height]
  rw [run_ite, if_neg h6]
  rw [run_bind_halt (run_bytesPerPixel_bad h2 h4 h5)]

/-- The iteration of the texture loop on a complete record of a raw format
whose levels lie inside the file. -/
theorem run_loadTexture_raw (env : Env) {base off : Nat} {d : List Byte} (p : Nat)
    (hraw : uintAt d ((base + off) % 2 ^ 32 + 24) 4 &&& 7 = 2 ∨
      uintAt d ((base + off) % 2 ^ 32 + 24) 4 &&& 7 = 4 ∨
      uintAt d ((base + off) % 2 ^ 32 + 24) 4 &&& 7 = 5)
    (hr : (base + off) % 2 ^ 32 + 40 +
      (loopSizes 3 (bppOf (uintAt d ((base + off) % 2 ^ 32 + 24) 4 &&& 7) *
        uintAt d ((base + off) % 2 ^ 32 + 16) 4 *
        uintAt d ((base + off) % 2 ^ 32 + 20) 4 % 2 ^ 64)).sum ≤ d.length) :
    ∃ t q, loadTexture env base off d p = Res.ok t q := by
  have h6 : uintAt d ((base + off) % 2 ^ 32 + 24) 4 &&& 7 ≠ 6 := by
    rcases hraw with h | h | h <;> rw [h] <;> decide
  unfold loadTexture
  rw [run_bind, run_seek]
  dsimp only
  rw [run_bind_ok (run_read_ok (show (base + off) % 2 ^ 32 + 40 ≤ d.length by omega))]
  rw [parseTEXTURE_type, parseTEXTURE_width, parseTEXTURE_height]
  rw [run_ite, if_neg h6]
  rw [run_bind_ok (run_bytesPerPixel_raw hraw)]
  rw [run_bind_ok (run_readLevels 3 _ hr)]
  exact ⟨_, _, rfl⟩

/-- The iteration of the texture loop on a record that lies inside the file
with its levels: it completes, or it reaches the `default` branch. -/
theorem run_loadTexture_inFile (env : Env) {base off : Nat} {d : List Byte} (p : Nat)
    (h : texInFile d ((base + off) % 2 ^ 32)) :
    (∃ t q, loadTexture env base off d p = Res.ok t q) ∨
    loadTexture env base off d p = Res.halt Halt.terminate := by
  obtain ⟨hr, hdds, hraw⟩ := h
  by_cases c6 : uintAt d ((base + off) % 2 ^ 32 + 24) 4 &&& 7 = 6
  · obtain ⟨t, ht⟩ := run_loadTexture_dds env p c6 (hdds c6)
    exact Or.inl ⟨t, _, ht⟩
  · by_cases c : uintAt d ((base + off) % 2 ^ 32 + 24) 4 &&& 7 = 2 ∨
        uintAt d ((base + off) % 2 ^ 32 + 24) 4 &&& 7 = 4 ∨
        uintAt d ((base + off) % 2 ^ 32 + 24) 4 &&& 7 = 5
    · exact Or.inl (run_loadTexture_raw env p c (hraw c))
    · exact Or.inr (run_loadTexture_bad env p hr (fun h => c (Or.inl h))
        (fun h => c (Or.inr (Or.inl h))) (fun h => c (Or.inr (Or.inr h))) c6)

/-- The texture loop on a table whose entry `x` points at a complete record of
an unknown format, behind entries whose textures lie inside the file: the loop
reaches `std::terminate`, at `x` or before. -/
theorem run_loadTextureList_bad (env : Env) (base : Nat) (l1 : List Nat) (x : Nat)
    (l2 : List Nat) (d : List Byte) (p : Nat)
    (hpre : ∀ y ∈ l1, texInFile d ((base + y) % 2 ^ 32))
    (hr : (base + x) % 2 ^ 32 + 40 ≤ d.length)
    (h2 : uintAt d ((base + x) % 2 ^ 32 + 24) 4 &&& 7 ≠ 2)
    (h4 : uintAt d ((base + x) % 2 ^ 32 + 24) 4 &&& 7 ≠ 4)
    (h5 : uintAt d ((base + x) % 2 ^ 32 + 24) 4 &&& 7 ≠ 5)
    (h6 : uintAt d ((base + x) % 2 ^ 32 + 24) 4 &&& 7 ≠ 6) :
    loadTextureList env base (l1 ++ x :: l2) d p = Res.halt Halt.terminate := by
  induction l1 generalizing p with
  | nil =>
    rw [List.nil_append]
    unfold loadTextureList
    exact run_bind_halt (run_loadTexture_bad env p hr h2 h4 h5 h6)
  | cons y l ih =>
    rw [List.cons_append]
    unfold loadTextureList
    rcases run_loadTexture_inFile env p (hpre y (List.mem_cons_self y l)) with ⟨t, q, h⟩ | h
    · rw [run_bind_ok h]
      exact run_bind_halt (ih q (fun z hz => hpre z (List.mem_cons_of_mem y hz)))
    · exact run_bind_halt h

/-- A call of `load` on a file with the magic and a texture offset table inside
the file stops the way the texture loop stops. -/
theorem load_stop_of_textures {data : List Byte} {options : LoadOptions} {env : Env} {e : Halt}
    (hlen : 164 ≤ data.length) (hmagic : data.take 4 = magic)
    (hoff : (headerOf data).textures.offset ≠ 0)
    (htab : (headerOf data).textures.offset + 4 + 4 * texCount data ≤ data.length)
    (h : loadTextureList env (headerOf data).textures.offset
      ((List.range (texCount data)).map (texEntry data)) data
      ((headerOf data).textures.offset + 4 + 4 * texCount data) = Res.halt e) :
    load data options env = Outcome.stop e := by
  rw [load_eq_outcome]
  have hm : loadM options env data 0 = Res.halt e := by
    unfold loadM
    rw [run_bind_ok (run_read_ok (show 0 + 164 ≤ data.length by omega))]
    rw [← headerOf, run_ite, if_neg (by rw [headerOf_version, hmagic]; simp)]
    apply run_bind_halt
    rw [loadTextures_present hoff]
    rw [run_bind_ok (run_readU32_ok (by omega))]
    have h4 := run_times_readU32_ok (d := data) (texCount data)
      (p := (headerOf data).textures.offset + 4) (by omega)
    have h5 : uintAt data (headerOf data).textures.offset 4 = texCount data := rfl
    rw [h5, run_bind_ok h4]
    exact h
  rw [hm]
  rfl

/-- The iteration of the object loop on a record whose type tag is none of
1..8: the `default` branch of `switch(type)` is reached. -/
theorem run_loadObject_bad_tag (options : LoadOptions) (env : Env) {base off : Nat}
    (st : ObjState) {d : List Byte} (p : Nat) (hr : (base + off) % 2 ^ 32 + 4 ≤ d.length)
    (htag : ¬ (1 ≤ uintAt d ((base + off) % 2 ^ 32) 4 ∧ uintAt d ((base + off) % 2 ^ 32) 4 ≤ 8)) :
    loadObject options env base st off d p = Res.halt Halt.terminate := by
  unfold loadObject
  rw [run_bind, run_seek]
  dsimp only
  rw [run_bind_ok (run_readU32_ok hr)]
  generalize uintAt d ((base + off) % 2 ^ 32) 4 = t at htag ⊢
  have hne : ∀ k, 1 ≤ k → k ≤ 8 → t ≠ k := by
    intro k h1 h8 hk
    exact htag (by omega)
  simp only [run_ite, run_stop]
  rw [if_neg (hne 5 (by decide) (by decide)), if_neg (hne 2 (by decide) (by decide)),
    if_neg (hne 6 (by decide) (by decide)), if_neg (hne 1 (by decide) (by decide)),
    if_neg (hne 4 (by decide) (by decide)), if_neg (hne 7 (by decide) (by decide)),
    if_neg (hne 3 (by decide) (by decide)), if_neg (hne 8 (by decide) (by decide))]

/-- The `Info` iteration on a complete record, when no Info was seen before and
the size selector is above 2: `lightMapSizes.at` throws. -/
theorem run_loadObject_info_bad (options : LoadOptions) (env : Env) {base off : Nat}
    (st : ObjState) {d : List Byte} (p : Nat) (htag : uintAt d ((base + off) % 2 ^ 32) 4 = 5)
    (hr : (base + off) % 2 ^ 32 + 66 ≤ d.length) (hst : st.hasInfo = false)
    (hsel : 3 ≤ uintAt d ((base + off) % 2 ^ 32 + 33) 1) :
    loadObject options env base st off d p = Res.halt Halt.outOfRange := by
  have hk : (parseINFO (field d ((base + off) % 2 ^ 32 + 4) 62)).LMapSize
      = uintAt d ((base + off) % 2 ^ 32 + 33) 1 := by
    simp only [parseINFO]
    exact uintAt_field d _ 62 29 1 (by omega)
  have hnone : lightMapSizes.get? (uintAt d ((base + off) % 2 ^ 32 + 33) 1) = none := by
    apply List.get?_eq_none.mpr
    simp only [lightMapSizes, List.length_cons, List.length_nil]
    omega
  unfold loadObject
  rw [run_bind, run_seek]
  dsimp only
  rw [run_bind_ok (run_readU32_ok (by omega)), htag]
  simp only [↓reduceIte]
  unfold loadInfo
  rw [run_bind_ok (run_read_ok (show (base + off) % 2 ^ 32 + 4 + 62 ≤ d.length by omega))]
  simp only [hst, Bool.false_eq_true, ↓reduceIte, hk, hnone, run_stop]

/-- A call of `load` that reaches the `i`-th iteration of the object loop stops
the way that iteration stops. -/
theorem load_stop_at_object {data : List Byte} {options : LoadOptions} {env : Env} {i : Nat}
    {tex : List Texture} {mat : List Material} {blk : List Block} {p1 p2 p3 r : Nat}
    {st : ObjState} {e : Halt}
    (hlen : 164 ≤ data.length) (hmagic : data.take 4 = magic)
    (htex : loadTextures env (headerOf data) data 164 = Res.ok tex p1)
    (hmat : loadMaterials env (headerOf data) data p1 = Res.ok mat p2)
    (hblk : loadBlocks options (headerOf data) data p2 = Res.ok blk p3)
    (htab : (headerOf data).objects.offset + 4 + 4 * objCount data ≤ data.length)
    (hi : i < objCount data)
    (hpre : loadObjectList options env (headerOf data).objects.offset
      ((List.range i).map (objEntry data)) ⟨false, env.uninitInfo, []⟩ data
      ((headerOf data).objects.offset + 4 + 4 * objCount data) = Res.ok st r)
    (hobj : loadObject options env (headerOf data).objects.offset st (objEntry data i) data r
      = Res.halt e) :
    load data options env = Outcome.stop e := by
  rw [load_eq_outcome]
  have hm : loadM options env data 0 = Res.halt e := by
    unfold loadM
    rw [run_bind_ok (run_read_ok (show 0 + 164 ≤ data.length by omega))]
    rw [← headerOf, run_ite, if_neg (by rw [headerOf_version, hmagic]; simp)]
    rw [run_bind_ok htex, run_bind_ok hmat, run_bind_ok hblk, run_bind, run_seek]
    dsimp only
    rw [run_bind_ok (run_readU32_ok (by omega))]
    have h4 := run_times_readU32_ok (d := data) (objCount data)
      (p := (headerOf data).objects.offset + 4) (by omega)
    have h5 : uintAt data (headerOf data).objects.offset 4 = objCount data := rfl
    rw [h5, run_bind_ok h4]
    show loadFrom options env (headerOf data) tex mat blk (objTable data) data _ = _
    unfold loadFrom
    apply run_bind_halt
    rw [objTable_split data hi, loadObjectList_append, hpre]
    dsimp only
    rw [loadObjectList_cons, hobj]
  rw [hm]
  rfl

/-! ## The Environment of a scene -/

theorem exists_first {α : Type} (P : α → Prop) [DecidablePred P] (l : List α)
    (h : ∃ y ∈ l, P y) :
    ∃ pre y post, l = pre ++ y :: post ∧ (∀ x ∈ pre, ¬ P x) ∧ P y := by
  induction l with
  | nil =>
    obtain ⟨y, hy, _⟩ := h
    cases hy
  | cons a l ih =>
    by_cases ha : P a
    · exact ⟨[], a, l, rfl, ⟨fun x hx => absurd hx (List.not_mem_nil x), ha⟩⟩
    · obtain ⟨y, hy, hP⟩ := h
      rcases List.mem_cons.mp hy with rfl | hy1
      · exact absurd hP ha
      · obtain ⟨pre, z, post, rfl, hpre, hz⟩ := ih ⟨y, hy1, hP⟩
        refine ⟨a :: pre, z, post, rfl, ?_, hz⟩
        intro x hx
        rcases List.mem_cons.mp hx with rfl | hx1
        · exact ha
        · exact hpre x hx1

/-- The `Info` case on a state that has no Info yet stores the Environment of
the record that it reads. -/
theorem loadInfo_first_info {st st1 : ObjState} {d : List Byte} {p q : Nat}
    (hst : st.hasInfo = false) (h : loadInfo st d p = Res.ok st1 q) :
    ∃ size, lightMapSizes.get? (uintAt d (p + 29) 1) = some size ∧
      st1.info = makeInfo (parseINFO (field d p 62)) size := by
  unfold loadInfo at h
  obtain ⟨bs, r, h1, h2⟩ := bind_ok_inv h
  obtain ⟨rfl, h3, rfl⟩ := read_ok_inv h1
  simp only [hst] at h2
  have hk : (parseINFO (field d p 62)).LMapSize = uintAt d (p + 29) 1 := by
    simp only [parseINFO]
    exact uintAt_field d p 62 29 1 (by omega)
  rw [hk] at h2
  cases hs : lightMapSizes.get? (uintAt d (p + 29) 1) with
  | none =>
    rw [hs] at h2
    simp [run_stop] at h2
  | some size =>
    rw [hs] at h2
    simp only [Bool.false_eq_true, ↓reduceIte, run_pure, Res.ok.injEq] at h2
    obtain ⟨h4, _⟩ := h2
    subst h4
    exact ⟨size, rfl, rfl⟩

/-- A completed object loop that started without an Info, on a table with an
entry that points at an Info record: the Environment is the one of the first
such record, with the lightmap size that its selector picks. -/
theorem loadObjectList_first_info {options : LoadOptions} {env : Env} {base : Nat}
    {l : List Nat} {st st1 : ObjState} {d : List Byte} {p q : Nat}
    (h : loadObjectList options env base l st d p = Res.ok st1 q) (hst : st.hasInfo = false)
    {pre post : List Nat} {y : Nat} (hl : l = pre ++ y :: post)
    (hpre : ∀ x ∈ pre, uintAt d ((base + x) % 2 ^ 32) 4 ≠ 5)
    (hy : uintAt d ((base + y) % 2 ^ 32) 4 = 5) :
    ∃ size, lightMapSizes.get? (uintAt d ((base + y) % 2 ^ 32 + 33) 1) = some size ∧
      st1.info = makeInfo (parseINFO (field d ((base + y) % 2 ^ 32 + 4) 62)) size := by
  subst hl
  obtain ⟨s1, r1, s2, r2, h1, h2, h3⟩ := loadObjectList_split_inv h
  have h4 := loadObjectList_no_info h1 hpre
  obtain ⟨_, h5 | h5⟩ := loadObject_ok_inv h2
  · obtain ⟨size, h6, h7⟩ := loadInfo_first_info (h4.1.trans hst) h5.2
    have h8 := (loadInfo_first_inv (h4.1.trans hst) h5.2).2.2.1
    have h9 := (loadObjectList_keeps_info h3 h8).2
    refine ⟨size, ?_, ?_⟩
    · rw [show (base + y) % 2 ^ 32 + 33 = (base + y) % 2 ^ 32 + 4 + 29 by omega]
      exact h6
    · rw [h9]
      exact h7
  · exact absurd hy h5.1

/-- A completed texture decoder on a present section has read only records
with one of the four known format codes. -/
theorem loadTextures_ok_formats {env : Env} {data : List Byte} {p q : Nat} {ts : List Texture}
    (hoff : (headerOf data).textures.offset ≠ 0)
    (h : loadTextures env (headerOf data) data p = Res.ok ts q) (i : Nat)
    (hi : i < texCount data) :
    texType data i &&& 7 = 2 ∨ texType data i &&& 7 = 4 ∨ texType data i &&& 7 = 5 ∨
      texType data i &&& 7 = 6 := by
  rw [loadTextures_present hoff] at h
  obtain ⟨n, r, h7, h8⟩ := bind_ok_inv h
  obtain ⟨rfl, _, rfl⟩ := readU32_ok_inv h7
  obtain ⟨offs, r1, h9, h10⟩ := bind_ok_inv h8
  have htab := times_readU32_ok_inv _ h9
  have hmem : texEntry data i ∈ offs := by
    rw [htab]
    exact List.mem_map.mpr ⟨i, List.mem_range.mpr hi, rfl⟩
  obtain ⟨r2, t, s, h11⟩ := loadTextureList_ok_mem h10 _ hmem
  exact (loadTexture_ok_inv h11).2

/-- A completed object loop has read only type tags from 1 to 8. -/
theorem loadObjectList_ok_tag {options : LoadOptions} {env : Env} {data : List Byte}
    {st st1 : ObjState} {p q : Nat}
    (h : loadObjectList options env (headerOf data).objects.offset (objTable data) st data p
      = Res.ok st1 q) (i : Nat) (hi : i < objCount data) :
    1 ≤ objTag data i ∧ objTag data i ≤ 8 := by
  rw [objTable_split data hi] at h
  obtain ⟨s1, r1, s2, r3, _, h7, _⟩ := loadObjectList_split_inv h
  obtain ⟨_, h8 | h8⟩ := loadObject_ok_inv h7
  · have h9 : objTag data i = 5 := h8.1
    omega
  · have h9 : 1 ≤ objTag data i := h8.2.1
    have h10 : objTag data i ≤ 8 := h8.2.2.1
    exact ⟨h9, h10⟩

/-- A completed object loop on a file whose first Info record is the `i`-th
object: the size selector of that record is one of 0, 1, 2 and picks the
lightmap size of the Environment. -/
theorem loadObjectList_ok_selector {options : LoadOptions} {env : Env} {data : List Byte}
    {st1 : ObjState} {p q : Nat}
    (h : loadObjectList options env (headerOf data).objects.offset (objTable data)
      ⟨false, env.uninitInfo, []⟩ data p = Res.ok st1 q) (i : Nat) (hi : i < objCount data)
    (htag : objTag data i = 5) (hfirst : ∀ j, j < i → objTag data j ≠ 5) :
    lightMapSizes.get? (uintAt data (objPos data i + 33) 1) = some st1.info.lightMapSize := by
  obtain ⟨size, h1, h2⟩ := loadObjectList_first_info h rfl (objTable_split data hi)
    (by
      intro x hx
      obtain ⟨j, hj, rfl⟩ := mem_range_map hx
      exact hfirst j hj) htag
  rw [h2]
  exact h1

end WMB

namespace WMB
open Rd

/-! ## Failures of the texture and the object decoder, later Info records -/

/-- C5: in a file whose object offset table is `l1 ++ l2`, where `l1` holds an
entry that points at an Info record, the entries of `l2` that point at complete
Info records (the set `dup`, whatever these records contain, size selector
included) have no effect.  (1) `load` yields exactly what the decoder yields on
the table without them.  (2) If the decoder returns a scene on the table
without them, `load` returns that very scene, with the same object sequence,
and its Environment is the one of the first Info record of `l1`: the fields of
that record, with the lightmap size that its selector picks.  (3) The
iteration of the object loop on such a later record returns, on every state
that holds an Info, and leaves the state as it is. -/
theorem later_info_dropped (data : List Byte) (options : LoadOptions) (env : Env)
    (l1 l2 : List Nat) (dup : Nat → Bool)
    (htab : (headerOf data).objects.offset + 4 + 4 * objCount data ≤ data.length)
    (hsplit : objTable data = l1 ++ l2)
    (hfirst : ∃ y ∈ l1, recTag data y = 5)
    (hdup : ∀ x ∈ l2, dup x = true → recTag data x = 5 ∧ recPos data x + 66 ≤ data.length) :
    load data options env =
      (loadWithTable options env (l1 ++ l2.filter (fun x => !dup x)) data 0).outcome ∧
    (∀ lvl, (loadWithTable options env (l1 ++ l2.filter (fun x => !dup x)) data 0).outcome
        = Outcome.scene lvl →
      load data options env = Outcome.scene lvl ∧
      ∃ pre y post size, l1 = pre ++ y :: post ∧ (∀ x ∈ pre, recTag data x ≠ 5) ∧
        recTag data y = 5 ∧
        lightMapSizes.get? (uintAt data (recPos data y + 33) 1) = some size ∧
        lvl.info = makeInfo (parseINFO (field data (recPos data y + 4) 62)) size) ∧
    (∀ x ∈ l2, dup x = true → ∀ st p, st.hasInfo = true →
      loadObject options env (headerOf data).objects.offset st x data p
        = Res.ok st (recPos data x + 66)) := by
  have part1 : load data options env =
      (loadWithTable options env (l1 ++ l2.filter (fun x => !dup x)) data 0).outcome := by
    rw [load_eq_outcome]
    apply outcome_of_forget
    unfold loadM loadWithTable
    rw [run_bind, run_bind]
    cases h0 : Rd.read 164 data 0 with
    | halt e => rfl
    | ok bs r0 =>
      obtain ⟨rfl, _, rfl⟩ := read_ok_inv h0
      dsimp only
      rw [← headerOf, run_ite, run_ite]
      split
      · rfl
      · rw [run_bind, run_bind]
        cases loadTextures env (headerOf data) data (0 + 164) with
        | halt e => rfl
        | ok textures r1 =>
          dsimp only
          rw [run_bind, run_bind]
          cases loadMaterials env (headerOf data) data r1 with
          | halt e => rfl
          | ok materials r2 =>
            dsimp only
            rw [run_bind, run_bind]
            cases loadBlocks options (headerOf data) data r2 with
            | halt e => rfl
            | ok blocks r3 =>
              dsimp only
              rw [run_bind, run_seek]
              dsimp only
              rw [run_bind_ok (run_readU32_ok (by omega))]
              have h4 := run_times_readU32_ok (d := data) (objCount data)
                (p := (headerOf data).objects.offset + 4) (by omega)
              have h5 : uintAt data (headerOf data).objects.offset 4 = objCount data := rfl
              have h6 : (List.range (objCount data)).map
                  (fun i => uintAt data ((headerOf data).objects.offset + 4 + 4 * i) 4)
                  = l1 ++ l2 := hsplit
              rw [h5, run_bind_ok h4, h6]
              exact loadFrom_forget_congr options env (headerOf data) textures materials blocks
                _ _ data _ _
                (loadObjectList_later_info options env _ dup data l1 l2 hfirst hdup _ _ _)
  refine ⟨part1, ?_, ?_⟩
  · intro lvl hl
    have hload : load data options env = Outcome.scene lvl := part1.trans hl
    refine ⟨hload, ?_⟩
    obtain ⟨_, _, tex, mat, blk, p1, p2, p3, q, _, _, _, _, h5⟩ := load_scene_inv hload
    obtain ⟨st, r, lms, r2, tl, h6, _, _, _, rfl⟩ := loadFrom_ok_inv h5
    obtain ⟨pre, y, post, hl1, hpre, hy⟩ := exists_first (fun x => recTag data x = 5) l1 hfirst
    rw [hsplit] at h6
    obtain ⟨size, h7, h8⟩ := loadObjectList_first_info h6 rfl
      (show l1 ++ l2 = pre ++ y :: (post ++ l2) by rw [hl1]; simp) hpre hy
    exact ⟨pre, y, post, size, hl1, hpre, hy, h7, h8⟩
  · intro x hx hd st p hst
    obtain ⟨h1, h2⟩ := hdup x hx hd
    exact run_loadObject_info_later h1 h2 hst

end WMB

namespace WMB
open Rd

set_option maxRecDepth 100000 in
/-- The second Info record of `fileTwoInfos` (size selector 7, azimuth 9.0) is
dropped: `load` returns a scene, the Environment is the one of the first Info
record (size selector 0, azimuth 1.5), and the scene is the one that `load`
returns on `fileMinimal`, the same file without the second Info record. -/
theorem later_info_dropped_witness :
    ∃ lvl, load fileTwoInfos defaultOptions env0 = Outcome.scene lvl ∧
      lvl.info.lightMapSize = 256 ∧ lvl.info.azimuth = 0x3FC00000 ∧
      lvl.objects.length = 1 ∧
      recTag fileTwoInfos 118 = 5 ∧ uintAt fileTwoInfos (recPos fileTwoInfos 118 + 33) 1 = 7 ∧
      f32At fileTwoInfos (recPos fileTwoInfos 118 + 16) = 0x41100000 ∧
      load fileMinimal defaultOptions env0 = Outcome.scene lvl :=
  ⟨_, ((later_info_dropped fileTwoInfos defaultOptions env0 [16] [82, 118] (fun x => x == 118)
      (by decide) (by decide) (by decide) (by decide)).2.1 _ rfl).1,
    by decide, by decide, by decide, by decide, by decide, by decide, by decide!⟩

end WMB
